import Mathlib

/-!
# Helicopter flight-control core: a shallow embedding

The definitions below transcribe the C sources of the tethered helicopter rig
(`rotors.c`, `buffer.c`, `altitude.c`, `yaw.c`, `uart.c`, `system.c`, `mode.c`,
`kernel.c`) into pure Lean functions over an explicit machine state.

Conventions.

* `int32_t` values are `Int`.  C `/` and `%` on signed operands truncate towards
  zero and are written `Int.tdiv` and `Int.tmod`.  Signed overflow is undefined
  in C; signed arithmetic is modelled on the mathematical integers, so the
  results speak about executions in which no signed operation overflows.
* Every machine integer, signed or unsigned, is an `Int`.  Unsigned and
  narrowing conversions, whose wrap-around is defined, are written out with an
  explicit modulus (`toUint8`, `toUint32`, `toInt16`, `toInt32`).  Only the
  size and the cursors of the sample ring, which index a list, are `Nat`.
* `Helicopter *heli` is a value that is passed in and returned.  The file-scope
  objects (`g_inBuffer`, the interrupt flags, the static `tickCount`) are fields
  of `Sys`.
* Calls into the peripheral library that only produce output (PWM, UART, OLED)
  are appended to `Sys.out`, newest first.
* A polling loop consumes a list of `Env` records, one for each pass: the
  interrupt handlers that ran since the previous pass are applied at the start
  of the pass, and the pass reads its pin levels from the record.  In `initAlt`
  the record also says whether the conversion triggered by `SysTick` completes
  inside that call.  A loop that is still polling when the list ends yields
  `Outcome.starved`.
-/

set_option maxRecDepth 100000

namespace Heli

/-! ## Machine integers -/

/-- Conversion of an integer value to `uint8_t`. -/
def toUint8 (x : Int) : Int := x % 256

/-- Conversion of an integer value to `uint32_t`. -/
def toUint32 (x : Int) : Int := x % 4294967296

/-- Conversion of an integer value to `int16_t` (two's complement wrap). -/
def toInt16 (x : Int) : Int := (x + 32768) % 65536 - 32768

/-- Conversion of an integer value to `int32_t` (two's complement wrap). -/
def toInt32 (x : Int) : Int := (x + 2147483648) % 4294967296 - 2147483648

/-! ## rotors.h: constants and the aircraft record -/

def PWM_MAIN_DUTY_MAX : Int := 80
def PWM_MAIN_DUTY_MIN : Int := 20
def PWM_TAIL_DUTY_MAX : Int := 64
def PWM_TAIL_DUTY_MIN : Int := 16
def GAIN_DIVIDE_FACTOR : Int := 1000
def GRAVITY_FACTOR : Int := 51
def MAIN_PWM_START_RATE_HZ : Int := 250
def MAIN_PWM_START_DUTY : Int := 0
def TAIL_PWM_START_RATE_HZ : Int := 250
def TAIL_PWM_START_DUTY : Int := 0

/-- The `Controller` struct of rotors.h. -/
structure Controller where
  prev_altitude_reading : Int
  prev_yawangle_reading : Int
  prev_yaw_reading : Int
  curr_altitude_reading : Int
  curr_yawangle_reading : Int
  yaw_increment : Int
  altitudesetpoint : Int
  yawanglesetpoint : Int
  altitude_move_up : Int
  altitude_move_down : Int
deriving DecidableEq, Repr

/-- The `Rotor` struct of rotors.h.  The peripheral addresses (`pwmBase`,
`pwmGen`, ...) are constants that no computation reads and are left out. -/
structure Rotor where
  ui32Freq : Int
  ui32Duty : Int
  Kp : Int
  Ki : Int
  Kd : Int
  I : Int
deriving DecidableEq, Repr

/-- The `Buffer` struct of rotors.h.  Its `g_inBuffer` pointer is never
dereferenced (buffer.c always uses its own file-scope ring) and is left out. -/
structure Buffer where
  meanVal : Int
  refAltADC : Int
deriving DecidableEq, Repr

inductive Mode where
  | USER_ENABLED
  | USER_DISABLED
deriving DecidableEq, Repr

inductive SubMode where
  | FLY
  | TAKEOFF
  | LANDED
deriving DecidableEq, Repr

/-- The `Helicopter` struct of rotors.h, with the pointed-to records inlined. -/
structure Helicopter where
  controller : Controller
  mainrotor : Rotor
  tailrotor : Rotor
  buffer : Buffer
  mode : Mode
  submode : SubMode
deriving DecidableEq, Repr

/-- The statically initialised aircraft returned by `NewHeli`; members without
an initialiser are zero. -/
def NewHeli : Helicopter :=
  { controller :=
      { prev_altitude_reading := 0, prev_yawangle_reading := 0, prev_yaw_reading := 0,
        curr_altitude_reading := 0, curr_yawangle_reading := 0, yaw_increment := 0,
        altitudesetpoint := 0, yawanglesetpoint := 0,
        altitude_move_up := 1, altitude_move_down := 0 },
    mainrotor :=
      { ui32Freq := MAIN_PWM_START_RATE_HZ, ui32Duty := MAIN_PWM_START_DUTY,
        Kp := 1500, Ki := 10, Kd := 250, I := 0 },
    tailrotor :=
      { ui32Freq := TAIL_PWM_START_RATE_HZ, ui32Duty := TAIL_PWM_START_DUTY,
        Kp := 290, Ki := 2, Kd := 200, I := 0 },
    buffer := { meanVal := 0, refAltADC := 0 },
    mode := Mode.USER_DISABLED,
    submode := SubMode.LANDED }

/-! ## The sample ring -/

/-- Modelled from the spec: the ring-buffer module (`circBufT.h`, with
`initCircBuf`, `writeCircBuf`, `readCircBuf`) is used by buffer.c but is not
among the sources.  The spec describes a fixed-capacity ring of raw samples
with a write cursor advanced by the sampling interrupt, whose mean is taken
over all `capacity` slots.  `readCircBuf` takes no index, so the ring also
carries a read cursor. -/
structure circBuf_t where
  size : Nat
  windex : Nat
  rindex : Nat
  data : List Int
deriving DecidableEq, Repr

/-- Modelled from the spec: a ring of `size` zeroed slots, both cursors at 0. -/
def initCircBuf (size : Nat) : circBuf_t :=
  { size := size, windex := 0, rindex := 0, data := List.replicate size 0 }

/-- Modelled from the spec: store one sample at the write cursor, overwriting
the oldest one, and advance the cursor circularly. -/
def writeCircBuf (b : circBuf_t) (entry : Int) : circBuf_t :=
  { b with
    data := b.data.set b.windex entry,
    windex := if b.windex + 1 ≥ b.size then 0 else b.windex + 1 }

/-- Modelled from the spec: return the slot at the read cursor and advance the
cursor circularly. -/
def readCircBuf (b : circBuf_t) : Int × circBuf_t :=
  (b.data.getD b.rindex 0,
   { b with rindex := if b.rindex + 1 ≥ b.size then 0 else b.rindex + 1 })

/-! ## Outputs and the machine state -/

/-- Calls that only drive a peripheral, recorded with the values they send. -/
inductive Output where
  | SetPWM (isMain : Bool) (ui32Freq ui32Duty : Int)
  | UARTPrint (altitudesetpoint curr_altitude_reading yaw_increment yawAngle : Int)
      (mainDuty tailDuty : Int) (submode : SubMode)
  | DisplayProject (curr_altitude_reading yawAngle : Int) (mainDuty tailDuty : Int)
  | ADCProcessorTrigger
  | SysCtlDelay (count : Int)
deriving DecidableEq, Repr

/-- The aircraft together with every file-scope object of the program. -/
structure Sys where
  heli : Helicopter
  g_inBuffer : circBuf_t
  ChangeMode : Int
  EnableLanding : Int
  YawIntFlag : Int
  YawRefFlag : Int
  DeltaTFlag : Int
  slowTick : Int
  ResetFlag : Int
  tickCount : Int
  out : List Output
deriving DecidableEq, Repr

/-! ## buffer.c and altitude.c -/

def BUF_SIZE : Int := 25

/-- The `for` loop of `BufferCalculate`: `n` more rounds of
`sum += readCircBuf (&g_inBuffer)`.  The addend is a `uint32_t`, so the sum is
formed modulo 2^32 and stored back into the `int32_t`. -/
def BufferCalculate.loop : Nat → Int → circBuf_t → Int × circBuf_t
  | 0, sum, b => (sum, b)
  | n + 1, sum, b =>
    let r := readCircBuf b
    BufferCalculate.loop n (toInt32 (sum + r.1)) r.2

/-- buffer.c `BufferCalculate`: the loop runs for `i = 0 .. BUF_SIZE - 1`. -/
def BufferCalculate (s : Sys) : Sys :=
  let r := BufferCalculate.loop BUF_SIZE.toNat 0 s.g_inBuffer
  let sum := r.1
  { s with
    g_inBuffer := r.2,
    heli := { s.heli with
      buffer := { s.heli.buffer with
        meanVal := Int.tdiv (Int.tdiv (2 * sum + BUF_SIZE) 2) BUF_SIZE } } }

/-- altitude.c `CalculateAltitude`. -/
def CalculateAltitude (s : Sys) : Sys :=
  let s1 := BufferCalculate s
  { s1 with
    heli := { s1.heli with
      controller := { s1.heli.controller with
        curr_altitude_reading :=
          Int.tdiv (-((s1.heli.buffer.meanVal - s1.heli.buffer.refAltADC) * 100)) 1241 } } }

/-! ## rotors.c: the control engine -/

/-- rotors.c `main_controller`: the returned control value and the updated aircraft. -/
def main_controller (heli : Helicopter) : Int × Helicopter :=
  let error := heli.controller.altitudesetpoint - heli.controller.curr_altitude_reading
  let P := heli.mainrotor.Kp * error
  let dI := Int.tdiv (heli.mainrotor.Ki * error) 100
  let D := heli.mainrotor.Kd *
    (heli.controller.prev_altitude_reading - heli.controller.curr_altitude_reading) * 100
  let control := Int.tdiv (P + (heli.mainrotor.I + dI) + D) GAIN_DIVIDE_FACTOR
  let heli1 := { heli with mainrotor := { heli.mainrotor with I := heli.mainrotor.I + dI } }
  let heli2 := { heli1 with
    controller := { heli1.controller with
      prev_altitude_reading := heli1.controller.curr_altitude_reading } }
  (control, heli2)

/-- rotors.c `tail_controller`: the returned control value and the updated aircraft. -/
def tail_controller (heli : Helicopter) : Int × Helicopter :=
  let error := heli.controller.yawanglesetpoint - heli.controller.curr_yawangle_reading
  let P := heli.tailrotor.Kp * error
  let dI := Int.tdiv (heli.tailrotor.Ki * error) 100
  let D := heli.tailrotor.Kd *
    (heli.controller.prev_yawangle_reading - heli.controller.curr_yawangle_reading) * 100
  let control := Int.tdiv (P + (heli.tailrotor.I + dI) + D) GAIN_DIVIDE_FACTOR
  let heli1 := { heli with tailrotor := { heli.tailrotor with I := heli.tailrotor.I + dI } }
  let heli2 := { heli1 with
    controller := { heli1.controller with
      prev_yawangle_reading := heli1.controller.curr_yawangle_reading } }
  (control, heli2)

/-- The opening statements of `ControllerImplementation`: the altitude update
and the two locals `main_controlOutput` and `tail_controlOutput` as they are
initialised, before the saturation tests. -/
def ControllerImplementation.outputs (s : Sys) : Int × Int × Sys :=
  let s1 := CalculateAltitude s
  let m := main_controller s1.heli
  let main_controlOutput := m.1 + GRAVITY_FACTOR
  let t := tail_controller m.2
  let tail_controlOutput := t.1 + Int.tdiv (8 * main_controlOutput) 10
  (main_controlOutput, tail_controlOutput, { s1 with heli := t.2 })

/-- rotors.c `ControllerImplementation`. -/
def ControllerImplementation (s : Sys) : Sys :=
  let r := ControllerImplementation.outputs s
  let main_controlOutput := r.1
  let tail_controlOutput := r.2.1
  let s1 := r.2.2
  let main_sat :=
    if main_controlOutput > PWM_MAIN_DUTY_MAX then PWM_MAIN_DUTY_MAX
    else if main_controlOutput < PWM_MAIN_DUTY_MIN then PWM_MAIN_DUTY_MIN
    else main_controlOutput
  let tail_sat :=
    if tail_controlOutput > PWM_TAIL_DUTY_MAX then PWM_TAIL_DUTY_MAX
    else if tail_controlOutput < PWM_TAIL_DUTY_MIN then PWM_TAIL_DUTY_MIN
    else tail_controlOutput
  let heli1 := s1.heli
  let heli2 := { heli1 with mainrotor := { heli1.mainrotor with ui32Duty := toUint32 main_sat } }
  let heli3 := { heli2 with tailrotor := { heli2.tailrotor with ui32Duty := toUint32 tail_sat } }
  { s1 with heli := heli3 }

/-- rotors.c `SetPWM`: the period and pulse width handed to the PWM generator
are determined by the rotor's frequency and duty fields. -/
def SetPWM (isMain : Bool) (s : Sys) : Sys :=
  let rotor := if isMain then s.heli.mainrotor else s.heli.tailrotor
  { s with out := Output.SetPWM isMain rotor.ui32Freq rotor.ui32Duty :: s.out }

/-- rotors.c `AdjustHeli`.  `UP`, `DOWN`, `RIGHT`, `LEFT` say whether
`checkButton` of that button reports `PUSHED` when it is asked in this call. -/
def AdjustHeli (UP DOWN RIGHT LEFT : Bool) (s : Sys) : Sys :=
  let c := s.heli.controller
  let c1 :=
    if UP = true ∧ c.altitudesetpoint ≤ 90 then
      { c with altitudesetpoint := c.altitudesetpoint + 10 }
    else if DOWN = true ∧ c.altitudesetpoint ≥ 10 then
      { c with altitudesetpoint := c.altitudesetpoint - 10 }
    else if RIGHT = true then
      { c with
        yawanglesetpoint := c.yawanglesetpoint - Int.tdiv 56 3,
        yaw_increment := c.yaw_increment - 15 }
    else if LEFT = true then
      { c with
        yawanglesetpoint := c.yawanglesetpoint + Int.tdiv 56 3,
        yaw_increment := c.yaw_increment + 15 }
    else c
  let c2 := { c1 with yawanglesetpoint := Int.tmod c1.yawanglesetpoint 448 }
  let c3 := { c2 with yaw_increment := Int.tmod (c2.yaw_increment + 540) 360 - 180 }
  SetPWM false (SetPWM true { s with heli := { s.heli with controller := c3 } })

/-! ## yaw.c: the quadrature tracker -/

def NUM_SLOTS : Int := 112
def TOTAL_DEG : Int := 360

/-- The increment table of yaw.c, indexed by `(current << 2) | previous`. -/
def adjust_table : List Int := [0, 1, -1, 0, -1, 0, 0, 1, 1, 0, 0, -1, 0, -1, 1, 0]

def GPIO_PIN_0 : Int := 1
def GPIO_PIN_1 : Int := 2
def GPIO_PIN_6 : Int := 64
def GPIO_PIN_7 : Int := 128
def SW1_PIN : Int := GPIO_PIN_7
def SW2_PIN : Int := GPIO_PIN_6

/-- The peripheral library's `GPIOPinRead` for one pin: the pin's own bit when
the line is high, 0 when it is low. -/
def GPIOPinRead (level : Bool) (pin : Int) : Int := if level then pin else 0

/-- yaw.c `ReadQuadrectureDecoder`, given the levels of PB0 and PB1. -/
def ReadQuadrectureDecoder (PB0 PB1 : Bool) : Int :=
  let channelA := GPIOPinRead PB0 GPIO_PIN_0
  let channelB := GPIOPinRead PB1 GPIO_PIN_1
  Int.lor channelA channelB

/-- yaw.c `ExecuteYawInt`, given the value `ReadQuadrectureDecoder` returns.
The result is `none` when the table index falls outside the 16 entries. -/
def ExecuteYawInt (currentRead : Int) (heli : Helicopter) : Option Helicopter :=
  let select := Int.lor (currentRead <<< (2 : Int)) heli.controller.prev_yaw_reading
  if select < 0 then none
  else
    match adjust_table[select.toNat]? with
    | none => none
    | some adj =>
      let c1 := { heli.controller with
        curr_yawangle_reading := heli.controller.curr_yawangle_reading + adj }
      let c2 := { c1 with curr_yawangle_reading := Int.tmod c1.curr_yawangle_reading 448 }
      some { heli with controller := { c2 with prev_yaw_reading := currentRead } }

/-- yaw.c `GetYawAngleDegrees`.  `YAW_DELTA` is the token sequence
`TOTAL_DEG / (NUM_SLOTS * 4)`, so the returned expression reads
`(... % 448 - 224) * 360 / (112 * 4)`; the value is returned as `int16_t`. -/
def GetYawAngleDegrees (heli : Helicopter) : Int :=
  toInt16
    (Int.tdiv
      ((Int.tmod (heli.controller.curr_yawangle_reading + 672) 448 - 224) * TOTAL_DEG)
      (NUM_SLOTS * 4))

/-! ## uart.c and system.c -/

def SYSTICK_RATE_HZ : Int := 100
def SLOWTICK_RATE_HZ : Int := 8

/-- uart.c `UARTPrint`: one status line with the seven printed values. -/
def UARTPrint (s : Sys) : Sys :=
  let yawAngle := GetYawAngleDegrees s.heli
  let line :=
    Output.UARTPrint s.heli.controller.altitudesetpoint s.heli.controller.curr_altitude_reading
      s.heli.controller.yaw_increment yawAngle s.heli.mainrotor.ui32Duty
      s.heli.tailrotor.ui32Duty s.heli.submode
  { s with out := line :: s.out }

/-- system.c `DisplayProject`: the four values drawn on the display. -/
def DisplayProject (s : Sys) : Sys :=
  let yawAngle := GetYawAngleDegrees s.heli
  let screen :=
    Output.DisplayProject s.heli.controller.curr_altitude_reading yawAngle
      s.heli.mainrotor.ui32Duty s.heli.tailrotor.ui32Duty
  { s with out := screen :: s.out }

/-- The `const uint8_t ticksPerSlow` of `SysTick`. -/
def ticksPerSlow : Int := toUint8 (Int.tdiv SYSTICK_RATE_HZ SLOWTICK_RATE_HZ)

/-- system.c `SysTick`.  `updateButtons` polls the button library and changes
nothing in this state. -/
def SysTick (s : Sys) : Sys :=
  let s1 := { s with out := Output.ADCProcessorTrigger :: s.out }
  let s2 := { s1 with tickCount := toUint8 (s1.tickCount + 1) }
  if s2.tickCount ≥ ticksPerSlow then
    UARTPrint { s2 with tickCount := 0, slowTick := 1 }
  else s2

/-! ## The environment of one pass of a polling loop -/

/-- What the hardware does around one pass of a polling loop: which interrupt
handlers ran since the previous pass, and the levels and button events the pass
reads.  `ADCInt` is a conversion that completed before the pass began.
`ADCIntAfterTrigger` is the conversion that `SysTick` triggers in this pass
when it completes while `SysTick` is still running, so that its handler has
stored the sample before the pass goes on.  Only `initAlt.loop` consults it.
`Run_Kernel`, `ModeTakeoff` and `ModeLand` read the ring before they trigger,
so there a sample stored inside `SysTick` is read where one stored at the
start of the next pass is; in `LocatePivot`, whose control tick follows the
trigger, the sample is taken to arrive with a later pass. -/
structure Env where
  SysTickInt : Bool
  ADCInt : Option Int
  YawInt : Bool
  YawRefInt : Bool
  ModeSWTickInt : Bool
  SW1 : Bool
  SW2 : Bool
  PB0 : Bool
  PB1 : Bool
  UP : Bool
  DOWN : Bool
  RIGHT : Bool
  LEFT : Bool
  ADCIntAfterTrigger : Option Int := none
deriving DecidableEq, Repr

/-- buffer.c `ADCIntHandler`: the converted sample is written to the ring. -/
def ADCIntHandler (ulValue : Int) (s : Sys) : Sys :=
  { s with g_inBuffer := writeCircBuf s.g_inBuffer (toUint32 ulValue) }

/-- The interrupt handlers: `SysTickIntHandler`, `ADCIntHandler`,
`YawIntHandler`, `YawRefIntHandler`, `ModeSWTickIntHandler`. -/
def interrupts (e : Env) (s : Sys) : Sys :=
  let s1 := if e.SysTickInt then { s with DeltaTFlag := 1 } else s
  let s2 :=
    match e.ADCInt with
    | some ulValue => { s1 with g_inBuffer := writeCircBuf s1.g_inBuffer (toUint32 ulValue) }
    | none => s1
  let s3 := if e.YawInt then { s2 with YawIntFlag := 1 } else s2
  let s4 := if e.YawRefInt then { s3 with YawRefFlag := 1 } else s3
  if e.ModeSWTickInt then { s4 with ChangeMode := 1 } else s4

/-- How one pass of a loop body ends. -/
inductive Pass where
  | next (s : Sys)
  | reset (s : Sys)
  | fault
deriving DecidableEq, Repr

/-- How a call that contains polling loops ends: it returns (handing back the
environment it did not consume), it reaches `SysCtlReset`, it indexes
`adjust_table` out of bounds, or the supplied environment ends while a loop is
still polling. -/
inductive Outcome where
  | returned (s : Sys) (rest : List Env)
  | reset (s : Sys)
  | fault
  | starved (s : Sys)
deriving DecidableEq, Repr

/-- The block `if (DeltaTFlag) { DeltaTFlag = 0; ControllerImplementation;
SysTick; if (slowTick) DisplayProject; }` shared by `Run_Kernel`, `ModeTakeoff`
and `ModeLand`. -/
def serviceTick (s : Sys) : Sys :=
  if s.DeltaTFlag ≠ 0 then
    let s1 := { s with DeltaTFlag := 0 }
    let s2 := ControllerImplementation s1
    let s3 := SysTick s2
    if s3.slowTick ≠ 0 then DisplayProject s3 else s3
  else s

/-- The block `if (YawIntFlag) { YawIntFlag = 0; ExecuteYawInt(heli); }`. -/
def serviceYaw (e : Env) (s : Sys) : Option Sys :=
  if s.YawIntFlag ≠ 0 then
    let s1 := { s with YawIntFlag := 0 }
    match ExecuteYawInt (ReadQuadrectureDecoder e.PB0 e.PB1) s1.heli with
    | none => none
    | some h => some { s1 with heli := h }
  else some s

/-! ## mode.c: the flight-mode state machine -/

/-- One pass of the `while (!YawRefFlag)` body of `LocatePivot`. -/
def LocatePivot.pass (e : Env) (s : Sys) : Pass :=
  let s0 := interrupts e s
  let s1 :=
    if s0.DeltaTFlag ≠ 0 then
      let a := { s0 with ResetFlag := toUint8 (GPIOPinRead e.SW2 SW2_PIN) }
      let b := { a with DeltaTFlag := 0 }
      let c := SysTick b
      let d := if c.slowTick ≠ 0 then DisplayProject c else c
      let f := { d with heli := { d.heli with controller := { d.heli.controller with
        yawanglesetpoint := d.heli.controller.curr_yawangle_reading + 10 } } }
      let g := ControllerImplementation f
      SetPWM false (SetPWM true g)
    else s0
  match serviceYaw e s1 with
  | none => Pass.fault
  | some s2 => if s2.ResetFlag ≠ 0 then Pass.reset s2 else Pass.next s2

/-- The `if (DeltaTFlag) { ... }` block of `LocatePivot.pass`, named on its own:
the reset poll, the telemetry tick, the setpoint advance, the control tick and
the two PWM writes, applied to the state `s0` the pass starts from. -/
def LocatePivot.tick (e : Env) (s0 : Sys) : Sys :=
  let a := { s0 with ResetFlag := toUint8 (GPIOPinRead e.SW2 SW2_PIN) }
  let b := { a with DeltaTFlag := 0 }
  let c := SysTick b
  let d := if c.slowTick ≠ 0 then DisplayProject c else c
  let f := { d with heli := { d.heli with controller := { d.heli.controller with
    yawanglesetpoint := d.heli.controller.curr_yawangle_reading + 10 } } }
  let g := ControllerImplementation f
  SetPWM false (SetPWM true g)

/-- The `while (!YawRefFlag)` loop of `LocatePivot`. -/
def LocatePivot.loop : List Env → Sys → Outcome
  | [], s => if s.YawRefFlag = 0 then Outcome.starved s else Outcome.returned s []
  | e :: rest, s =>
    if s.YawRefFlag = 0 then
      match LocatePivot.pass e s with
      | Pass.next s1 => LocatePivot.loop rest s1
      | Pass.reset s1 => Outcome.reset s1
      | Pass.fault => Outcome.fault
    else Outcome.returned s (e :: rest)

/-- The three assignments of `LocatePivot` after its loop. -/
def LocatePivot.finish (s : Sys) : Sys :=
  let s1 := { s with YawRefFlag := 0 }
  let s2 := { s1 with heli := { s1.heli with controller := { s1.heli.controller with
    yawanglesetpoint := 0 } } }
  { s2 with heli := { s2.heli with controller := { s2.heli.controller with
    curr_yawangle_reading := 0 } } }

/-- mode.c `LocatePivot`. -/
def LocatePivot (envs : List Env) (s : Sys) : Outcome :=
  match LocatePivot.loop envs { s with YawRefFlag := 0 } with
  | Outcome.returned s1 rest => Outcome.returned (LocatePivot.finish s1) rest
  | o => o

/-- One pass of the loop body that `ModeTakeoff` and `ModeLand` share word for
word. -/
def altitudePass (e : Env) (s : Sys) : Pass :=
  let s0 := interrupts e s
  let s1 := { s0 with ResetFlag := toUint8 (GPIOPinRead e.SW2 SW2_PIN) }
  let s2 := serviceTick s1
  match serviceYaw e s2 with
  | none => Pass.fault
  | some s3 =>
    if s3.ResetFlag ≠ 0 then Pass.reset s3
    else Pass.next (SetPWM false (SetPWM true s3))

/-- The `while (curr_altitude_reading < altitudesetpoint)` loop of `ModeTakeoff`. -/
def ModeTakeoff.loop : List Env → Sys → Outcome
  | [], s =>
    if s.heli.controller.curr_altitude_reading < s.heli.controller.altitudesetpoint then
      Outcome.starved s
    else Outcome.returned s []
  | e :: rest, s =>
    if s.heli.controller.curr_altitude_reading < s.heli.controller.altitudesetpoint then
      match altitudePass e s with
      | Pass.next s1 => ModeTakeoff.loop rest s1
      | Pass.reset s1 => Outcome.reset s1
      | Pass.fault => Outcome.fault
    else Outcome.returned s (e :: rest)

/-- mode.c `ModeFly`. -/
def ModeFly (s : Sys) : Sys :=
  let s1 := { s with heli := { s.heli with mode := Mode.USER_ENABLED } }
  { s1 with heli := { s1.heli with submode := SubMode.FLY } }

/-- The two assignments of `ModeTakeoff` before its loop. -/
def ModeTakeoff.start (s : Sys) : Sys :=
  let s1 := { s with heli := { s.heli with submode := SubMode.TAKEOFF } }
  { s1 with heli := { s1.heli with controller := { s1.heli.controller with
    altitudesetpoint := 5 } } }

/-- The tail of `ModeTakeoff` after `LocatePivot` has returned. -/
def ModeTakeoff.finish (s : Sys) : Sys :=
  let s1 := ModeFly s
  { s1 with heli := { s1.heli with controller := { s1.heli.controller with
    altitudesetpoint := 10 } } }

/-- mode.c `ModeTakeoff`. -/
def ModeTakeoff (envs : List Env) (s : Sys) : Outcome :=
  match ModeTakeoff.loop envs (ModeTakeoff.start s) with
  | Outcome.returned s1 rest1 =>
    match LocatePivot rest1 s1 with
    | Outcome.returned s2 rest2 => Outcome.returned (ModeTakeoff.finish s2) rest2
    | o => o
  | o => o

/-- mode.c `StopRotors`. -/
def StopRotors (s : Sys) : Sys :=
  let s1 := { s with heli := { s.heli with mainrotor := { s.heli.mainrotor with ui32Duty := 0 } } }
  let s2 := SetPWM true s1
  let s3 := { s2 with heli := { s2.heli with tailrotor := { s2.heli.tailrotor with ui32Duty := 0 } } }
  SetPWM false s3

/-- The `while (curr_altitude_reading > altitudesetpoint)` loop of `ModeLand`. -/
def ModeLand.loop : List Env → Sys → Outcome
  | [], s =>
    if s.heli.controller.curr_altitude_reading > s.heli.controller.altitudesetpoint then
      Outcome.starved s
    else Outcome.returned s []
  | e :: rest, s =>
    if s.heli.controller.curr_altitude_reading > s.heli.controller.altitudesetpoint then
      match altitudePass e s with
      | Pass.next s1 => ModeLand.loop rest s1
      | Pass.reset s1 => Outcome.reset s1
      | Pass.fault => Outcome.fault
    else Outcome.returned s (e :: rest)

/-- mode.c `ModeLand`. -/
def ModeLand (envs : List Env) (s : Sys) : Outcome :=
  let s0 : Sys := { s with heli := { s.heli with submode := SubMode.LANDED } }
  if s0.EnableLanding ≠ 0 then
    let s1 := { s0 with heli := { s0.heli with mode := Mode.USER_DISABLED } }
    let s2 := { s1 with heli := { s1.heli with controller := { s1.heli.controller with
      altitudesetpoint := 5 } } }
    match ModeLand.loop envs s2 with
    | Outcome.returned s3 rest3 =>
      match LocatePivot rest3 s3 with
      | Outcome.returned s4 rest4 =>
        Outcome.returned (StopRotors { s4 with EnableLanding := 0 }) rest4
      | o => o
    | o => o
  else Outcome.returned (StopRotors s0) envs

/-- The assignments of `ModeLand` before its loop when landing is permitted. -/
def ModeLand.start (s : Sys) : Sys :=
  let s0 : Sys := { s with heli := { s.heli with submode := SubMode.LANDED } }
  let s1 := { s0 with heli := { s0.heli with mode := Mode.USER_DISABLED } }
  { s1 with heli := { s1.heli with controller := { s1.heli.controller with
    altitudesetpoint := 5 } } }

/-- mode.c `ExecuteHelicopterMode`, given the level of the mode switch SW1. -/
def ExecuteHelicopterMode (SW1 : Bool) (envs : List Env) (s : Sys) : Outcome :=
  let state := toUint8 (GPIOPinRead SW1 SW1_PIN)
  if state ≠ 0 then
    match ModeTakeoff envs s with
    | Outcome.returned s1 rest => Outcome.returned { s1 with EnableLanding := 1 } rest
    | o => o
  else ModeLand envs s

/-! ## kernel.c and the calibration loop -/

/-- One pass of the `while (1)` body of `Run_Kernel`.  The environment `e`
belongs to this pass; `rest` is consumed by the loops of a mode change. -/
def Run_Kernel.pass (e : Env) (rest : List Env) (s : Sys) : Outcome :=
  let s0 := interrupts e s
  let s1 := { s0 with ResetFlag := toUint8 (GPIOPinRead e.SW2 SW2_PIN) }
  let s2 := if s1.heli.mode = Mode.USER_ENABLED then AdjustHeli e.UP e.DOWN e.RIGHT e.LEFT s1 else s1
  let s3 := serviceTick s2
  let afterMode : Outcome :=
    if s3.ChangeMode ≠ 0 then
      let a := { s3 with ChangeMode := 0 }
      let b := { a with out := Output.SysCtlDelay 300 :: a.out }
      ExecuteHelicopterMode e.SW1 rest b
    else Outcome.returned s3 rest
  match afterMode with
  | Outcome.returned s4 rest4 =>
    match serviceYaw e s4 with
    | none => Outcome.fault
    | some s5 => if s5.ResetFlag ≠ 0 then Outcome.reset s5 else Outcome.returned s5 rest4
  | o => o

/-- The part of `Run_Kernel.pass` before the mode-change test: the interrupt
handlers, the reset poll, the button adjustment and the tick service. -/
def Run_Kernel.beforeMode (e : Env) (s : Sys) : Sys :=
  let s0 := interrupts e s
  let s1 := { s0 with ResetFlag := toUint8 (GPIOPinRead e.SW2 SW2_PIN) }
  let s2 := if s1.heli.mode = Mode.USER_ENABLED then AdjustHeli e.UP e.DOWN e.RIGHT e.LEFT s1 else s1
  serviceTick s2

/-- The part of `Run_Kernel.pass` after the mode-change block: the quadrature
service and the reset test, applied to what the block produced. -/
def Run_Kernel.afterMode (e : Env) : Outcome → Outcome
  | Outcome.returned s4 rest4 =>
    match serviceYaw e s4 with
    | none => Outcome.fault
    | some s5 => if s5.ResetFlag ≠ 0 then Outcome.reset s5 else Outcome.returned s5 rest4
  | o => o

/-- The `while (1)` loop of `Run_Kernel` over the passes `envs`; `fuel` bounds
the number of passes, a mode change consuming passes of its own. -/
def Run_Kernel.loop : Nat → List Env → Sys → Outcome
  | 0, _, s => Outcome.starved s
  | _ + 1, [], s => Outcome.starved s
  | fuel + 1, e :: rest, s =>
    match Run_Kernel.pass e rest s with
    | Outcome.returned s1 rest1 => Run_Kernel.loop fuel rest1 s1
    | o => o

/-- kernel.c `Run_Kernel`.  The loop has no exit: a run ends in `SysCtlReset`,
in a fault, or with the supplied passes used up. -/
def Run_Kernel (envs : List Env) (s : Sys) : Outcome := Run_Kernel.loop envs.length envs s

/-- The `while (!intialise)` loop of altitude.c `initAlt`; `sysTickCounter` is
its `uint8_t` local.  The ADC handler is asynchronous: when the conversion that
`SysTick` triggers completes before `SysTick` returns, the sample is in the
ring when `BufferCalculate` reads it (`ADCIntAfterTrigger`); nothing after the
trigger inside `SysTick` reads the ring, so the handler is applied to the
state `SysTick` returns. -/
def initAlt.loop : List Env → Int → Sys → Outcome
  | [], _, s => Outcome.starved s
  | e :: rest, sysTickCounter, s =>
    let s0 := interrupts e s
    if s0.DeltaTFlag ≠ 0 then
      let s1 :=
        match e.ADCIntAfterTrigger with
        | some ulValue => ADCIntHandler ulValue (SysTick s0)
        | none => SysTick s0
      let counter1 := toUint8 (sysTickCounter + 1)
      if counter1 ≥ 25 then
        let s2 := BufferCalculate s1
        Outcome.returned
          { s2 with heli := { s2.heli with buffer := { s2.heli.buffer with
            refAltADC := s2.heli.buffer.meanVal } } } rest
      else initAlt.loop rest counter1 s1
    else initAlt.loop rest sysTickCounter s0

/-- altitude.c `initAlt`. -/
def initAlt (envs : List Env) (s : Sys) : Outcome := initAlt.loop envs 0 s

/-- The machine state once `main` has built the aircraft and `initBuffer` has
set up the 25-slot ring: every flag clear, nothing sent yet. -/
def bootSys : Sys :=
  { heli := NewHeli, g_inBuffer := initCircBuf BUF_SIZE.toNat, ChangeMode := 0, EnableLanding := 0,
    YawIntFlag := 0, YawRefFlag := 0, DeltaTFlag := 0, slowTick := 0, ResetFlag := 0,
    tickCount := 0, out := [] }

/-- A sequence of `ExecuteYawInt` calls, one for each quadrature code read. -/
def ExecuteYawInt.run : List Int → Helicopter → Option Helicopter
  | [], heli => some heli
  | currentRead :: later, heli =>
    match ExecuteYawInt currentRead heli with
    | none => none
    | some heli1 => ExecuteYawInt.run later heli1

/-! ## States and environments used in the worked examples -/

/-- The start-up machine with the given ring contents, read cursor and
calibration reference. -/
def exampleSys (data : List Int) (rindex : Nat) (refAltADC : Int) : Sys :=
  { bootSys with
    g_inBuffer := { size := 25, windex := 0, rindex := rindex, data := data },
    heli := { NewHeli with buffer := { meanVal := 0, refAltADC := refAltADC } } }

/-- The start-up aircraft with the yaw position and previous quadrature code
replaced. -/
def exampleYaw (position prevCode : Int) : Helicopter :=
  { NewHeli with controller := { NewHeli.controller with
      curr_yawangle_reading := position, prev_yaw_reading := prevCode } }

/-- An environment in which nothing happens: no interrupt, all lines low, no
button event. -/
def quietEnv : Env :=
  { SysTickInt := false, ADCInt := none, YawInt := false, YawRefInt := false,
    ModeSWTickInt := false, SW1 := false, SW2 := false, PB0 := false, PB1 := false,
    UP := false, DOWN := false, RIGHT := false, LEFT := false }

/-- A machine in flight: the start-up machine with calibration reference 100
over an all-zero ring (altitude 8), after a completed takeoff. -/
def exampleFlying : Sys :=
  { exampleSys (List.replicate 25 0) 0 100 with
    heli := { NewHeli with
      controller := { NewHeli.controller with
        prev_altitude_reading := 8, curr_altitude_reading := 8, altitudesetpoint := 10 },
      mainrotor := { NewHeli.mainrotor with ui32Duty := 20 },
      tailrotor := { NewHeli.tailrotor with ui32Duty := 16 },
      buffer := { meanVal := 0, refAltADC := 100 },
      mode := Mode.USER_ENABLED,
      submode := SubMode.FLY },
    EnableLanding := 1 }

/-! ## Spec-side definitions -/

/-- The spec's saturation: the value of `[lo, hi]` nearest to `x`. -/
def clamp (x lo hi : Int) : Int := max lo (min x hi)

/-- Fields that no interrupt handler, control tick, telemetry tick or
quadrature edge writes: `s1` has the phase, the access mode, the altitude
setpoint, the landing permission and the calibration reference of `s`. -/
def FlightFrame (s s1 : Sys) : Prop :=
  s1.heli.submode = s.heli.submode ∧ s1.heli.mode = s.heli.mode ∧
  s1.heli.controller.altitudesetpoint = s.heli.controller.altitudesetpoint ∧
  s1.EnableLanding = s.EnableLanding ∧
  s1.heli.buffer.refAltADC = s.heli.buffer.refAltADC

/-- The machine state a pass ends with; a fault has none. -/
def Pass.sys : Pass → Option Sys
  | Pass.next s => some s
  | Pass.reset s => some s
  | Pass.fault => none

/-- The machine state an outcome carries; a fault has none. -/
def Outcome.sys : Outcome → Option Sys
  | Outcome.returned s _ => some s
  | Outcome.reset s => some s
  | Outcome.fault => none
  | Outcome.starved s => some s

/-- Whether the call returned to its caller. -/
def Outcome.isReturned : Outcome → Bool
  | Outcome.returned _ _ => true
  | _ => false

/-- The same pass ending with `f` applied to its machine state. -/
def Pass.mapSys (f : Sys → Sys) : Pass → Pass
  | Pass.next s => Pass.next (f s)
  | Pass.reset s => Pass.reset (f s)
  | Pass.fault => Pass.fault

/-- The same outcome with `f` applied to its machine state. -/
def Outcome.mapSys (f : Sys → Sys) : Outcome → Outcome
  | Outcome.returned s rest => Outcome.returned (f s) rest
  | Outcome.reset s => Outcome.reset (f s)
  | Outcome.fault => Outcome.fault
  | Outcome.starved s => Outcome.starved (f s)

/-- The machine with the mode-switch-changed flag replaced. -/
def setChangeMode (v : Int) (s : Sys) : Sys := { s with ChangeMode := v }

/-- The value of `ChangeMode` after the interrupt handlers of the passes
`consumed` have run on a flag that held `v` and that nothing else writes:
`ModeSWTickIntHandler` stores 1. -/
def changeModeAfter : Int → List Env → Int
  | v, [] => v
  | v, e :: later => changeModeAfter (if e.ModeSWTickInt then 1 else v) later

/-- Whether an output is a status line sent by `UARTPrint`. -/
def Output.isUARTPrint : Output → Bool
  | Output.UARTPrint _ _ _ _ _ _ _ => true
  | _ => false

/-- Whether an output is a screen drawn by `DisplayProject`. -/
def Output.isDisplayProject : Output → Bool
  | Output.DisplayProject _ _ _ _ => true
  | _ => false

/-- The number of status lines among the outputs. -/
def uartLines (out : List Output) : Nat := (out.filter Output.isUARTPrint).length

/-- The number of display refreshes among the outputs. -/
def displayCalls (out : List Output) : Nat := (out.filter Output.isDisplayProject).length

/-- The three mode indicators agree: `mode` is USER_ENABLED exactly when
`submode` is FLY, and `submode` is FLY exactly when `EnableLanding` is set. -/
def ModesAgree (s : Sys) : Prop :=
  (s.heli.mode = Mode.USER_ENABLED ↔ s.heli.submode = SubMode.FLY) ∧
  (s.heli.submode = SubMode.FLY ↔ s.EnableLanding ≠ 0)

/-- The three mode indicators of `s1` are those of `s`. -/
def SameModes (s s1 : Sys) : Prop :=
  s1.heli.mode = s.heli.mode ∧ s1.heli.submode = s.heli.submode ∧
  s1.EnableLanding = s.EnableLanding

/-- The same pass of a loop with no edge on the mode switch in it. -/
def withoutSwitch (e : Env) : Env := { e with ModeSWTickInt := false }

/-- The same outcome with `f` applied to the passes a return leaves unconsumed. -/
def Outcome.mapRest (f : List Env → List Env) : Outcome → Outcome
  | Outcome.returned s rest => Outcome.returned s (f rest)
  | o => o

/-- The blocking call `F` neither reads nor writes `ChangeMode`.  It consumes a
front part `consumed` of the passes it is given, and whatever the flag held on
entry the call ends the same way, the flag holding what the interrupt handlers
of the consumed passes left in it; and with every edge on the mode switch
taken out of the passes, the call ends the same way, in the same machine state
apart from the flag, after the same number of passes. -/
def IgnoresChangeMode (F : List Env → Sys → Outcome) : Prop :=
  ∀ (envs : List Env) (s : Sys),
    (∃ consumed left : List Env, envs = consumed ++ left ∧
      (∀ v, F envs (setChangeMode v s) =
        (F envs s).mapSys (setChangeMode (changeModeAfter v consumed))) ∧
      (∀ s1 rest, F envs s = Outcome.returned s1 rest →
        rest = left ∧ s1.ChangeMode = changeModeAfter s.ChangeMode consumed)) ∧
    F (envs.map withoutSwitch) s =
      ((F envs s).mapSys (setChangeMode s.ChangeMode)).mapRest (List.map withoutSwitch)

/-- Fields that neither a control tick, a telemetry tick, a display refresh, a
PWM write nor a button adjustment writes: `s1` has the flags `ChangeMode`,
`ResetFlag`, `EnableLanding`, `YawRefFlag` and `YawIntFlag` and the stored
quadrature code of `s`. -/
def FlagFrame (s s1 : Sys) : Prop :=
  s1.ChangeMode = s.ChangeMode ∧ s1.ResetFlag = s.ResetFlag ∧
  s1.EnableLanding = s.EnableLanding ∧ s1.YawRefFlag = s.YawRefFlag ∧
  s1.YawIntFlag = s.YawIntFlag ∧
  s1.heli.controller.prev_yaw_reading = s.heli.controller.prev_yaw_reading

/-! ## Arithmetic helpers -/

theorem toUint32_of_range (x : Int) (h0 : 0 ≤ x) (h1 : x < 4294967296) : toUint32 x = x := by
  unfold toUint32
  exact Int.emod_eq_of_lt h0 h1

theorem toInt32_of_range (x : Int) (h0 : -2147483648 ≤ x) (h1 : x < 2147483648) :
    toInt32 x = x := by
  unfold toInt32
  omega

theorem toInt16_of_range (x : Int) (h0 : -32768 ≤ x) (h1 : x < 32768) : toInt16 x = x := by
  unfold toInt16
  omega

theorem tdiv_of_nonneg (a c : Int) (ha : 0 ≤ a) (hc : 0 ≤ c) : a.tdiv c = a / c :=
  Int.tdiv_eq_ediv ha hc

theorem tdiv_of_nonpos (a c : Int) (ha : a ≤ 0) (hc : 0 ≤ c) : a.tdiv c = -((-a) / c) := by
  have h := Int.neg_tdiv (-a) c
  rw [neg_neg] at h
  rw [h, Int.tdiv_eq_ediv (by omega) hc]

/-! ## The control engine (rotors.c) -/

theorem ControllerImplementation_mainDuty (s : Sys) :
    (ControllerImplementation s).heli.mainrotor.ui32Duty =
      clamp (ControllerImplementation.outputs s).1 20 80 := by
  simp only [ControllerImplementation, PWM_MAIN_DUTY_MAX, PWM_MAIN_DUTY_MIN, clamp]
  generalize (ControllerImplementation.outputs s).1 = main_raw
  split_ifs with h1 h2
  · rw [toUint32_of_range 80 (by norm_num) (by norm_num)]
    omega
  · rw [toUint32_of_range 20 (by norm_num) (by norm_num)]
    omega
  · rw [toUint32_of_range _ (by omega) (by omega)]
    omega

theorem ControllerImplementation_tailDuty (s : Sys) :
    (ControllerImplementation s).heli.tailrotor.ui32Duty =
      clamp (ControllerImplementation.outputs s).2.1 16 64 := by
  simp only [ControllerImplementation, PWM_TAIL_DUTY_MAX, PWM_TAIL_DUTY_MIN, clamp]
  generalize (ControllerImplementation.outputs s).2.1 = tail_raw
  split_ifs with h1 h2
  · rw [toUint32_of_range 64 (by norm_num) (by norm_num)]
    omega
  · rw [toUint32_of_range 16 (by norm_num) (by norm_num)]
    omega
  · rw [toUint32_of_range _ (by omega) (by omega)]
    omega

theorem main_controller_yawanglesetpoint (h : Helicopter) :
    (main_controller h).2.controller.yawanglesetpoint = h.controller.yawanglesetpoint := rfl

theorem main_controller_curr_yawangle_reading (h : Helicopter) :
    (main_controller h).2.controller.curr_yawangle_reading =
      h.controller.curr_yawangle_reading := rfl

theorem main_controller_prev_yawangle_reading (h : Helicopter) :
    (main_controller h).2.controller.prev_yawangle_reading =
      h.controller.prev_yawangle_reading := rfl

theorem main_controller_tailrotor (h : Helicopter) :
    (main_controller h).2.tailrotor = h.tailrotor := rfl

theorem main_controller_zero (h : Helicopter)
    (h1 : h.controller.altitudesetpoint = h.controller.curr_altitude_reading)
    (h3 : h.mainrotor.I = 0)
    (h5 : h.controller.prev_altitude_reading = h.controller.curr_altitude_reading) :
    (main_controller h).1 = 0 := by
  simp only [main_controller, h1, h3, h5, sub_self, mul_zero, zero_mul, add_zero]
  decide

theorem tail_controller_zero (h : Helicopter)
    (h1 : h.controller.yawanglesetpoint = h.controller.curr_yawangle_reading)
    (h3 : h.tailrotor.I = 0)
    (h5 : h.controller.prev_yawangle_reading = h.controller.curr_yawangle_reading) :
    (tail_controller h).1 = 0 := by
  simp only [tail_controller, h1, h3, h5, sub_self, mul_zero, zero_mul, add_zero]
  decide

/-- C1: after `ControllerImplementation` the main duty is the raw main output
(gravity offset included) clamped to [20, 80] and the tail duty is the raw tail
output (coupling term included) clamped to [16, 64]: above the bound gives the
upper bound, below gives the lower bound, inside is passed through, and so the
duties always lie in their ranges. -/
theorem C1_duties_are_clamped_raw_outputs (s : Sys) :
    let main_raw := (ControllerImplementation.outputs s).1
    let tail_raw := (ControllerImplementation.outputs s).2.1
    let mainDuty := (ControllerImplementation s).heli.mainrotor.ui32Duty
    let tailDuty := (ControllerImplementation s).heli.tailrotor.ui32Duty
    (mainDuty = clamp main_raw 20 80 ∧ tailDuty = clamp tail_raw 16 64) ∧
    ((80 < main_raw → mainDuty = 80) ∧ (main_raw < 20 → mainDuty = 20) ∧
      (20 ≤ main_raw ∧ main_raw ≤ 80 → mainDuty = main_raw)) ∧
    ((64 < tail_raw → tailDuty = 64) ∧ (tail_raw < 16 → tailDuty = 16) ∧
      (16 ≤ tail_raw ∧ tail_raw ≤ 64 → tailDuty = tail_raw)) ∧
    (20 ≤ mainDuty ∧ mainDuty ≤ 80) ∧ (16 ≤ tailDuty ∧ tailDuty ≤ 64) := by
  intro main_raw tail_raw mainDuty tailDuty
  have hm : mainDuty = clamp main_raw 20 80 := ControllerImplementation_mainDuty s
  have ht : tailDuty = clamp tail_raw 16 64 := ControllerImplementation_tailDuty s
  refine ⟨⟨hm, ht⟩, ?_⟩
  simp only [clamp] at hm ht
  refine ⟨⟨?_, ?_, ?_⟩, ⟨?_, ?_, ?_⟩, ⟨?_, ?_⟩, ⟨?_, ?_⟩⟩ <;> omega

/-- C2: one call of `main_controller` (altitude setpoint and reading, main
rotor gains) and one call of `tail_controller` (yaw setpoint and reading, tail
rotor gains), with error `e` and increment `dI = trunc (Ki * e / 100)`, return
`trunc ((Kp * e + (I + dI) + Kd * (previous - reading) * 100) / 1000)`, leave
`I + dI` in the accumulator and the reading just used in the stored previous
reading, and change nothing else of the aircraft. -/
theorem C2_pid_step_result_and_state (heli : Helicopter) :
    (let e := heli.controller.altitudesetpoint - heli.controller.curr_altitude_reading
     let dI := Int.tdiv (heli.mainrotor.Ki * e) 100
     main_controller heli =
       (Int.tdiv
          (heli.mainrotor.Kp * e + (heli.mainrotor.I + dI) +
            heli.mainrotor.Kd *
              (heli.controller.prev_altitude_reading - heli.controller.curr_altitude_reading) * 100)
          1000,
        { heli with
          mainrotor := { heli.mainrotor with I := heli.mainrotor.I + dI },
          controller := { heli.controller with
            prev_altitude_reading := heli.controller.curr_altitude_reading } })) ∧
    (let e := heli.controller.yawanglesetpoint - heli.controller.curr_yawangle_reading
     let dI := Int.tdiv (heli.tailrotor.Ki * e) 100
     tail_controller heli =
       (Int.tdiv
          (heli.tailrotor.Kp * e + (heli.tailrotor.I + dI) +
            heli.tailrotor.Kd *
              (heli.controller.prev_yawangle_reading - heli.controller.curr_yawangle_reading) * 100)
          1000,
        { heli with
          tailrotor := { heli.tailrotor with I := heli.tailrotor.I + dI },
          controller := { heli.controller with
            prev_yawangle_reading := heli.controller.curr_yawangle_reading } })) :=
  ⟨rfl, rfl⟩


/-- C3: in `ControllerImplementation` the raw main output is the result of
`main_controller` plus the gravity offset 51, and the raw tail output is the
result of `tail_controller` plus `trunc (8 * main_raw / 10)` with `main_raw`
the main output after the offset and before saturation.  When, after the
altitude update, both errors are zero, both accumulators are zero and the
previous readings equal the current ones, the commanded duties are 51 and 40. -/
theorem C3_gravity_offset_and_coupling (s : Sys) :
    let a := CalculateAltitude s
    let m := main_controller a.heli
    let t := tail_controller m.2
    let main_raw := (ControllerImplementation.outputs s).1
    let tail_raw := (ControllerImplementation.outputs s).2.1
    main_raw = m.1 + 51 ∧
    tail_raw = t.1 + Int.tdiv (8 * main_raw) 10 ∧
    (a.heli.controller.altitudesetpoint = a.heli.controller.curr_altitude_reading ∧
      a.heli.controller.yawanglesetpoint = a.heli.controller.curr_yawangle_reading ∧
      a.heli.mainrotor.I = 0 ∧ a.heli.tailrotor.I = 0 ∧
      a.heli.controller.prev_altitude_reading = a.heli.controller.curr_altitude_reading ∧
      a.heli.controller.prev_yawangle_reading = a.heli.controller.curr_yawangle_reading →
      (ControllerImplementation s).heli.mainrotor.ui32Duty = 51 ∧
      (ControllerImplementation s).heli.tailrotor.ui32Duty = 40) := by
  dsimp only
  refine ⟨rfl, rfl, ?_⟩
  rintro ⟨h1, h2, h3, h4, h5, h6⟩
  have hm : (main_controller (CalculateAltitude s).heli).1 = 0 :=
    main_controller_zero _ h1 h3 h5
  have ht : (tail_controller (main_controller (CalculateAltitude s).heli).2).1 = 0 :=
    tail_controller_zero _
      (by rw [main_controller_yawanglesetpoint, main_controller_curr_yawangle_reading]; exact h2)
      (by rw [main_controller_tailrotor]; exact h4)
      (by rw [main_controller_prev_yawangle_reading, main_controller_curr_yawangle_reading]
          exact h6)
  have hmr : (ControllerImplementation.outputs s).1 = 51 := by
    show (main_controller (CalculateAltitude s).heli).1 + 51 = 51
    rw [hm]; rfl
  have htr : (ControllerImplementation.outputs s).2.1 = 40 := by
    show (tail_controller (main_controller (CalculateAltitude s).heli).2).1 +
      Int.tdiv (8 * ((main_controller (CalculateAltitude s).heli).1 + 51)) 10 = 40
    rw [hm, ht]; rfl
  have e1 := ControllerImplementation_mainDuty s
  have e2 := ControllerImplementation_tailDuty s
  rw [hmr] at e1
  rw [htr] at e2
  have c1 : clamp 51 20 80 = 51 := by decide
  have c2 : clamp 40 16 64 = 40 := by decide
  rw [c1] at e1
  rw [c2] at e2
  exact ⟨e1, e2⟩

/-- C3 at a concrete state: the machine as built at start-up, with reference,
mean, readings, setpoints and accumulators all 0. -/
theorem C3_gravity_offset_and_coupling_witness :
    (ControllerImplementation bootSys).heli.mainrotor.ui32Duty = 51 ∧
    (ControllerImplementation bootSys).heli.tailrotor.ui32Duty = 40 :=
  (C3_gravity_offset_and_coupling bootSys).2.2 ⟨rfl, rfl, rfl, rfl, rfl, rfl⟩

/-! ## The altitude estimator (buffer.c, altitude.c) -/

theorem sum_bounds_of_adc (l : List Int) (h : ∀ x ∈ l, 0 ≤ x ∧ x < 4096) :
    0 ≤ l.sum ∧ l.sum ≤ 4095 * (l.length : Int) := by
  induction l with
  | nil => simp
  | cons a t ih =>
    have ha := h a (List.mem_cons_self a t)
    have ht := ih (fun x hx => h x (List.mem_cons_of_mem a hx))
    simp only [List.sum_cons, List.length_cons]
    push_cast
    omega

theorem BufferCalculate.loop_add (a b : Nat) (acc : Int) (buf : circBuf_t) :
    BufferCalculate.loop (a + b) acc buf =
      BufferCalculate.loop b (BufferCalculate.loop a acc buf).1
        (BufferCalculate.loop a acc buf).2 := by
  induction a generalizing acc buf with
  | zero => simp [BufferCalculate.loop]
  | succ n ih =>
    have e : n + 1 + b = (n + b) + 1 := by omega
    rw [e]
    simp only [BufferCalculate.loop]
    exact ih _ _

/-- Reading `k` slots that lie before the end of the ring adds exactly those
slots and leaves the cursor behind the last one read. -/
theorem BufferCalculate.loop_segment (N w : Nat) (data : List Int) (hlen : data.length = N)
    (hadc : ∀ x ∈ data, 0 ≤ x ∧ x < 4096) (k : Nat) :
    ∀ (r : Nat) (acc : Int), r < N → r + k ≤ N → 0 ≤ acc → acc + 4095 * (k : Int) < 2147483648 →
      BufferCalculate.loop k acc { size := N, windex := w, rindex := r, data := data } =
        (acc + ((data.drop r).take k).sum,
         { size := N, windex := w, rindex := if r + k ≥ N then 0 else r + k, data := data }) := by
  induction k with
  | zero =>
    intro r acc hr _ _ _
    have : ¬ (N ≤ r) := by omega
    simp [BufferCalculate.loop, this]
  | succ k ih =>
    intro r acc hr hrk hacc hbound
    have hrl : r < data.length := by omega
    have hget : data.getD r 0 = data[r] := by
      simp [List.getD, List.getElem?_eq_getElem hrl]
    have hx : 0 ≤ data[r] ∧ data[r] < 4096 := hadc _ (List.getElem_mem hrl)
    have hdrop : data.drop r = data[r] :: data.drop (r + 1) := List.drop_eq_getElem_cons hrl
    have hsum : ((data.drop r).take (k + 1)).sum =
        data[r] + ((data.drop (r + 1)).take k).sum := by
      rw [hdrop, List.take_succ_cons, List.sum_cons]
    have hwrap : toInt32 (acc + data[r]) = acc + data[r] :=
      toInt32_of_range _ (by omega) (by push_cast at hbound; omega)
    simp only [BufferCalculate.loop, readCircBuf, hget, hwrap]
    by_cases hend : r + 1 ≥ N
    · have hk : k = 0 := by omega
      subst hk
      have h2 : r + (0 + 1) ≥ N := by omega
      simp [BufferCalculate.loop, hend, h2, hsum]
    · have hr1 : r + 1 < N := by omega
      simp only [hend, if_false]
      rw [ih (r + 1) _ hr1 (by omega) (by omega) (by push_cast at hbound; omega), hsum]
      have e1 : (r + 1 + k ≥ N) = (r + (k + 1) ≥ N) := by
        apply propext; constructor <;> intro h <;> omega
      have e2 : r + 1 + k = r + (k + 1) := by omega
      simp only [e1, e2]
      congr 1
      omega

/-- On a well-formed 25-slot ring of 12-bit samples the loop of
`BufferCalculate` returns the sum of all slots and restores the read cursor. -/
theorem BufferCalculate.loop_full (b : circBuf_t) (hsize : b.size = 25)
    (hlen : b.data.length = 25) (hr : b.rindex < 25)
    (hadc : ∀ x ∈ b.data, 0 ≤ x ∧ x < 4096) :
    BufferCalculate.loop 25 0 b = (b.data.sum, b) := by
  obtain ⟨N, w, r, data⟩ := b
  simp only at hsize hlen hr hadc
  subst hsize
  have hsplit := BufferCalculate.loop_add (25 - r) r 0
    { size := 25, windex := w, rindex := r, data := data }
  rw [show 25 - r + r = 25 by omega] at hsplit
  rw [hsplit,
    BufferCalculate.loop_segment 25 w data hlen hadc (25 - r) r 0 hr (by omega) (by omega)
      (by omega)]
  have h1 : r + (25 - r) ≥ 25 := by omega
  simp only [h1, if_true]
  have hd : ((data.drop r).take (25 - r)) = data.drop r := by
    apply List.take_of_length_le
    simp [hlen]
  have hb := sum_bounds_of_adc (data.drop r) (fun x hx => hadc x (List.mem_of_mem_drop hx))
  have hdl : (data.drop r).length = 25 - r := by simp [hlen]
  rw [hd]
  by_cases hr0 : r = 0
  · subst hr0
    simp [BufferCalculate.loop]
  · rw [BufferCalculate.loop_segment 25 w data hlen hadc r 0 _ (by omega) (by omega)
      (by omega) (by rw [hdl] at hb; omega)]
    have h2 : ¬ (0 + r ≥ 25) := by omega
    have h3 : ¬ (r ≥ 25) := by omega
    simp only [h2, h3, if_false, List.drop_zero, zero_add]
    have := List.sum_take_add_sum_drop data r
    congr 1
    omega

theorem BufferCalculate_meanVal (s : Sys) :
    (BufferCalculate s).heli.buffer.meanVal =
      Int.tdiv (Int.tdiv (2 * (BufferCalculate.loop 25 0 s.g_inBuffer).1 + 25) 2) 25 := rfl

theorem BufferCalculate_refAltADC (s : Sys) :
    (BufferCalculate s).heli.buffer.refAltADC = s.heli.buffer.refAltADC := rfl

theorem CalculateAltitude_reading (s : Sys) :
    (CalculateAltitude s).heli.controller.curr_altitude_reading =
      Int.tdiv (-(((BufferCalculate s).heli.buffer.meanVal -
        (BufferCalculate s).heli.buffer.refAltADC) * 100)) 1241 := rfl

theorem tdiv_1241_mono (a b : Int) (h : a ≤ b) : Int.tdiv a 1241 ≤ Int.tdiv b 1241 := by
  rcases le_total 0 a with ha | ha <;> rcases le_total 0 b with hb | hb
  · rw [tdiv_of_nonneg a 1241 ha (by norm_num), tdiv_of_nonneg b 1241 hb (by norm_num)]; omega
  · rw [tdiv_of_nonneg a 1241 ha (by norm_num), tdiv_of_nonpos b 1241 hb (by norm_num)]; omega
  · rw [tdiv_of_nonpos a 1241 ha (by norm_num), tdiv_of_nonneg b 1241 hb (by norm_num)]; omega
  · rw [tdiv_of_nonpos a 1241 ha (by norm_num), tdiv_of_nonpos b 1241 hb (by norm_num)]; omega

/-- C6: on a 25-slot ring of 12-bit samples `BufferCalculate` sums all 25 slots
and sets `meanVal` to the integer nearest to `sum / 25` (round to nearest, not
truncation): `|25 * meanVal - sum| ≤ 12`; a sum of 38 gives 2 and a sum of 37
gives 1. -/
theorem C6_mean_rounds_to_nearest (s : Sys) (hsize : s.g_inBuffer.size = 25)
    (hlen : s.g_inBuffer.data.length = 25) (hr : s.g_inBuffer.rindex < 25)
    (hadc : ∀ x ∈ s.g_inBuffer.data, 0 ≤ x ∧ x < 4096) :
    let sum := s.g_inBuffer.data.sum
    let meanVal := (BufferCalculate s).heli.buffer.meanVal
    meanVal = Int.tdiv (Int.tdiv (2 * sum + 25) 2) 25 ∧
    |25 * meanVal - sum| ≤ 12 ∧
    (sum = 38 → meanVal = 2) ∧ (sum = 37 → meanVal = 1) := by
  dsimp only
  rw [BufferCalculate_meanVal, BufferCalculate.loop_full s.g_inBuffer hsize hlen hr hadc]
  have hs := (sum_bounds_of_adc _ hadc).1
  generalize s.g_inBuffer.data.sum = sum at hs
  refine ⟨rfl, ?_⟩
  rw [tdiv_of_nonneg (2 * sum + 25) 2 (by omega) (by norm_num),
    tdiv_of_nonneg ((2 * sum + 25) / 2) 25 (by omega) (by norm_num)]
  refine ⟨?_, ?_, ?_⟩
  · rw [abs_le]; omega
  · intro h; omega
  · intro h; omega

/-- C6 at a concrete ring: one slot holds 38, the others 0, the read cursor
stands at slot 3; the mean is 2. -/
theorem C6_mean_rounds_to_nearest_witness :
    (BufferCalculate (exampleSys (38 :: List.replicate 24 0) 3 0)).heli.buffer.meanVal = 2 :=
  (C6_mean_rounds_to_nearest (exampleSys (38 :: List.replicate 24 0) 3 0)
    rfl rfl (by decide) (by decide)).2.2.1 rfl

/-- C7: `CalculateAltitude` first recomputes the buffer mean and then stores
`-(meanVal - refAltADC) * 100 / 1241` (truncating division) as the altitude
reading: 0 when the mean equals the reference, 100 when the mean is 1241
counts below it, negative when the mean is at least 13 counts above it. -/
theorem C7_altitude_percent (s : Sys) :
    let b := BufferCalculate s
    let d := b.heli.buffer.meanVal - b.heli.buffer.refAltADC
    let reading := (CalculateAltitude s).heli.controller.curr_altitude_reading
    CalculateAltitude s =
      { b with heli := { b.heli with controller := { b.heli.controller with
          curr_altitude_reading := Int.tdiv (-(d * 100)) 1241 } } } ∧
    b.heli.buffer.refAltADC = s.heli.buffer.refAltADC ∧
    reading = Int.tdiv (-(d * 100)) 1241 ∧
    (d = 0 → reading = 0) ∧ (d = -1241 → reading = 100) ∧ (13 ≤ d → reading < 0) := by
  dsimp only
  refine ⟨rfl, rfl, rfl, ?_, ?_, ?_⟩
  · intro h
    rw [CalculateAltitude_reading, h]; rfl
  · intro h
    rw [CalculateAltitude_reading, h]; rfl
  · intro h
    rw [CalculateAltitude_reading]
    generalize (BufferCalculate s).heli.buffer.meanVal -
      (BufferCalculate s).heli.buffer.refAltADC = d at h
    rw [tdiv_of_nonpos _ 1241 (by omega) (by norm_num)]
    omega

/-- C8: for a fixed reference the altitude reading computed by
`CalculateAltitude` is monotonically decreasing in the buffer mean: a larger
mean never gives a higher altitude. -/
theorem C8_altitude_decreasing_in_mean (s1 s2 : Sys)
    (href : s1.heli.buffer.refAltADC = s2.heli.buffer.refAltADC)
    (hmean : (BufferCalculate s1).heli.buffer.meanVal < (BufferCalculate s2).heli.buffer.meanVal) :
    (CalculateAltitude s1).heli.controller.curr_altitude_reading ≥
      (CalculateAltitude s2).heli.controller.curr_altitude_reading := by
  rw [CalculateAltitude_reading, CalculateAltitude_reading, BufferCalculate_refAltADC,
    BufferCalculate_refAltADC, href]
  apply tdiv_1241_mono
  omega

/-- C8 at two concrete rings with reference 0: all slots 0 (mean 0) against
all slots 100 (mean 100). -/
theorem C8_altitude_decreasing_in_mean_witness :
    (CalculateAltitude (exampleSys (List.replicate 25 0) 0 0)).heli.controller.curr_altitude_reading
      ≥ (CalculateAltitude
          (exampleSys (List.replicate 25 100) 0 0)).heli.controller.curr_altitude_reading :=
  C8_altitude_decreasing_in_mean (exampleSys (List.replicate 25 0) 0 0)
    (exampleSys (List.replicate 25 100) 0 0) rfl (by decide)

/-! ## The yaw tracker (yaw.c) -/

theorem tmod_448_of_abs_lt (x : Int) (h : |x| < 448) : Int.tmod x 448 = x := by
  rw [abs_lt] at h
  rw [Int.tmod_def]
  rcases le_total 0 x with hx | hx
  · rw [tdiv_of_nonneg x 448 hx (by norm_num)]; omega
  · rw [tdiv_of_nonpos x 448 hx (by norm_num)]; omega

theorem tmod_448_bounds (x : Int) : |Int.tmod x 448| < 448 ∧ (Int.tmod x 448 - x) % 448 = 0 := by
  rw [abs_lt, Int.tmod_def]
  rcases le_total 0 x with hx | hx
  · rw [tdiv_of_nonneg x 448 hx (by norm_num)]; omega
  · rw [tdiv_of_nonpos x 448 hx (by norm_num)]; omega

/-- The table entry used for current code `c` and previous code `p`. -/
theorem ExecuteYawInt_eq (c p adj : Int) (heli : Helicopter)
    (hp : heli.controller.prev_yaw_reading = p)
    (hsel : 0 ≤ Int.lor (c <<< (2 : Int)) p)
    (htab : adjust_table[(Int.lor (c <<< (2 : Int)) p).toNat]? = some adj) :
    ExecuteYawInt c heli =
      some { heli with controller := { heli.controller with
        curr_yawangle_reading := Int.tmod (heli.controller.curr_yawangle_reading + adj) 448,
        prev_yaw_reading := c } } := by
  unfold ExecuteYawInt
  simp only [hp]
  rw [if_neg (by omega), htab]


theorem adjust_table_lookup (c p : Int) (hc : 0 ≤ c ∧ c ≤ 3) (hp : 0 ≤ p ∧ p ≤ 3) :
    ∃ adj : Int, 0 ≤ Int.lor (c <<< (2 : Int)) p ∧
      adjust_table[(Int.lor (c <<< (2 : Int)) p).toNat]? = some adj ∧
      (c = p ∨ Int.xor c p = 3 → adj = 0) ∧
      (Int.xor c p = 1 ∨ Int.xor c p = 2 → adj = 1 ∨ adj = -1) := by
  obtain ⟨hc0, hc3⟩ := hc
  obtain ⟨hp0, hp3⟩ := hp
  interval_cases c <;> interval_cases p <;>
    exact ⟨_, by decide, rfl, by decide, by decide⟩

/-- C4: from a position of magnitude below 448, with previous code `p` and
current code `c` both in {0,1,2,3}, `ExecuteYawInt` leaves the position
unchanged when `c = p` or when both bits differ, moves it by exactly +1 or -1
modulo 448 when exactly one bit differs, and always stores `c` as the previous
code. -/
theorem C4_quadrature_step (heli : Helicopter) (c : Int)
    (hpos : |heli.controller.curr_yawangle_reading| < 448)
    (hc : 0 ≤ c ∧ c ≤ 3)
    (hp : 0 ≤ heli.controller.prev_yaw_reading ∧ heli.controller.prev_yaw_reading ≤ 3) :
    ∃ heli1 : Helicopter, ExecuteYawInt c heli = some heli1 ∧
      heli1.controller.prev_yaw_reading = c ∧
      (c = heli.controller.prev_yaw_reading ∨ Int.xor c heli.controller.prev_yaw_reading = 3 →
        heli1.controller.curr_yawangle_reading = heli.controller.curr_yawangle_reading) ∧
      (Int.xor c heli.controller.prev_yaw_reading = 1 ∨
          Int.xor c heli.controller.prev_yaw_reading = 2 →
        (heli1.controller.curr_yawangle_reading =
            Int.tmod (heli.controller.curr_yawangle_reading + 1) 448 ∨
          heli1.controller.curr_yawangle_reading =
            Int.tmod (heli.controller.curr_yawangle_reading - 1) 448) ∧
        ((heli1.controller.curr_yawangle_reading -
            (heli.controller.curr_yawangle_reading + 1)) % 448 = 0 ∨
          (heli1.controller.curr_yawangle_reading -
            (heli.controller.curr_yawangle_reading - 1)) % 448 = 0)) := by
  obtain ⟨adj, h0, htab, hz, hpm⟩ := adjust_table_lookup c _ hc hp
  refine ⟨_, ExecuteYawInt_eq c _ adj heli rfl h0 htab, rfl, ?_, ?_⟩
  · intro h
    show Int.tmod (heli.controller.curr_yawangle_reading + adj) 448 = _
    rw [hz h, add_zero]
    exact tmod_448_of_abs_lt _ hpos
  · intro h
    show (Int.tmod (heli.controller.curr_yawangle_reading + adj) 448 = _ ∨
        Int.tmod (heli.controller.curr_yawangle_reading + adj) 448 = _) ∧
      ((Int.tmod (heli.controller.curr_yawangle_reading + adj) 448 - _) % 448 = 0 ∨
        (Int.tmod (heli.controller.curr_yawangle_reading + adj) 448 - _) % 448 = 0)
    rcases hpm h with h1 | h1
    · subst h1
      exact ⟨Or.inl rfl, Or.inl (tmod_448_bounds _).2⟩
    · subst h1
      exact ⟨Or.inr rfl, Or.inr (tmod_448_bounds _).2⟩

/-- C4 at a concrete edge: position 447, previous code 1, current code 0; the
table gives +1 and the position wraps to 0. -/
theorem C4_quadrature_step_witness :
    ∃ heli1 : Helicopter, ExecuteYawInt 0 (exampleYaw 447 1) = some heli1 ∧
      heli1.controller.prev_yaw_reading = 0 ∧
      heli1.controller.curr_yawangle_reading = 0 := by
  obtain ⟨h1, he, hprev, _, _⟩ :=
    C4_quadrature_step (exampleYaw 447 1) 0 (by decide) (by decide) (by decide)
  refine ⟨h1, he, hprev, ?_⟩
  have hv : ExecuteYawInt 0 (exampleYaw 447 1) =
      some { exampleYaw 447 1 with controller :=
        { (exampleYaw 447 1).controller with curr_yawangle_reading := 0, prev_yaw_reading := 0 } } := by
    decide
  rw [hv] at he
  cases he
  rfl

/-- One `ExecuteYawInt` call with 2-bit codes succeeds, keeps the position
strictly between -448 and 448 and stores the current code. -/
theorem ExecuteYawInt_step (heli : Helicopter) (c : Int) (hc : 0 ≤ c ∧ c ≤ 3)
    (hp : 0 ≤ heli.controller.prev_yaw_reading ∧ heli.controller.prev_yaw_reading ≤ 3) :
    ∃ heli1 : Helicopter, ExecuteYawInt c heli = some heli1 ∧
      |heli1.controller.curr_yawangle_reading| < 448 ∧
      heli1.controller.prev_yaw_reading = c := by
  obtain ⟨adj, h0, htab, _, _⟩ := adjust_table_lookup c _ hc hp
  exact ⟨_, ExecuteYawInt_eq c _ adj heli rfl h0 htab, (tmod_448_bounds _).1, rfl⟩

theorem ExecuteYawInt_run_bounds (codes : List Int) :
    ∀ heli : Helicopter, (∀ c ∈ codes, 0 ≤ c ∧ c ≤ 3) →
      |heli.controller.curr_yawangle_reading| < 448 →
      (0 ≤ heli.controller.prev_yaw_reading ∧ heli.controller.prev_yaw_reading ≤ 3) →
      ∃ heli1 : Helicopter, ExecuteYawInt.run codes heli = some heli1 ∧
        |heli1.controller.curr_yawangle_reading| < 448 := by
  induction codes with
  | nil =>
    intro heli _ hpos _
    exact ⟨heli, rfl, hpos⟩
  | cons c rest ih =>
    intro heli hcodes _ hp
    have hc := hcodes c (List.mem_cons_self c rest)
    obtain ⟨h1, he, hpos1, hprev1⟩ := ExecuteYawInt_step heli c hc hp
    obtain ⟨h2, hr, hpos2⟩ :=
      ih h1 (fun x hx => hcodes x (List.mem_cons_of_mem c hx)) hpos1 (by rw [hprev1]; exact hc)
    refine ⟨h2, ?_, hpos2⟩
    simp only [ExecuteYawInt.run, he]
    exact hr

/-- C5 as stated fails: from the initial position 0 with previous code 0, the
single edge to code 1 is decremented by the table and C's `%` keeps the sign,
so the position becomes -1, outside [0, 448). -/
theorem C5_counterexample_position_negative :
    ¬ (∀ codes : List Int, (∀ c ∈ codes, 0 ≤ c ∧ c ≤ 3) →
        ∀ heli1 : Helicopter, ExecuteYawInt.run codes NewHeli = some heli1 →
          0 ≤ heli1.controller.curr_yawangle_reading ∧
            heli1.controller.curr_yawangle_reading < 448) := by
  intro H
  have h := H [1] (by decide)
    { NewHeli with controller := { NewHeli.controller with
        curr_yawangle_reading := -1, prev_yaw_reading := 1 } } (by decide)
  exact absurd h.1 (by decide)

/-- C5, amended: after any sequence of `ExecuteYawInt` calls with 2-bit codes
from the initial aircraft (position 0, previous code 0) every call succeeds and
the position lies strictly between -448 and 448.  Positions of both signs
occur: the single edge to code 1 gives -1 and the single edge to code 2 gives
+1. -/
theorem C5_position_magnitude_below_448 (codes : List Int)
    (hcodes : ∀ c ∈ codes, 0 ≤ c ∧ c ≤ 3) :
    (∃ heli1 : Helicopter, ExecuteYawInt.run codes NewHeli = some heli1 ∧
      -448 < heli1.controller.curr_yawangle_reading ∧
      heli1.controller.curr_yawangle_reading < 448) ∧
    (ExecuteYawInt.run [1] NewHeli).map (fun h => h.controller.curr_yawangle_reading) =
      some (-1) ∧
    (ExecuteYawInt.run [2] NewHeli).map (fun h => h.controller.curr_yawangle_reading) =
      some 1 := by
  obtain ⟨h1, hr, hpos⟩ :=
    ExecuteYawInt_run_bounds codes NewHeli hcodes (by decide) (by decide)
  exact ⟨⟨h1, hr, abs_lt.mp hpos⟩, by decide, by decide⟩

/-- C5 amended, at the sequence 1, 3, 2, 0 (one full Gray cycle): the position
ends at -4. -/
theorem C5_position_magnitude_below_448_witness :
    ExecuteYawInt.run [1, 3, 2, 0] NewHeli =
        some { NewHeli with controller := { NewHeli.controller with
          curr_yawangle_reading := -4, prev_yaw_reading := 0 } } ∧
      ∃ heli1 : Helicopter, ExecuteYawInt.run [1, 3, 2, 0] NewHeli = some heli1 ∧
        -448 < heli1.controller.curr_yawangle_reading ∧
        heli1.controller.curr_yawangle_reading < 448 :=
  ⟨by decide, (C5_position_magnitude_below_448 [1, 3, 2, 0] (by decide)).1⟩

theorem GetYawAngleDegrees_eq (heli : Helicopter) :
    GetYawAngleDegrees heli =
      toInt16 (Int.tdiv
        ((Int.tmod (heli.controller.curr_yawangle_reading + 672) 448 - 224) * 360) 448) := rfl

/-- C9: for a yaw position `p` of magnitude below 448, `GetYawAngleDegrees`
returns `trunc ((((p + 672) mod 448) - 224) * 360 / 448)`, the multiplication
done before the division; the result lies in [-180, 180), is 0 for `p = 0` and
90 for `p = 112`. -/
theorem C9_yaw_degrees (heli : Helicopter)
    (hp : |heli.controller.curr_yawangle_reading| < 448) :
    let p := heli.controller.curr_yawangle_reading
    GetYawAngleDegrees heli = Int.tdiv (((p + 672) % 448 - 224) * 360) 448 ∧
    -180 ≤ GetYawAngleDegrees heli ∧ GetYawAngleDegrees heli < 180 ∧
    (p = 0 → GetYawAngleDegrees heli = 0) ∧ (p = 112 → GetYawAngleDegrees heli = 90) := by
  dsimp only
  rw [GetYawAngleDegrees_eq]
  generalize heli.controller.curr_yawangle_reading = p at hp
  rw [abs_lt] at hp
  rw [Int.tmod_eq_emod (by omega) (by norm_num)]
  have hx0 : 0 ≤ (p + 672) % 448 := Int.emod_nonneg _ (by norm_num)
  have hx1 : (p + 672) % 448 < 448 := Int.emod_lt_of_pos _ (by norm_num)
  have hq : -180 ≤ Int.tdiv (((p + 672) % 448 - 224) * 360) 448 ∧
      Int.tdiv (((p + 672) % 448 - 224) * 360) 448 < 180 := by
    rcases le_total 0 (((p + 672) % 448 - 224) * 360) with h | h
    · rw [tdiv_of_nonneg _ 448 h (by norm_num)]; omega
    · rw [tdiv_of_nonpos _ 448 h (by norm_num)]; omega
  rw [toInt16_of_range _ (by omega) (by omega)]
  refine ⟨rfl, hq.1, hq.2, ?_, ?_⟩
  · intro h; subst h; decide
  · intro h; subst h; decide

/-- C9 at the quarter turn: position 112 reads 90 degrees. -/
theorem C9_yaw_degrees_witness : GetYawAngleDegrees (exampleYaw 112 0) = 90 :=
  (C9_yaw_degrees (exampleYaw 112 0) (by decide)).2.2.2.2 rfl

/-! ## The flight-mode state machine (mode.c) -/

theorem FlightFrame.refl (s : Sys) : FlightFrame s s := ⟨rfl, rfl, rfl, rfl, rfl⟩

theorem FlightFrame.trans {a b c : Sys} (h1 : FlightFrame a b) (h2 : FlightFrame b c) :
    FlightFrame a c :=
  ⟨h2.1.trans h1.1, h2.2.1.trans h1.2.1, h2.2.2.1.trans h1.2.2.1, h2.2.2.2.1.trans h1.2.2.2.1,
    h2.2.2.2.2.trans h1.2.2.2.2⟩

theorem interrupts_frame (e : Env) (s : Sys) : FlightFrame s (interrupts e s) := by
  unfold interrupts
  cases e.SysTickInt <;> cases e.ADCInt <;> cases e.YawInt <;> cases e.YawRefInt <;>
    cases e.ModeSWTickInt <;> exact ⟨rfl, rfl, rfl, rfl, rfl⟩

theorem ControllerImplementation_frame (s : Sys) : FlightFrame s (ControllerImplementation s) :=
  ⟨rfl, rfl, rfl, rfl, rfl⟩

theorem SysTick_frame (s : Sys) : FlightFrame s (SysTick s) := by
  unfold SysTick
  dsimp only
  split_ifs <;> exact ⟨rfl, rfl, rfl, rfl, rfl⟩

theorem DisplayProject_frame (s : Sys) : FlightFrame s (DisplayProject s) :=
  ⟨rfl, rfl, rfl, rfl, rfl⟩

theorem SetPWM_frame (isMain : Bool) (s : Sys) : FlightFrame s (SetPWM isMain s) :=
  ⟨rfl, rfl, rfl, rfl, rfl⟩

theorem serviceTick_frame (s : Sys) : FlightFrame s (serviceTick s) := by
  unfold serviceTick
  dsimp only
  have f0 : FlightFrame s { s with DeltaTFlag := 0 } := ⟨rfl, rfl, rfl, rfl, rfl⟩
  have f1 := ControllerImplementation_frame { s with DeltaTFlag := 0 }
  have f2 := SysTick_frame (ControllerImplementation { s with DeltaTFlag := 0 })
  have f3 := DisplayProject_frame (SysTick (ControllerImplementation { s with DeltaTFlag := 0 }))
  split_ifs
  · exact ((f0.trans f1).trans f2).trans f3
  · exact (f0.trans f1).trans f2
  · exact FlightFrame.refl s

theorem ExecuteYawInt_frame (c : Int) (heli heli1 : Helicopter)
    (h : ExecuteYawInt c heli = some heli1) :
    heli1.submode = heli.submode ∧ heli1.mode = heli.mode ∧
      heli1.controller.altitudesetpoint = heli.controller.altitudesetpoint ∧
      heli1.buffer = heli.buffer ∧ heli1.mainrotor = heli.mainrotor ∧
      heli1.tailrotor = heli.tailrotor := by
  unfold ExecuteYawInt at h
  dsimp only at h
  split_ifs at h
  split at h
  · exact absurd h (by simp)
  · cases h
    exact ⟨rfl, rfl, rfl, rfl, rfl, rfl⟩

theorem serviceYaw_frame (e : Env) (s s1 : Sys) (h : serviceYaw e s = some s1) :
    FlightFrame s s1 := by
  unfold serviceYaw at h
  dsimp only at h
  split_ifs at h
  · split at h
    · exact absurd h (by simp)
    · rename_i heli1 he
      cases h
      obtain ⟨f1, f2, f3, f4, _, _⟩ := ExecuteYawInt_frame _ _ _ he
      exact ⟨f1, f2, f3, rfl, by rw [show ({ s with YawIntFlag := 0, heli := heli1 } : Sys).heli.buffer = heli1.buffer from rfl, f4]⟩
  · cases h
    exact FlightFrame.refl s

theorem altitudePass_frame (e : Env) (s s1 : Sys) (h : altitudePass e s = Pass.next s1) :
    FlightFrame s s1 := by
  unfold altitudePass at h
  dsimp only at h
  split at h
  · exact absurd h (by simp)
  · rename_i s3 hy
    split_ifs at h
    cases h
    have f1 : FlightFrame s (interrupts e s) := interrupts_frame e s
    have f2 : FlightFrame (interrupts e s)
        { interrupts e s with ResetFlag := toUint8 (GPIOPinRead e.SW2 SW2_PIN) } :=
      ⟨rfl, rfl, rfl, rfl, rfl⟩
    have f3 := serviceTick_frame
      { interrupts e s with ResetFlag := toUint8 (GPIOPinRead e.SW2 SW2_PIN) }
    have f4 := serviceYaw_frame e _ _ hy
    exact (((f1.trans f2).trans f3).trans f4).trans
      ((SetPWM_frame true s3).trans (SetPWM_frame false _))

/-- When the ascent loop of `ModeTakeoff` returns, the loop test has failed and
the loop has left the flight-mode part of the machine alone. -/
theorem ModeTakeoff_loop_returned (envs : List Env) :
    ∀ (s s1 : Sys) (rest : List Env), ModeTakeoff.loop envs s = Outcome.returned s1 rest →
      FlightFrame s s1 ∧
        ¬ (s1.heli.controller.curr_altitude_reading < s1.heli.controller.altitudesetpoint) := by
  induction envs with
  | nil =>
    intro s s1 rest h
    unfold ModeTakeoff.loop at h
    split_ifs at h with hc
    cases h
    exact ⟨FlightFrame.refl s, hc⟩
  | cons e more ih =>
    intro s s1 rest h
    unfold ModeTakeoff.loop at h
    split_ifs at h with hc
    · split at h
      · rename_i s2 hp
        obtain ⟨f, hexit⟩ := ih s2 s1 rest h
        exact ⟨(altitudePass_frame e s s2 hp).trans f, hexit⟩
      · exact absurd h (by simp)
      · exact absurd h (by simp)
    · cases h
      exact ⟨FlightFrame.refl s, hc⟩

/-- C10: from submode LANDED, mode USER_DISABLED and `EnableLanding` false, a
call of `ExecuteHelicopterMode` with the mode switch high that returns (its
loops end and no reset is taken) sets submode TAKEOFF and altitude setpoint 5,
leaves the ascent loop with these unchanged and the altitude reading at least
5, runs `LocatePivot` from there, and returns with submode FLY, mode
USER_ENABLED, altitude setpoint 10 and `EnableLanding` true. -/
theorem C10_takeoff_reaches_fly (envs rest : List Env) (s s_end : Sys)
    (hsub : s.heli.submode = SubMode.LANDED) (hmode : s.heli.mode = Mode.USER_DISABLED)
    (hland : s.EnableLanding = 0)
    (hrun : ExecuteHelicopterMode true envs s = Outcome.returned s_end rest) :
    ∃ (s1 : Sys) (rest1 : List Env) (s2 : Sys),
      (ModeTakeoff.start s).heli.submode = SubMode.TAKEOFF ∧
      (ModeTakeoff.start s).heli.controller.altitudesetpoint = 5 ∧
      ModeTakeoff.loop envs (ModeTakeoff.start s) = Outcome.returned s1 rest1 ∧
      s1.heli.submode = SubMode.TAKEOFF ∧
      s1.heli.controller.altitudesetpoint = 5 ∧
      5 ≤ s1.heli.controller.curr_altitude_reading ∧
      LocatePivot rest1 s1 = Outcome.returned s2 rest ∧
      s_end = { ModeTakeoff.finish s2 with EnableLanding := 1 } ∧
      s_end.heli.submode = SubMode.FLY ∧ s_end.heli.mode = Mode.USER_ENABLED ∧
      s_end.heli.controller.altitudesetpoint = 10 ∧ s_end.EnableLanding = 1 := by
  unfold ExecuteHelicopterMode at hrun
  have hstate : toUint8 (GPIOPinRead true SW1_PIN) ≠ 0 := by decide
  simp only [hstate, ne_eq, not_false_eq_true, if_true] at hrun
  unfold ModeTakeoff at hrun
  cases hloop : ModeTakeoff.loop envs (ModeTakeoff.start s) with
  | returned s1 rest1 =>
    rw [hloop] at hrun
    dsimp only at hrun
    cases hpivot : LocatePivot rest1 s1 with
    | returned s2 rest2 =>
      rw [hpivot] at hrun
      dsimp only at hrun
      cases hrun
      obtain ⟨f, hexit⟩ := ModeTakeoff_loop_returned envs _ s1 rest1 hloop
      have hs1 : s1.heli.submode = SubMode.TAKEOFF := f.1
      have hs2 : s1.heli.controller.altitudesetpoint = 5 := f.2.2.1
      refine ⟨s1, rest1, s2, rfl, rfl, rfl, hs1, hs2, ?_, hpivot, rfl, rfl, rfl, rfl, rfl⟩
      rw [hs2] at hexit
      omega
    | reset s2 => rw [hpivot] at hrun; exact absurd hrun (by simp)
    | fault => rw [hpivot] at hrun; exact absurd hrun (by simp)
    | starved s2 => rw [hpivot] at hrun; exact absurd hrun (by simp)
  | reset s1 => rw [hloop] at hrun; exact absurd hrun (by simp)
  | fault => rw [hloop] at hrun; exact absurd hrun (by simp)
  | starved s1 => rw [hloop] at hrun; exact absurd hrun (by simp)


/-- C10 on a concrete run: the start-up machine with calibration reference 100
over an all-zero ring (altitude 8 once computed); the first pass sees a timer
tick, the second sees the yaw reference, a third environment is left unread. -/
theorem C10_takeoff_reaches_fly_witness :
    ∃ s_end : Sys,
      ExecuteHelicopterMode true
          [{ quietEnv with SysTickInt := true }, { quietEnv with YawRefInt := true }, quietEnv]
          (exampleSys (List.replicate 25 0) 0 100) = Outcome.returned s_end [quietEnv] ∧
      s_end.heli.submode = SubMode.FLY ∧ s_end.heli.mode = Mode.USER_ENABLED ∧
      s_end.heli.controller.altitudesetpoint = 10 ∧ s_end.EnableLanding = 1 ∧
      s_end.heli.controller.curr_altitude_reading = 8 := by
  have hrun : ExecuteHelicopterMode true
      [{ quietEnv with SysTickInt := true }, { quietEnv with YawRefInt := true }, quietEnv]
      (exampleSys (List.replicate 25 0) 0 100) =
      Outcome.returned
        { exampleSys (List.replicate 25 0) 0 100 with
          heli := { NewHeli with
            controller := { NewHeli.controller with
              prev_altitude_reading := 8, curr_altitude_reading := 8, altitudesetpoint := 10 },
            mainrotor := { NewHeli.mainrotor with ui32Duty := 20 },
            tailrotor := { NewHeli.tailrotor with ui32Duty := 16 },
            buffer := { meanVal := 0, refAltADC := 100 },
            mode := Mode.USER_ENABLED,
            submode := SubMode.FLY },
          EnableLanding := 1,
          tickCount := 1,
          out := [Output.SetPWM false 250 16, Output.SetPWM true 250 20,
            Output.ADCProcessorTrigger] }
        [quietEnv] := by
    decide
  obtain ⟨_, _, _, _, _, _, _, _, _, _, _, h1, h2, h3, h4⟩ :=
    C10_takeoff_reaches_fly _ _ _ _ rfl rfl rfl hrun
  exact ⟨_, hrun, h1, h2, h3, h4, rfl⟩

/-! ## Landing, pivot search and the frame of the polling loops (mode.c) -/

theorem altitudePass_frame_sys (e : Env) (s s1 : Sys) (h : (altitudePass e s).sys = some s1) :
    FlightFrame s s1 := by
  unfold altitudePass at h
  dsimp only at h
  have f1 : FlightFrame s (interrupts e s) := interrupts_frame e s
  have f2 : FlightFrame (interrupts e s)
      { interrupts e s with ResetFlag := toUint8 (GPIOPinRead e.SW2 SW2_PIN) } :=
    ⟨rfl, rfl, rfl, rfl, rfl⟩
  have f3 := serviceTick_frame
    { interrupts e s with ResetFlag := toUint8 (GPIOPinRead e.SW2 SW2_PIN) }
  split at h
  · exact absurd h (by simp [Pass.sys])
  · rename_i s3 hy
    have f4 := serviceYaw_frame e _ _ hy
    split_ifs at h
    · simp only [Pass.sys, Option.some.injEq] at h
      subst h
      exact ((f1.trans f2).trans f3).trans f4
    · simp only [Pass.sys, Option.some.injEq] at h
      subst h
      exact (((f1.trans f2).trans f3).trans f4).trans
        ((SetPWM_frame true s3).trans (SetPWM_frame false _))

theorem LocatePivot.pass_frame_sys (e : Env) (s s1 : Sys)
    (h : (LocatePivot.pass e s).sys = some s1) : FlightFrame s s1 := by
  unfold LocatePivot.pass at h
  dsimp only at h
  have f1 : FlightFrame s (interrupts e s) := interrupts_frame e s
  split at h
  · exact absurd h (by simp [Pass.sys])
  · rename_i s2 hy
    have f4 := serviceYaw_frame e _ _ hy
    have hs2 : s2 = s1 := by
      split_ifs at h <;> simpa [Pass.sys] using h
    subst hs2
    refine (f1.trans ?_).trans f4
    split_ifs
    · have g1 := SysTick_frame
        { interrupts e s with
          ResetFlag := toUint8 (GPIOPinRead e.SW2 SW2_PIN), DeltaTFlag := 0 }
      have g0 : FlightFrame (interrupts e s)
          { interrupts e s with
            ResetFlag := toUint8 (GPIOPinRead e.SW2 SW2_PIN), DeltaTFlag := 0 } :=
        ⟨rfl, rfl, rfl, rfl, rfl⟩
      have g2 := DisplayProject_frame (SysTick
        { interrupts e s with
          ResetFlag := toUint8 (GPIOPinRead e.SW2 SW2_PIN), DeltaTFlag := 0 })
      exact (g0.trans g1).trans (g2.trans ⟨rfl, rfl, rfl, rfl, rfl⟩)
    · have g1 := SysTick_frame
        { interrupts e s with
          ResetFlag := toUint8 (GPIOPinRead e.SW2 SW2_PIN), DeltaTFlag := 0 }
      have g0 : FlightFrame (interrupts e s)
          { interrupts e s with
            ResetFlag := toUint8 (GPIOPinRead e.SW2 SW2_PIN), DeltaTFlag := 0 } :=
        ⟨rfl, rfl, rfl, rfl, rfl⟩
      exact (g0.trans g1).trans ⟨rfl, rfl, rfl, rfl, rfl⟩
    · exact FlightFrame.refl _

theorem ModeTakeoff_loop_frame_sys (envs : List Env) :
    ∀ (s s1 : Sys), (ModeTakeoff.loop envs s).sys = some s1 → FlightFrame s s1 := by
  induction envs with
  | nil =>
    intro s s1 h
    unfold ModeTakeoff.loop at h
    split_ifs at h <;> simp only [Outcome.sys, Option.some.injEq] at h <;> subst h <;>
      exact FlightFrame.refl _
  | cons e more ih =>
    intro s s1 h
    unfold ModeTakeoff.loop at h
    split_ifs at h
    · split at h
      · rename_i s2 hp
        exact (altitudePass_frame_sys e s s2 (by rw [hp]; rfl)).trans (ih s2 s1 h)
      · rename_i s2 hp
        simp only [Outcome.sys, Option.some.injEq] at h
        subst h
        exact altitudePass_frame_sys e s s2 (by rw [hp]; rfl)
      · exact absurd h (by simp [Outcome.sys])
    · simp only [Outcome.sys, Option.some.injEq] at h
      subst h
      exact FlightFrame.refl _

theorem ModeLand_loop_frame_sys (envs : List Env) :
    ∀ (s s1 : Sys), (ModeLand.loop envs s).sys = some s1 → FlightFrame s s1 := by
  induction envs with
  | nil =>
    intro s s1 h
    unfold ModeLand.loop at h
    split_ifs at h <;> simp only [Outcome.sys, Option.some.injEq] at h <;> subst h <;>
      exact FlightFrame.refl _
  | cons e more ih =>
    intro s s1 h
    unfold ModeLand.loop at h
    split_ifs at h
    · split at h
      · rename_i s2 hp
        exact (altitudePass_frame_sys e s s2 (by rw [hp]; rfl)).trans (ih s2 s1 h)
      · rename_i s2 hp
        simp only [Outcome.sys, Option.some.injEq] at h
        subst h
        exact altitudePass_frame_sys e s s2 (by rw [hp]; rfl)
      · exact absurd h (by simp [Outcome.sys])
    · simp only [Outcome.sys, Option.some.injEq] at h
      subst h
      exact FlightFrame.refl _

theorem LocatePivot_loop_frame_sys (envs : List Env) :
    ∀ (s s1 : Sys), (LocatePivot.loop envs s).sys = some s1 → FlightFrame s s1 := by
  induction envs with
  | nil =>
    intro s s1 h
    unfold LocatePivot.loop at h
    split_ifs at h <;> simp only [Outcome.sys, Option.some.injEq] at h <;> subst h <;>
      exact FlightFrame.refl _
  | cons e more ih =>
    intro s s1 h
    unfold LocatePivot.loop at h
    split_ifs at h
    · split at h
      · rename_i s2 hp
        exact (LocatePivot.pass_frame_sys e s s2 (by rw [hp]; rfl)).trans (ih s2 s1 h)
      · rename_i s2 hp
        simp only [Outcome.sys, Option.some.injEq] at h
        subst h
        exact LocatePivot.pass_frame_sys e s s2 (by rw [hp]; rfl)
      · exact absurd h (by simp [Outcome.sys])
    · simp only [Outcome.sys, Option.some.injEq] at h
      subst h
      exact FlightFrame.refl _

theorem LocatePivot_frame_sys (envs : List Env) (s s1 : Sys)
    (h : (LocatePivot envs s).sys = some s1) : FlightFrame s s1 := by
  unfold LocatePivot at h
  have f0 : FlightFrame s { s with YawRefFlag := 0 } := ⟨rfl, rfl, rfl, rfl, rfl⟩
  cases hl : LocatePivot.loop envs { s with YawRefFlag := 0 } with
  | returned s2 rest =>
    rw [hl] at h
    simp only [Outcome.sys, Option.some.injEq] at h
    subst h
    have f1 := LocatePivot_loop_frame_sys envs _ s2 (by rw [hl]; rfl)
    exact (f0.trans f1).trans ⟨rfl, rfl, rfl, rfl, rfl⟩
  | reset s2 =>
    rw [hl] at h
    simp only [Outcome.sys, Option.some.injEq] at h
    subst h
    exact f0.trans (LocatePivot_loop_frame_sys envs _ s2 (by rw [hl]; rfl))
  | fault =>
    rw [hl] at h
    exact absurd h (by simp [Outcome.sys])
  | starved s2 =>
    rw [hl] at h
    simp only [Outcome.sys, Option.some.injEq] at h
    subst h
    exact f0.trans (LocatePivot_loop_frame_sys envs _ s2 (by rw [hl]; rfl))

/-- When the descent loop of `ModeLand` returns, the loop test has failed. -/
theorem ModeLand_loop_returned (envs : List Env) :
    ∀ (s s1 : Sys) (rest : List Env), ModeLand.loop envs s = Outcome.returned s1 rest →
      ¬ (s1.heli.controller.curr_altitude_reading > s1.heli.controller.altitudesetpoint) := by
  induction envs with
  | nil =>
    intro s s1 rest h
    unfold ModeLand.loop at h
    split_ifs at h with hc
    cases h
    exact hc
  | cons e more ih =>
    intro s s1 rest h
    unfold ModeLand.loop at h
    split_ifs at h with hc
    · split at h
      · exact ih _ s1 rest h
      · exact absurd h (by simp)
      · exact absurd h (by simp)
    · cases h
      exact hc

/-- When `LocatePivot` returns, it returns the state in which its loop ended
with the three closing assignments applied. -/
theorem LocatePivot_returned (envs rest : List Env) (s s1 : Sys)
    (h : LocatePivot envs s = Outcome.returned s1 rest) :
    ∃ s0 : Sys, LocatePivot.loop envs { s with YawRefFlag := 0 } = Outcome.returned s0 rest ∧
      s1 = LocatePivot.finish s0 := by
  unfold LocatePivot at h
  cases hl : LocatePivot.loop envs { s with YawRefFlag := 0 } with
  | returned s2 rest2 =>
    rw [hl] at h
    cases h
    exact ⟨s2, rfl, rfl⟩
  | reset s2 => rw [hl] at h; exact absurd h (by simp)
  | fault => rw [hl] at h; exact absurd h (by simp)
  | starved s2 => rw [hl] at h; exact absurd h (by simp)

theorem LocatePivot_loop_returned (envs : List Env) :
    ∀ (s s1 : Sys) (rest : List Env), LocatePivot.loop envs s = Outcome.returned s1 rest →
      s1.YawRefFlag ≠ 0 := by
  induction envs with
  | nil =>
    intro s s1 rest h
    unfold LocatePivot.loop at h
    split_ifs at h with hc
    cases h
    exact hc
  | cons e more ih =>
    intro s s1 rest h
    unfold LocatePivot.loop at h
    split_ifs at h with hc
    · split at h
      · exact ih _ s1 rest h
      · exact absurd h (by simp)
      · exact absurd h (by simp)
    · cases h
      exact hc

/-- C11: from submode FLY with `EnableLanding` true, a call of
`ExecuteHelicopterMode` with the mode switch low that returns (its loops end
and no reset is taken) sets mode USER_DISABLED and altitude setpoint 5, leaves
the descent loop with these unchanged and the altitude reading at most 5, runs
`LocatePivot` from there, and returns with `EnableLanding` false, submode
LANDED and both rotor duty fields 0. -/
theorem C11_landing_reaches_landed (envs rest : List Env) (s s_end : Sys)
    (hsub : s.heli.submode = SubMode.FLY) (hland : s.EnableLanding ≠ 0)
    (hrun : ExecuteHelicopterMode false envs s = Outcome.returned s_end rest) :
    ∃ (s0 s1 : Sys) (rest1 : List Env) (s2 : Sys),
      s0 = { s with heli := { s.heli with
              submode := SubMode.LANDED, mode := Mode.USER_DISABLED,
              controller := { s.heli.controller with altitudesetpoint := 5 } } } ∧
      ModeLand.loop envs s0 = Outcome.returned s1 rest1 ∧
      s1.heli.mode = Mode.USER_DISABLED ∧
      s1.heli.controller.altitudesetpoint = 5 ∧
      s1.heli.controller.curr_altitude_reading ≤ 5 ∧
      LocatePivot rest1 s1 = Outcome.returned s2 rest ∧
      s_end = StopRotors { s2 with EnableLanding := 0 } ∧
      s_end.EnableLanding = 0 ∧ s_end.heli.submode = SubMode.LANDED ∧
      s_end.heli.mode = Mode.USER_DISABLED ∧
      s_end.heli.mainrotor.ui32Duty = 0 ∧ s_end.heli.tailrotor.ui32Duty = 0 := by
  unfold ExecuteHelicopterMode at hrun
  have hstate : ¬ (toUint8 (GPIOPinRead false SW1_PIN) ≠ 0) := by decide
  simp only [hstate, if_false] at hrun
  unfold ModeLand at hrun
  have hl : ({ s with heli := { s.heli with submode := SubMode.LANDED } } : Sys).EnableLanding ≠ 0 :=
    hland
  simp only [hl, ne_eq, not_false_eq_true, if_true] at hrun
  cases hloop : ModeLand.loop envs
      { s with heli := { s.heli with
          submode := SubMode.LANDED, mode := Mode.USER_DISABLED,
          controller := { s.heli.controller with altitudesetpoint := 5 } } } with
  | returned s1 rest1 =>
    rw [hloop] at hrun
    dsimp only at hrun
    cases hpivot : LocatePivot rest1 s1 with
    | returned s2 rest2 =>
      rw [hpivot] at hrun
      dsimp only at hrun
      cases hrun
      have f := ModeLand_loop_frame_sys envs _ s1 (by rw [hloop]; rfl)
      have hexit := ModeLand_loop_returned envs _ s1 rest1 hloop
      have g := LocatePivot_frame_sys rest1 s1 s2 (by rw [hpivot]; rfl)
      have hs1 : s1.heli.mode = Mode.USER_DISABLED := f.2.1
      have hs2 : s1.heli.controller.altitudesetpoint = 5 := f.2.2.1
      have hs3 : s1.heli.submode = SubMode.LANDED := f.1
      refine ⟨_, s1, rest1, s2, rfl, hloop, hs1, hs2, ?_, hpivot, rfl, rfl, ?_, ?_, rfl, rfl⟩
      · rw [hs2] at hexit
        omega
      · show s2.heli.submode = SubMode.LANDED
        rw [g.1, hs3]
      · show s2.heli.mode = Mode.USER_DISABLED
        rw [g.2.1, hs1]
    | reset s2 => rw [hpivot] at hrun; exact absurd hrun (by simp)
    | fault => rw [hpivot] at hrun; exact absurd hrun (by simp)
    | starved s2 => rw [hpivot] at hrun; exact absurd hrun (by simp)
  | reset s1 => rw [hloop] at hrun; exact absurd hrun (by simp)
  | fault => rw [hloop] at hrun; exact absurd hrun (by simp)
  | starved s1 => rw [hloop] at hrun; exact absurd hrun (by simp)

/-- C11 on a concrete run: the machine in flight at altitude 8; the first pass
sees a timer tick and a sample of 1000 (mean 40, altitude 4), the second sees
the yaw reference, a third environment is left unread. -/
theorem C11_landing_reaches_landed_witness :
    ∃ (s_end : Sys) (rest : List Env),
      ExecuteHelicopterMode false
          [{ quietEnv with SysTickInt := true, ADCInt := some 1000 },
            { quietEnv with YawRefInt := true }, quietEnv] exampleFlying =
        Outcome.returned s_end rest ∧
      s_end.EnableLanding = 0 ∧ s_end.heli.submode = SubMode.LANDED ∧
      s_end.heli.mainrotor.ui32Duty = 0 ∧ s_end.heli.tailrotor.ui32Duty = 0 := by
  have hk : (ExecuteHelicopterMode false
      [{ quietEnv with SysTickInt := true, ADCInt := some 1000 },
        { quietEnv with YawRefInt := true }, quietEnv] exampleFlying).isReturned = true := by
    decide
  cases h : ExecuteHelicopterMode false
      [{ quietEnv with SysTickInt := true, ADCInt := some 1000 },
        { quietEnv with YawRefInt := true }, quietEnv] exampleFlying with
  | returned s_end rest =>
    obtain ⟨_, _, _, _, _, _, _, _, _, _, _, h1, h2, _, h3, h4⟩ :=
      C11_landing_reaches_landed _ _ _ _ rfl (by decide) h
    exact ⟨s_end, rest, rfl, h1, h2, h3, h4⟩
  | reset s1 => rw [h] at hk; exact absurd hk (by simp [Outcome.isReturned])
  | fault => rw [h] at hk; exact absurd hk (by decide)
  | starved s1 => rw [h] at hk; exact absurd hk (by simp [Outcome.isReturned])

/-- C12: with `EnableLanding` false, `ExecuteHelicopterMode` with the mode
switch low returns at once, reading no environment (no descent pass, no
control tick, no pivot search): it sets submode LANDED, sets both duty fields
to 0 and sends them to the PWM outputs, and changes nothing else, so the
setpoints, the altitude and yaw readings, the integral accumulators, the mode
and `EnableLanding` are what they were. -/
theorem C12_landing_without_permission (envs : List Env) (s : Sys)
    (hland : s.EnableLanding = 0) :
    ExecuteHelicopterMode false envs s =
      Outcome.returned
        { s with
          heli := { s.heli with
            submode := SubMode.LANDED,
            mainrotor := { s.heli.mainrotor with ui32Duty := 0 },
            tailrotor := { s.heli.tailrotor with ui32Duty := 0 } },
          out := Output.SetPWM false s.heli.tailrotor.ui32Freq 0 ::
            Output.SetPWM true s.heli.mainrotor.ui32Freq 0 :: s.out }
        envs ∧
    ∀ s_end rest, ExecuteHelicopterMode false envs s = Outcome.returned s_end rest →
      rest = envs ∧
      s_end.heli.submode = SubMode.LANDED ∧
      s_end.heli.mainrotor.ui32Duty = 0 ∧ s_end.heli.tailrotor.ui32Duty = 0 ∧
      s_end.heli.controller = s.heli.controller ∧
      s_end.heli.mainrotor.I = s.heli.mainrotor.I ∧
      s_end.heli.tailrotor.I = s.heli.tailrotor.I ∧
      s_end.heli.mode = s.heli.mode ∧ s_end.EnableLanding = s.EnableLanding ∧
      s_end.g_inBuffer = s.g_inBuffer ∧ s_end.heli.buffer = s.heli.buffer := by
  have hrun : ExecuteHelicopterMode false envs s =
      Outcome.returned
        { s with
          heli := { s.heli with
            submode := SubMode.LANDED,
            mainrotor := { s.heli.mainrotor with ui32Duty := 0 },
            tailrotor := { s.heli.tailrotor with ui32Duty := 0 } },
          out := Output.SetPWM false s.heli.tailrotor.ui32Freq 0 ::
            Output.SetPWM true s.heli.mainrotor.ui32Freq 0 :: s.out }
        envs := by
    unfold ExecuteHelicopterMode
    have hstate : ¬ (toUint8 (GPIOPinRead false SW1_PIN) ≠ 0) := by decide
    simp only [hstate, if_false]
    unfold ModeLand
    have hl : ¬ (({ s with heli := { s.heli with submode := SubMode.LANDED } } :
        Sys).EnableLanding ≠ 0) := by
      show ¬ (s.EnableLanding ≠ 0)
      rw [hland]; decide
    simp only [hl, if_false]
    rfl
  refine ⟨hrun, ?_⟩
  intro s_end rest h
  rw [hrun] at h
  cases h
  exact ⟨rfl, rfl, rfl, rfl, rfl, rfl, rfl, rfl, rfl, rfl, rfl⟩

/-- C12 at the start-up machine: the switch-down dispatch leaves two PWM
writes of duty 0 and consumes nothing. -/
theorem C12_landing_without_permission_witness :
    ExecuteHelicopterMode false [quietEnv] bootSys =
      Outcome.returned
        { bootSys with out := [Output.SetPWM false 250 0, Output.SetPWM true 250 0] }
        [quietEnv] :=
  (C12_landing_without_permission [quietEnv] bootSys rfl).1

/-- C13: whenever `LocatePivot` returns, its loop ended in a state with
`YawRefFlag` set, and whatever yaw reading and yaw setpoint that state held,
the returned state has `curr_yawangle_reading = 0`, `yawanglesetpoint = 0` and
`YawRefFlag` cleared. -/
theorem C13_pivot_capture_zeroes_yaw (envs rest : List Env) (s s1 : Sys)
    (h : LocatePivot envs s = Outcome.returned s1 rest) :
    s1.heli.controller.curr_yawangle_reading = 0 ∧
    s1.heli.controller.yawanglesetpoint = 0 ∧ s1.YawRefFlag = 0 ∧
    ∃ s0 : Sys, LocatePivot.loop envs { s with YawRefFlag := 0 } = Outcome.returned s0 rest ∧
      s0.YawRefFlag ≠ 0 ∧ s1 = LocatePivot.finish s0 := by
  obtain ⟨s0, hl, he⟩ := LocatePivot_returned envs rest s s1 h
  subst he
  exact ⟨rfl, rfl, rfl, s0, hl, LocatePivot_loop_returned envs _ s0 rest hl, rfl⟩

/-- C13 on a concrete run: the search starts at yaw position 37; the first
pass has a tick (setpoint 47) and a quadrature edge (position 36), the second
sees the yaw reference. -/
theorem C13_pivot_capture_zeroes_yaw_witness :
    ∃ (s1 : Sys) (rest : List Env),
      LocatePivot
          [{ quietEnv with SysTickInt := true, YawInt := true, PB0 := true },
            { quietEnv with YawRefInt := true }, quietEnv]
          { exampleFlying with heli := exampleYaw 37 0 } = Outcome.returned s1 rest ∧
      s1.heli.controller.curr_yawangle_reading = 0 ∧
      s1.heli.controller.yawanglesetpoint = 0 ∧ s1.YawRefFlag = 0 := by
  have hk : (LocatePivot
      [{ quietEnv with SysTickInt := true, YawInt := true, PB0 := true },
        { quietEnv with YawRefInt := true }, quietEnv]
      { exampleFlying with heli := exampleYaw 37 0 }).isReturned = true := by
    decide
  cases h : LocatePivot
      [{ quietEnv with SysTickInt := true, YawInt := true, PB0 := true },
        { quietEnv with YawRefInt := true }, quietEnv]
      { exampleFlying with heli := exampleYaw 37 0 } with
  | returned s1 rest =>
    obtain ⟨h1, h2, h3, _⟩ := C13_pivot_capture_zeroes_yaw _ _ _ _ h
    exact ⟨s1, rest, rfl, h1, h2, h3⟩
  | reset s1 => rw [h] at hk; exact absurd hk (by simp [Outcome.isReturned])
  | fault => rw [h] at hk; exact absurd hk (by decide)
  | starved s1 => rw [h] at hk; exact absurd hk (by simp [Outcome.isReturned])

/-! ## Button adjustment and the calibration reference -/

theorem AdjustHeli_altitudesetpoint (UP DOWN RIGHT LEFT : Bool) (s : Sys) :
    (AdjustHeli UP DOWN RIGHT LEFT s).heli.controller.altitudesetpoint =
      if UP = true ∧ s.heli.controller.altitudesetpoint ≤ 90 then
        s.heli.controller.altitudesetpoint + 10
      else if DOWN = true ∧ s.heli.controller.altitudesetpoint ≥ 10 then
        s.heli.controller.altitudesetpoint - 10
      else s.heli.controller.altitudesetpoint := by
  unfold AdjustHeli
  dsimp only
  split_ifs <;> rfl

/-- C16: for every combination of button events `AdjustHeli` changes the
altitude setpoint by 0, +10 or -10, and a setpoint in [0, 100] stays in
[0, 100]; above 90 an UP event has no effect and below 10 a DOWN event has no
effect. -/
theorem C16_altitude_setpoint_capped (UP DOWN RIGHT LEFT : Bool) (s : Sys) :
    let old := s.heli.controller.altitudesetpoint
    let new := (AdjustHeli UP DOWN RIGHT LEFT s).heli.controller.altitudesetpoint
    (new = old ∨ new = old + 10 ∨ new = old - 10) ∧
    (0 ≤ old ∧ old ≤ 100 → 0 ≤ new ∧ new ≤ 100) ∧
    (90 < old → AdjustHeli true DOWN RIGHT LEFT s = AdjustHeli false DOWN RIGHT LEFT s) ∧
    (old < 10 → AdjustHeli UP true RIGHT LEFT s = AdjustHeli UP false RIGHT LEFT s) := by
  dsimp only
  rw [AdjustHeli_altitudesetpoint]
  refine ⟨?_, ?_, ?_, ?_⟩
  · split_ifs <;> simp
  · intro h
    split_ifs with h1 h2 <;> omega
  · intro h
    have h1 : ¬ (s.heli.controller.altitudesetpoint ≤ 90) := by omega
    unfold AdjustHeli
    simp only [h1, and_false, if_false, Bool.false_eq_true, false_and]
  · intro h
    have h1 : ¬ (s.heli.controller.altitudesetpoint ≥ 10) := by omega
    unfold AdjustHeli
    simp only [h1, and_false, if_false, Bool.false_eq_true, false_and]

theorem AdjustHeli_refAltADC (UP DOWN RIGHT LEFT : Bool) (s : Sys) :
    (AdjustHeli UP DOWN RIGHT LEFT s).heli.buffer.refAltADC = s.heli.buffer.refAltADC := rfl

theorem ModeTakeoff_refAltADC (envs : List Env) (s s1 : Sys)
    (h : (ModeTakeoff envs s).sys = some s1) :
    s1.heli.buffer.refAltADC = s.heli.buffer.refAltADC := by
  unfold ModeTakeoff at h
  cases hloop : ModeTakeoff.loop envs (ModeTakeoff.start s) with
  | returned s2 rest2 =>
    have f := ModeTakeoff_loop_frame_sys envs _ s2 (by rw [hloop]; rfl)
    have f2 : s2.heli.buffer.refAltADC = s.heli.buffer.refAltADC := f.2.2.2.2
    rw [hloop] at h
    dsimp only at h
    cases hpivot : LocatePivot rest2 s2 with
    | returned s3 rest3 =>
      have g := LocatePivot_frame_sys rest2 s2 s3 (by rw [hpivot]; rfl)
      rw [hpivot] at h
      simp only [Outcome.sys, Option.some.injEq] at h
      subst h
      show s3.heli.buffer.refAltADC = _
      rw [g.2.2.2.2, f2]
    | reset s3 =>
      have g := LocatePivot_frame_sys rest2 s2 s3 (by rw [hpivot]; rfl)
      rw [hpivot] at h
      simp only [Outcome.sys, Option.some.injEq] at h
      subst h
      rw [g.2.2.2.2, f2]
    | fault => rw [hpivot] at h; exact absurd h (by simp [Outcome.sys])
    | starved s3 =>
      have g := LocatePivot_frame_sys rest2 s2 s3 (by rw [hpivot]; rfl)
      rw [hpivot] at h
      simp only [Outcome.sys, Option.some.injEq] at h
      subst h
      rw [g.2.2.2.2, f2]
  | reset s2 =>
    have f := ModeTakeoff_loop_frame_sys envs _ s2 (by rw [hloop]; rfl)
    rw [hloop] at h
    simp only [Outcome.sys, Option.some.injEq] at h
    subst h
    exact f.2.2.2.2
  | fault => rw [hloop] at h; exact absurd h (by simp [Outcome.sys])
  | starved s2 =>
    have f := ModeTakeoff_loop_frame_sys envs _ s2 (by rw [hloop]; rfl)
    rw [hloop] at h
    simp only [Outcome.sys, Option.some.injEq] at h
    subst h
    exact f.2.2.2.2

theorem ModeLand_refAltADC (envs : List Env) (s s1 : Sys)
    (h : (ModeLand envs s).sys = some s1) :
    s1.heli.buffer.refAltADC = s.heli.buffer.refAltADC := by
  unfold ModeLand at h
  dsimp only at h
  split_ifs at h with hl
  · cases hloop : ModeLand.loop envs
        { s with heli := { s.heli with
            submode := SubMode.LANDED, mode := Mode.USER_DISABLED,
            controller := { s.heli.controller with altitudesetpoint := 5 } } } with
    | returned s2 rest2 =>
      have f := ModeLand_loop_frame_sys envs _ s2 (by rw [hloop]; rfl)
      have f2 : s2.heli.buffer.refAltADC = s.heli.buffer.refAltADC := f.2.2.2.2
      rw [hloop] at h
      dsimp only at h
      cases hpivot : LocatePivot rest2 s2 with
      | returned s3 rest3 =>
        have g := LocatePivot_frame_sys rest2 s2 s3 (by rw [hpivot]; rfl)
        rw [hpivot] at h
        simp only [Outcome.sys, Option.some.injEq] at h
        subst h
        show s3.heli.buffer.refAltADC = _
        rw [g.2.2.2.2, f2]
      | reset s3 =>
        have g := LocatePivot_frame_sys rest2 s2 s3 (by rw [hpivot]; rfl)
        rw [hpivot] at h
        simp only [Outcome.sys, Option.some.injEq] at h
        subst h
        rw [g.2.2.2.2, f2]
      | fault => rw [hpivot] at h; exact absurd h (by simp [Outcome.sys])
      | starved s3 =>
        have g := LocatePivot_frame_sys rest2 s2 s3 (by rw [hpivot]; rfl)
        rw [hpivot] at h
        simp only [Outcome.sys, Option.some.injEq] at h
        subst h
        rw [g.2.2.2.2, f2]
    | reset s2 =>
      have f := ModeLand_loop_frame_sys envs _ s2 (by rw [hloop]; rfl)
      rw [hloop] at h
      simp only [Outcome.sys, Option.some.injEq] at h
      subst h
      exact f.2.2.2.2
    | fault => rw [hloop] at h; exact absurd h (by simp [Outcome.sys])
    | starved s2 =>
      have f := ModeLand_loop_frame_sys envs _ s2 (by rw [hloop]; rfl)
      rw [hloop] at h
      simp only [Outcome.sys, Option.some.injEq] at h
      subst h
      exact f.2.2.2.2
  · simp only [Outcome.sys, Option.some.injEq] at h
    subst h
    rfl

/-- C17: `BufferCalculate`, `CalculateAltitude`, `ControllerImplementation`,
`AdjustHeli`, `ExecuteYawInt`, `SysTick`, the interrupt handlers (whatever
sample they store), `ModeTakeoff`, `ModeLand` and `LocatePivot` (however they
end, whatever samples arrive) all leave `refAltADC` as it was. -/
theorem C17_reference_frozen (s : Sys) (envs : List Env) (e : Env)
    (UP DOWN RIGHT LEFT : Bool) (currentRead : Int) :
    (BufferCalculate s).heli.buffer.refAltADC = s.heli.buffer.refAltADC ∧
    (CalculateAltitude s).heli.buffer.refAltADC = s.heli.buffer.refAltADC ∧
    (ControllerImplementation s).heli.buffer.refAltADC = s.heli.buffer.refAltADC ∧
    (AdjustHeli UP DOWN RIGHT LEFT s).heli.buffer.refAltADC = s.heli.buffer.refAltADC ∧
    (∀ heli1, ExecuteYawInt currentRead s.heli = some heli1 →
      heli1.buffer.refAltADC = s.heli.buffer.refAltADC) ∧
    (SysTick s).heli.buffer.refAltADC = s.heli.buffer.refAltADC ∧
    (interrupts e s).heli.buffer.refAltADC = s.heli.buffer.refAltADC ∧
    (∀ s1, (ModeTakeoff envs s).sys = some s1 →
      s1.heli.buffer.refAltADC = s.heli.buffer.refAltADC) ∧
    (∀ s1, (ModeLand envs s).sys = some s1 →
      s1.heli.buffer.refAltADC = s.heli.buffer.refAltADC) ∧
    (∀ s1, (LocatePivot envs s).sys = some s1 →
      s1.heli.buffer.refAltADC = s.heli.buffer.refAltADC) := by
  refine ⟨rfl, rfl, rfl, rfl, ?_, (SysTick_frame s).2.2.2.2, (interrupts_frame e s).2.2.2.2,
    ModeTakeoff_refAltADC envs s, ModeLand_refAltADC envs s, ?_⟩
  · intro heli1 h
    rw [(ExecuteYawInt_frame _ _ _ h).2.2.2.1]
  · intro s1 h
    exact (LocatePivot_frame_sys envs s s1 h).2.2.2.2

/-! ## Yaw telemetry and the takeoff guard -/

/-- C19 as stated fails: at yaw position 112 `GetYawAngleDegrees` returns 90,
and the status line sent by `UARTPrint` carries 90 as the yaw angle. -/
theorem C19_counterexample_yaw_not_zero :
    ¬ (∀ heli : Helicopter, GetYawAngleDegrees heli = 0) ∧
    (UARTPrint { bootSys with heli := exampleYaw 112 0 }).out =
      [Output.UARTPrint 0 0 0 90 0 0 SubMode.LANDED] := by
  refine ⟨?_, by decide⟩
  intro H
  exact absurd (H (exampleYaw 112 0)) (by decide)

/-- C19, amended: `YAW_DELTA` is not evaluated on its own; in
`GetYawAngleDegrees` the centred position is multiplied by 360 before the
division by 448.  For a position `p` of magnitude below 448 the result is 0
exactly when the centred position is -1, 0 or 1, that is for `p` in
{-447, -1, 0, 1, 447}, and `UARTPrint` sends the value of
`GetYawAngleDegrees` as the yaw angle. -/
theorem C19_yaw_degrees_zero_iff (s : Sys)
    (hp : |s.heli.controller.curr_yawangle_reading| < 448) :
    let p := s.heli.controller.curr_yawangle_reading
    (GetYawAngleDegrees s.heli = 0 ↔ (p = 0 ∨ p = 1 ∨ p = -1 ∨ p = 447 ∨ p = -447)) ∧
    (UARTPrint s).out =
      Output.UARTPrint s.heli.controller.altitudesetpoint s.heli.controller.curr_altitude_reading
        s.heli.controller.yaw_increment (GetYawAngleDegrees s.heli) s.heli.mainrotor.ui32Duty
        s.heli.tailrotor.ui32Duty s.heli.submode :: s.out := by
  dsimp only
  refine ⟨?_, rfl⟩
  rw [GetYawAngleDegrees_eq]
  generalize s.heli.controller.curr_yawangle_reading = p at hp
  rw [abs_lt] at hp
  rw [Int.tmod_eq_emod (by omega) (by norm_num)]
  have hx0 : 0 ≤ (p + 672) % 448 := Int.emod_nonneg _ (by norm_num)
  have hx1 : (p + 672) % 448 < 448 := Int.emod_lt_of_pos _ (by norm_num)
  rcases le_total 0 (((p + 672) % 448 - 224) * 360) with h | h
  · rw [tdiv_of_nonneg _ 448 h (by norm_num), toInt16_of_range _ (by omega) (by omega)]
    omega
  · rw [tdiv_of_nonpos _ 448 h (by norm_num), toInt16_of_range _ (by omega) (by omega)]
    omega

/-- C19 amended, at position 447: one step before a full turn the centred
position is -1 and the reading is 0 degrees. -/
theorem C19_yaw_degrees_zero_iff_witness :
    GetYawAngleDegrees ({ bootSys with heli := exampleYaw 447 0 } : Sys).heli = 0 :=
  (C19_yaw_degrees_zero_iff { bootSys with heli := exampleYaw 447 0 } (by decide)).1.mpr
    (Or.inr (Or.inr (Or.inr (Or.inl rfl))))

/-- C20, the code at a failing input: `ExecuteHelicopterMode` with the switch
high never consults `submode` (replacing it changes nothing), and dispatched
on a machine in flight (submode FLY, altitude setpoint 50, yaw position and
setpoint 36) it enters the ascent loop with submode TAKEOFF and setpoint 5,
runs the pivot search and returns with setpoint 10 and the yaw zeroed. -/
theorem C20_takeoff_entered_from_fly :
    (∀ (envs : List Env) (s : Sys) (sub : SubMode),
      ExecuteHelicopterMode true envs { s with heli := { s.heli with submode := sub } } =
        ExecuteHelicopterMode true envs s) ∧
    (let start : Sys := { exampleFlying with heli := { exampleFlying.heli with
        controller := { exampleFlying.heli.controller with
          altitudesetpoint := 50, curr_yawangle_reading := 36, yawanglesetpoint := 36 } } }
     let envs := [{ quietEnv with YawRefInt := true }, quietEnv]
     start.heli.submode = SubMode.FLY ∧
     (ModeTakeoff.loop envs (ModeTakeoff.start start)).sys.map
        (fun s => (s.heli.submode, s.heli.controller.altitudesetpoint)) =
        some (SubMode.TAKEOFF, 5) ∧
     (ExecuteHelicopterMode true envs start).isReturned = true ∧
     (ExecuteHelicopterMode true envs start).sys.map
        (fun s => (s.heli.submode, s.heli.controller.altitudesetpoint,
          s.heli.controller.curr_yawangle_reading, s.heli.controller.yawanglesetpoint)) =
        some (SubMode.FLY, 10, 0, 0)) := by
  refine ⟨?_, by decide⟩
  intro envs s sub
  rfl

/-! ## The reset poll and the mode-switch flag -/

theorem FlagFrame.self (s : Sys) : FlagFrame s s := ⟨rfl, rfl, rfl, rfl, rfl, rfl⟩

theorem FlagFrame.comp {a b c : Sys} (h1 : FlagFrame a b) (h2 : FlagFrame b c) :
    FlagFrame a c :=
  ⟨h2.1.trans h1.1, h2.2.1.trans h1.2.1, h2.2.2.1.trans h1.2.2.1,
    h2.2.2.2.1.trans h1.2.2.2.1, h2.2.2.2.2.1.trans h1.2.2.2.2.1,
    h2.2.2.2.2.2.trans h1.2.2.2.2.2⟩

theorem ControllerImplementation_flags (s : Sys) : FlagFrame s (ControllerImplementation s) :=
  ⟨rfl, rfl, rfl, rfl, rfl, rfl⟩

theorem SysTick_flags (s : Sys) : FlagFrame s (SysTick s) := by
  unfold SysTick
  dsimp only
  split_ifs <;> exact ⟨rfl, rfl, rfl, rfl, rfl, rfl⟩

theorem DisplayProject_flags (s : Sys) : FlagFrame s (DisplayProject s) :=
  ⟨rfl, rfl, rfl, rfl, rfl, rfl⟩

theorem AdjustHeli_flags (UP DOWN RIGHT LEFT : Bool) (s : Sys) :
    FlagFrame s (AdjustHeli UP DOWN RIGHT LEFT s) := by
  unfold AdjustHeli
  dsimp only
  split_ifs <;> exact ⟨rfl, rfl, rfl, rfl, rfl, rfl⟩

theorem serviceTick_flags (s : Sys) : FlagFrame s (serviceTick s) := by
  unfold serviceTick
  dsimp only
  have f0 : FlagFrame s { s with DeltaTFlag := 0 } := ⟨rfl, rfl, rfl, rfl, rfl, rfl⟩
  have f1 := ControllerImplementation_flags { s with DeltaTFlag := 0 }
  have f2 := SysTick_flags (ControllerImplementation { s with DeltaTFlag := 0 })
  have f3 := DisplayProject_flags (SysTick (ControllerImplementation { s with DeltaTFlag := 0 }))
  split_ifs
  · exact ((f0.comp f1).comp f2).comp f3
  · exact (f0.comp f1).comp f2
  · exact FlagFrame.self s

theorem interrupts_setChangeMode (e : Env) (v : Int) (s : Sys) :
    interrupts e (setChangeMode v s) =
      setChangeMode (if e.ModeSWTickInt then 1 else v) (interrupts e s) := by
  unfold interrupts setChangeMode
  cases e.SysTickInt <;> cases e.ADCInt <;> cases e.YawInt <;> cases e.YawRefInt <;>
    cases e.ModeSWTickInt <;> rfl

theorem interrupts_ChangeMode (e : Env) (s : Sys) :
    (interrupts e s).ChangeMode = if e.ModeSWTickInt then 1 else s.ChangeMode := by
  unfold interrupts
  cases e.SysTickInt <;> cases e.ADCInt <;> cases e.YawInt <;> cases e.YawRefInt <;>
    cases e.ModeSWTickInt <;> rfl

theorem ControllerImplementation_setChangeMode (v : Int) (s : Sys) :
    ControllerImplementation (setChangeMode v s) = setChangeMode v (ControllerImplementation s) :=
  rfl

theorem SysTick_setChangeMode (v : Int) (s : Sys) :
    SysTick (setChangeMode v s) = setChangeMode v (SysTick s) := by
  unfold SysTick setChangeMode
  dsimp only
  split_ifs <;> rfl

theorem DisplayProject_setChangeMode (v : Int) (s : Sys) :
    DisplayProject (setChangeMode v s) = setChangeMode v (DisplayProject s) := rfl

theorem SetPWM_setChangeMode (isMain : Bool) (v : Int) (s : Sys) :
    SetPWM isMain (setChangeMode v s) = setChangeMode v (SetPWM isMain s) := rfl

theorem serviceTick_setChangeMode (v : Int) (s : Sys) :
    serviceTick (setChangeMode v s) = setChangeMode v (serviceTick s) := by
  unfold serviceTick
  have h0 : (setChangeMode v s).DeltaTFlag = s.DeltaTFlag := rfl
  rw [h0]
  split_ifs with h1
  · dsimp only
    have e1 : ({ setChangeMode v s with DeltaTFlag := 0 } : Sys) =
        setChangeMode v { s with DeltaTFlag := 0 } := rfl
    rw [e1, ControllerImplementation_setChangeMode, SysTick_setChangeMode]
    have e2 : (setChangeMode v (SysTick (ControllerImplementation
        { s with DeltaTFlag := 0 }))).slowTick =
        (SysTick (ControllerImplementation { s with DeltaTFlag := 0 })).slowTick := rfl
    rw [e2]
    split_ifs
    · rw [DisplayProject_setChangeMode]
    · rfl
  · rfl

theorem serviceYaw_setChangeMode (e : Env) (v : Int) (s : Sys) :
    serviceYaw e (setChangeMode v s) = (serviceYaw e s).map (setChangeMode v) := by
  unfold serviceYaw
  have h0 : (setChangeMode v s).YawIntFlag = s.YawIntFlag := rfl
  rw [h0]
  split_ifs with h1
  · dsimp only
    have e1 : ({ setChangeMode v s with YawIntFlag := 0 } : Sys).heli = s.heli := rfl
    rw [e1]
    cases ExecuteYawInt (ReadQuadrectureDecoder e.PB0 e.PB1) s.heli with
    | none => rfl
    | some h => rfl
  · rfl

theorem serviceYaw_ChangeMode (e : Env) (s s1 : Sys) (h : serviceYaw e s = some s1) :
    s1.ChangeMode = s.ChangeMode := by
  unfold serviceYaw at h
  dsimp only at h
  split_ifs at h
  · split at h
    · exact absurd h (by simp)
    · cases h
      rfl
  · cases h
    rfl

theorem altitudePass_setChangeMode (e : Env) (v : Int) (s : Sys) :
    altitudePass e (setChangeMode v s) =
      (altitudePass e s).mapSys (setChangeMode (if e.ModeSWTickInt then 1 else v)) := by
  unfold altitudePass
  dsimp only
  rw [interrupts_setChangeMode]
  generalize (if e.ModeSWTickInt then (1 : Int) else v) = w
  have e1 : ({ setChangeMode w (interrupts e s) with
      ResetFlag := toUint8 (GPIOPinRead e.SW2 SW2_PIN) } : Sys) =
      setChangeMode w { interrupts e s with
        ResetFlag := toUint8 (GPIOPinRead e.SW2 SW2_PIN) } := rfl
  rw [e1, serviceTick_setChangeMode, serviceYaw_setChangeMode]
  cases serviceYaw e (serviceTick { interrupts e s with
      ResetFlag := toUint8 (GPIOPinRead e.SW2 SW2_PIN) }) with
  | none => rfl
  | some s3 =>
    dsimp only [Option.map]
    have e2 : (setChangeMode w s3).ResetFlag = s3.ResetFlag := rfl
    rw [e2]
    split_ifs <;> rfl

theorem altitudePass_ChangeMode (e : Env) (s s1 : Sys) (h : altitudePass e s = Pass.next s1) :
    s1.ChangeMode = if e.ModeSWTickInt then 1 else s.ChangeMode := by
  unfold altitudePass at h
  dsimp only at h
  split at h
  · exact absurd h (by simp)
  · rename_i s3 hy
    split_ifs at h
    cases h
    have f3 := serviceTick_flags
      { interrupts e s with ResetFlag := toUint8 (GPIOPinRead e.SW2 SW2_PIN) }
    have f4 := serviceYaw_ChangeMode e _ _ hy
    show s3.ChangeMode = _
    rw [f4, f3.1]
    exact interrupts_ChangeMode e s

theorem LocatePivot_pass_eq (e : Env) (s : Sys) :
    LocatePivot.pass e s =
      match serviceYaw e
        (if (interrupts e s).DeltaTFlag ≠ 0 then LocatePivot.tick e (interrupts e s)
          else interrupts e s) with
      | none => Pass.fault
      | some s2 => if s2.ResetFlag ≠ 0 then Pass.reset s2 else Pass.next s2 := rfl

theorem Run_Kernel_pass_eq (e : Env) (rest : List Env) (s : Sys) :
    Run_Kernel.pass e rest s =
      Run_Kernel.afterMode e
        (if (Run_Kernel.beforeMode e s).ChangeMode ≠ 0 then
          ExecuteHelicopterMode e.SW1 rest
            { Run_Kernel.beforeMode e s with
              ChangeMode := 0,
              out := Output.SysCtlDelay 300 :: (Run_Kernel.beforeMode e s).out }
        else Outcome.returned (Run_Kernel.beforeMode e s) rest) := by
  unfold Run_Kernel.pass Run_Kernel.afterMode
  rfl

theorem LocatePivot.tick_setChangeMode (e : Env) (w : Int) (a : Sys) :
    LocatePivot.tick e (setChangeMode w a) = setChangeMode w (LocatePivot.tick e a) := by
  unfold LocatePivot.tick
  dsimp only
  have s1 := SysTick_setChangeMode w
    { a with ResetFlag := toUint8 (GPIOPinRead e.SW2 SW2_PIN), DeltaTFlag := 0 }
  have s2 : SysTick { setChangeMode w a with
      ResetFlag := toUint8 (GPIOPinRead e.SW2 SW2_PIN), DeltaTFlag := 0 } =
      setChangeMode w (SysTick { a with
        ResetFlag := toUint8 (GPIOPinRead e.SW2 SW2_PIN), DeltaTFlag := 0 }) := s1
  dsimp only at s2
  rw [s2]
  generalize SysTick { a with
    ResetFlag := toUint8 (GPIOPinRead e.SW2 SW2_PIN), DeltaTFlag := 0 } = c
  by_cases hs : c.slowTick ≠ 0
  · have hs' : (setChangeMode w c).slowTick ≠ 0 := hs
    rw [if_pos hs, if_pos hs']
    rfl
  · have hs' : ¬ (setChangeMode w c).slowTick ≠ 0 := hs
    rw [if_neg hs, if_neg hs']
    rfl

theorem LocatePivot.pass_setChangeMode (e : Env) (v : Int) (s : Sys) :
    LocatePivot.pass e (setChangeMode v s) =
      (LocatePivot.pass e s).mapSys (setChangeMode (if e.ModeSWTickInt then 1 else v)) := by
  rw [LocatePivot_pass_eq, LocatePivot_pass_eq, interrupts_setChangeMode]
  generalize (if e.ModeSWTickInt then (1 : Int) else v) = w
  generalize interrupts e s = a
  have h0 : (setChangeMode w a).DeltaTFlag = a.DeltaTFlag := rfl
  rw [h0, LocatePivot.tick_setChangeMode]
  have h1 : (if a.DeltaTFlag ≠ 0 then setChangeMode w (LocatePivot.tick e a)
      else setChangeMode w a) =
      setChangeMode w (if a.DeltaTFlag ≠ 0 then LocatePivot.tick e a else a) := by
    split_ifs <;> rfl
  rw [h1, serviceYaw_setChangeMode]
  cases serviceYaw e (if a.DeltaTFlag ≠ 0 then LocatePivot.tick e a else a) with
  | none => rfl
  | some s2 =>
    dsimp only [Option.map]
    have e2 : (setChangeMode w s2).ResetFlag = s2.ResetFlag := rfl
    rw [e2]
    split_ifs <;> rfl

theorem setChangeMode_self (s : Sys) : setChangeMode s.ChangeMode s = s := rfl

theorem setChangeMode_setChangeMode (a b : Int) (s : Sys) :
    setChangeMode a (setChangeMode b s) = setChangeMode a s := rfl

theorem changeModeAfter_append (v : Int) (xs ys : List Env) :
    changeModeAfter v (xs ++ ys) = changeModeAfter (changeModeAfter v xs) ys := by
  induction xs generalizing v with
  | nil => rfl
  | cons e later ih => exact ih _

theorem changeModeAfter_one (xs : List Env) : changeModeAfter 1 xs = 1 := by
  induction xs with
  | nil => rfl
  | cons e later ih =>
    show changeModeAfter (if e.ModeSWTickInt then 1 else 1) later = 1
    rw [ite_self]
    exact ih

theorem changeModeAfter_eq (v : Int) (xs : List Env) :
    changeModeAfter v xs = if xs.any (fun e => e.ModeSWTickInt) then 1 else v := by
  induction xs generalizing v with
  | nil => rfl
  | cons e later ih =>
    show changeModeAfter (if e.ModeSWTickInt then 1 else v) later = _
    cases he : e.ModeSWTickInt
    · simp [ih, he]
    · simp [changeModeAfter_one, he]

theorem ModeTakeoff_loop_changeMode (envs : List Env) :
    ∀ s : Sys, ∃ consumed left : List Env, envs = consumed ++ left ∧
      (∀ v, ModeTakeoff.loop envs (setChangeMode v s) =
        (ModeTakeoff.loop envs s).mapSys (setChangeMode (changeModeAfter v consumed))) ∧
      (∀ s1 rest, ModeTakeoff.loop envs s = Outcome.returned s1 rest → rest = left) := by
  induction envs with
  | nil =>
    intro s
    refine ⟨[], [], rfl, ?_, ?_⟩
    · intro v
      unfold ModeTakeoff.loop
      have h0 : (setChangeMode v s).heli = s.heli := rfl
      rw [h0]
      split_ifs <;> rfl
    · intro s1 rest h
      unfold ModeTakeoff.loop at h
      split_ifs at h
      cases h
      rfl
  | cons e later ih =>
    intro s
    by_cases hc : s.heli.controller.curr_altitude_reading < s.heli.controller.altitudesetpoint
    · have hstep : ∀ x : Sys, x.heli = s.heli → ModeTakeoff.loop (e :: later) x =
          match altitudePass e x with
          | Pass.next s1 => ModeTakeoff.loop later s1
          | Pass.reset s1 => Outcome.reset s1
          | Pass.fault => Outcome.fault := by
        intro x hx
        rw [ModeTakeoff.loop, hx, if_pos hc]
      cases hp : altitudePass e s with
      | next s1 =>
        obtain ⟨c, l, hcl, hv, hr⟩ := ih s1
        refine ⟨e :: c, l, by rw [hcl]; rfl, ?_, ?_⟩
        · intro v
          rw [hstep (setChangeMode v s) rfl, hstep s rfl, altitudePass_setChangeMode, hp]
          exact hv _
        · intro s2 rest h
          rw [hstep s rfl, hp] at h
          exact hr s2 rest h
      | reset s1 =>
        refine ⟨[e], later, rfl, ?_, ?_⟩
        · intro v
          rw [hstep (setChangeMode v s) rfl, hstep s rfl, altitudePass_setChangeMode, hp]
          rfl
        · intro s2 rest h
          rw [hstep s rfl, hp] at h
          cases h
      | fault =>
        refine ⟨[], e :: later, rfl, ?_, ?_⟩
        · intro v
          rw [hstep (setChangeMode v s) rfl, hstep s rfl, altitudePass_setChangeMode, hp]
          rfl
        · intro s2 rest h
          rw [hstep s rfl, hp] at h
          cases h
    · have hstep : ∀ x : Sys, x.heli = s.heli → ModeTakeoff.loop (e :: later) x =
          Outcome.returned x (e :: later) := by
        intro x hx
        rw [ModeTakeoff.loop, hx, if_neg hc]
      refine ⟨[], e :: later, rfl, ?_, ?_⟩
      · intro v
        rw [hstep (setChangeMode v s) rfl, hstep s rfl]
        rfl
      · intro s2 rest h
        rw [hstep s rfl] at h
        cases h
        rfl

theorem ModeLand_loop_changeMode (envs : List Env) :
    ∀ s : Sys, ∃ consumed left : List Env, envs = consumed ++ left ∧
      (∀ v, ModeLand.loop envs (setChangeMode v s) =
        (ModeLand.loop envs s).mapSys (setChangeMode (changeModeAfter v consumed))) ∧
      (∀ s1 rest, ModeLand.loop envs s = Outcome.returned s1 rest → rest = left) := by
  induction envs with
  | nil =>
    intro s
    refine ⟨[], [], rfl, ?_, ?_⟩
    · intro v
      unfold ModeLand.loop
      have h0 : (setChangeMode v s).heli = s.heli := rfl
      rw [h0]
      split_ifs <;> rfl
    · intro s1 rest h
      unfold ModeLand.loop at h
      split_ifs at h
      cases h
      rfl
  | cons e later ih =>
    intro s
    by_cases hc : s.heli.controller.curr_altitude_reading > s.heli.controller.altitudesetpoint
    · have hstep : ∀ x : Sys, x.heli = s.heli → ModeLand.loop (e :: later) x =
          match altitudePass e x with
          | Pass.next s1 => ModeLand.loop later s1
          | Pass.reset s1 => Outcome.reset s1
          | Pass.fault => Outcome.fault := by
        intro x hx
        rw [ModeLand.loop, hx, if_pos hc]
      cases hp : altitudePass e s with
      | next s1 =>
        obtain ⟨c, l, hcl, hv, hr⟩ := ih s1
        refine ⟨e :: c, l, by rw [hcl]; rfl, ?_, ?_⟩
        · intro v
          rw [hstep (setChangeMode v s) rfl, hstep s rfl, altitudePass_setChangeMode, hp]
          exact hv _
        · intro s2 rest h
          rw [hstep s rfl, hp] at h
          exact hr s2 rest h
      | reset s1 =>
        refine ⟨[e], later, rfl, ?_, ?_⟩
        · intro v
          rw [hstep (setChangeMode v s) rfl, hstep s rfl, altitudePass_setChangeMode, hp]
          rfl
        · intro s2 rest h
          rw [hstep s rfl, hp] at h
          cases h
      | fault =>
        refine ⟨[], e :: later, rfl, ?_, ?_⟩
        · intro v
          rw [hstep (setChangeMode v s) rfl, hstep s rfl, altitudePass_setChangeMode, hp]
          rfl
        · intro s2 rest h
          rw [hstep s rfl, hp] at h
          cases h
    · have hstep : ∀ x : Sys, x.heli = s.heli → ModeLand.loop (e :: later) x =
          Outcome.returned x (e :: later) := by
        intro x hx
        rw [ModeLand.loop, hx, if_neg hc]
      refine ⟨[], e :: later, rfl, ?_, ?_⟩
      · intro v
        rw [hstep (setChangeMode v s) rfl, hstep s rfl]
        rfl
      · intro s2 rest h
        rw [hstep s rfl] at h
        cases h
        rfl

theorem LocatePivot_loop_changeMode (envs : List Env) :
    ∀ s : Sys, ∃ consumed left : List Env, envs = consumed ++ left ∧
      (∀ v, LocatePivot.loop envs (setChangeMode v s) =
        (LocatePivot.loop envs s).mapSys (setChangeMode (changeModeAfter v consumed))) ∧
      (∀ s1 rest, LocatePivot.loop envs s = Outcome.returned s1 rest → rest = left) := by
  induction envs with
  | nil =>
    intro s
    refine ⟨[], [], rfl, ?_, ?_⟩
    · intro v
      unfold LocatePivot.loop
      have h0 : (setChangeMode v s).YawRefFlag = s.YawRefFlag := rfl
      rw [h0]
      split_ifs <;> rfl
    · intro s1 rest h
      unfold LocatePivot.loop at h
      split_ifs at h
      cases h
      rfl
  | cons e later ih =>
    intro s
    by_cases hc : s.YawRefFlag = 0
    · have hstep : ∀ x : Sys, x.YawRefFlag = s.YawRefFlag → LocatePivot.loop (e :: later) x =
          match LocatePivot.pass e x with
          | Pass.next s1 => LocatePivot.loop later s1
          | Pass.reset s1 => Outcome.reset s1
          | Pass.fault => Outcome.fault := by
        intro x hx
        rw [LocatePivot.loop, hx, if_pos hc]
      cases hp : LocatePivot.pass e s with
      | next s1 =>
        obtain ⟨c, l, hcl, hv, hr⟩ := ih s1
        refine ⟨e :: c, l, by rw [hcl]; rfl, ?_, ?_⟩
        · intro v
          rw [hstep (setChangeMode v s) rfl, hstep s rfl, LocatePivot.pass_setChangeMode, hp]
          exact hv _
        · intro s2 rest h
          rw [hstep s rfl, hp] at h
          exact hr s2 rest h
      | reset s1 =>
        refine ⟨[e], later, rfl, ?_, ?_⟩
        · intro v
          rw [hstep (setChangeMode v s) rfl, hstep s rfl, LocatePivot.pass_setChangeMode, hp]
          rfl
        · intro s2 rest h
          rw [hstep s rfl, hp] at h
          cases h
      | fault =>
        refine ⟨[], e :: later, rfl, ?_, ?_⟩
        · intro v
          rw [hstep (setChangeMode v s) rfl, hstep s rfl, LocatePivot.pass_setChangeMode, hp]
          rfl
        · intro s2 rest h
          rw [hstep s rfl, hp] at h
          cases h
    · have hstep : ∀ x : Sys, x.YawRefFlag = s.YawRefFlag → LocatePivot.loop (e :: later) x =
          Outcome.returned x (e :: later) := by
        intro x hx
        rw [LocatePivot.loop, hx, if_neg hc]
      refine ⟨[], e :: later, rfl, ?_, ?_⟩
      · intro v
        rw [hstep (setChangeMode v s) rfl, hstep s rfl]
        rfl
      · intro s2 rest h
        rw [hstep s rfl] at h
        cases h
        rfl


theorem LocatePivot_changeMode (envs : List Env) (s : Sys) :
    ∃ consumed left : List Env, envs = consumed ++ left ∧
      (∀ v, LocatePivot envs (setChangeMode v s) =
        (LocatePivot envs s).mapSys (setChangeMode (changeModeAfter v consumed))) ∧
      (∀ s1 rest, LocatePivot envs s = Outcome.returned s1 rest → rest = left) := by
  obtain ⟨c, l, hcl, hv, hr⟩ := LocatePivot_loop_changeMode envs { s with YawRefFlag := 0 }
  refine ⟨c, l, hcl, ?_, ?_⟩
  · intro v
    unfold LocatePivot
    have e1 : ({ setChangeMode v s with YawRefFlag := 0 } : Sys) =
        setChangeMode v { s with YawRefFlag := 0 } := rfl
    rw [e1, hv v]
    cases LocatePivot.loop envs { s with YawRefFlag := 0 } <;> rfl
  · intro s1 rest h
    unfold LocatePivot at h
    cases hl : LocatePivot.loop envs { s with YawRefFlag := 0 } with
    | returned s2 rest2 =>
      rw [hl] at h
      cases h
      exact hr s2 rest hl
    | reset s2 => rw [hl] at h; cases h
    | fault => rw [hl] at h; cases h
    | starved s2 => rw [hl] at h; cases h

theorem ModeTakeoff_changeMode (envs : List Env) (s : Sys) :
    ∃ consumed left : List Env, envs = consumed ++ left ∧
      (∀ v, ModeTakeoff envs (setChangeMode v s) =
        (ModeTakeoff envs s).mapSys (setChangeMode (changeModeAfter v consumed))) ∧
      (∀ s1 rest, ModeTakeoff envs s = Outcome.returned s1 rest → rest = left) := by
  obtain ⟨c, l, hcl, hv, hr⟩ := ModeTakeoff_loop_changeMode envs (ModeTakeoff.start s)
  have e1 : ∀ v, ModeTakeoff.start (setChangeMode v s) = setChangeMode v (ModeTakeoff.start s) :=
    fun _ => rfl
  cases hl : ModeTakeoff.loop envs (ModeTakeoff.start s) with
  | returned s1 rest1 =>
    have hrest := hr s1 rest1 hl
    subst hrest
    obtain ⟨c2, l2, hcl2, hv2, hr2⟩ := LocatePivot_changeMode rest1 s1
    refine ⟨c ++ c2, l2, by rw [hcl, hcl2, List.append_assoc], ?_, ?_⟩
    · intro v
      unfold ModeTakeoff
      rw [e1, hv v, hl, changeModeAfter_append]
      dsimp only [Outcome.mapSys]
      rw [hv2]
      cases LocatePivot rest1 s1 <;> rfl
    · intro s2 rest h
      unfold ModeTakeoff at h
      rw [hl] at h
      dsimp only at h
      cases hp : LocatePivot rest1 s1 with
      | returned s3 rest3 =>
        rw [hp] at h
        cases h
        exact hr2 s3 rest hp
      | reset s3 => rw [hp] at h; cases h
      | fault => rw [hp] at h; cases h
      | starved s3 => rw [hp] at h; cases h
  | reset s1 =>
    refine ⟨c, l, hcl, ?_, ?_⟩
    · intro v
      unfold ModeTakeoff
      rw [e1, hv v, hl]
      rfl
    · intro s2 rest h
      unfold ModeTakeoff at h
      rw [hl] at h
      cases h
  | fault =>
    refine ⟨c, l, hcl, ?_, ?_⟩
    · intro v
      unfold ModeTakeoff
      rw [e1, hv v, hl]
      rfl
    · intro s2 rest h
      unfold ModeTakeoff at h
      rw [hl] at h
      cases h
  | starved s1 =>
    refine ⟨c, l, hcl, ?_, ?_⟩
    · intro v
      unfold ModeTakeoff
      rw [e1, hv v, hl]
      rfl
    · intro s2 rest h
      unfold ModeTakeoff at h
      rw [hl] at h
      cases h

theorem ModeLand_eq_of_permission (envs : List Env) (x : Sys) (h : x.EnableLanding ≠ 0) :
    ModeLand envs x =
      match ModeLand.loop envs (ModeLand.start x) with
      | Outcome.returned s3 rest3 =>
        match LocatePivot rest3 s3 with
        | Outcome.returned s4 rest4 =>
          Outcome.returned (StopRotors { s4 with EnableLanding := 0 }) rest4
        | o => o
      | o => o := by
  unfold ModeLand
  dsimp only
  rw [if_pos h]
  rfl

theorem ModeLand_eq_of_no_permission (envs : List Env) (x : Sys) (h : ¬ x.EnableLanding ≠ 0) :
    ModeLand envs x =
      Outcome.returned
        (StopRotors { x with heli := { x.heli with submode := SubMode.LANDED } }) envs := by
  unfold ModeLand
  dsimp only
  rw [if_neg h]

theorem ModeLand_changeMode (envs : List Env) (s : Sys) :
    ∃ consumed left : List Env, envs = consumed ++ left ∧
      (∀ v, ModeLand envs (setChangeMode v s) =
        (ModeLand envs s).mapSys (setChangeMode (changeModeAfter v consumed))) ∧
      (∀ s1 rest, ModeLand envs s = Outcome.returned s1 rest → rest = left) := by
  by_cases hE : s.EnableLanding ≠ 0
  · have hE1 : ∀ v, (setChangeMode v s).EnableLanding ≠ 0 := fun _ => hE
    obtain ⟨c, l, hcl, hv, hr⟩ := ModeLand_loop_changeMode envs (ModeLand.start s)
    have e1 : ∀ v, ModeLand.start (setChangeMode v s) = setChangeMode v (ModeLand.start s) :=
      fun _ => rfl
    cases hl : ModeLand.loop envs (ModeLand.start s) with
    | returned s1 rest1 =>
      have hrest := hr s1 rest1 hl
      subst hrest
      obtain ⟨c2, l2, hcl2, hv2, hr2⟩ := LocatePivot_changeMode rest1 s1
      refine ⟨c ++ c2, l2, by rw [hcl, hcl2, List.append_assoc], ?_, ?_⟩
      · intro v
        rw [ModeLand_eq_of_permission envs _ (hE1 v), ModeLand_eq_of_permission envs s hE,
          e1, hv v, hl, changeModeAfter_append]
        dsimp only [Outcome.mapSys]
        rw [hv2]
        cases LocatePivot rest1 s1 <;> rfl
      · intro s2 rest h
        rw [ModeLand_eq_of_permission envs s hE, hl] at h
        dsimp only at h
        cases hp : LocatePivot rest1 s1 with
        | returned s3 rest3 =>
          rw [hp] at h
          cases h
          exact hr2 s3 rest hp
        | reset s3 => rw [hp] at h; cases h
        | fault => rw [hp] at h; cases h
        | starved s3 => rw [hp] at h; cases h
    | reset s1 =>
      refine ⟨c, l, hcl, ?_, ?_⟩
      · intro v
        rw [ModeLand_eq_of_permission envs _ (hE1 v), ModeLand_eq_of_permission envs s hE,
          e1, hv v, hl]
        rfl
      · intro s2 rest h
        rw [ModeLand_eq_of_permission envs s hE, hl] at h
        cases h
    | fault =>
      refine ⟨c, l, hcl, ?_, ?_⟩
      · intro v
        rw [ModeLand_eq_of_permission envs _ (hE1 v), ModeLand_eq_of_permission envs s hE,
          e1, hv v, hl]
        rfl
      · intro s2 rest h
        rw [ModeLand_eq_of_permission envs s hE, hl] at h
        cases h
    | starved s1 =>
      refine ⟨c, l, hcl, ?_, ?_⟩
      · intro v
        rw [ModeLand_eq_of_permission envs _ (hE1 v), ModeLand_eq_of_permission envs s hE,
          e1, hv v, hl]
        rfl
      · intro s2 rest h
        rw [ModeLand_eq_of_permission envs s hE, hl] at h
        cases h
  · have hE1 : ∀ v, ¬ (setChangeMode v s).EnableLanding ≠ 0 := fun _ => hE
    refine ⟨[], envs, rfl, ?_, ?_⟩
    · intro v
      rw [ModeLand_eq_of_no_permission envs _ (hE1 v), ModeLand_eq_of_no_permission envs s hE]
      rfl
    · intro s2 rest h
      rw [ModeLand_eq_of_no_permission envs s hE] at h
      cases h
      rfl

theorem ExecuteHelicopterMode_changeMode (SW1 : Bool) (envs : List Env) (s : Sys) :
    ∃ consumed left : List Env, envs = consumed ++ left ∧
      (∀ v, ExecuteHelicopterMode SW1 envs (setChangeMode v s) =
        (ExecuteHelicopterMode SW1 envs s).mapSys (setChangeMode (changeModeAfter v consumed))) ∧
      (∀ s1 rest, ExecuteHelicopterMode SW1 envs s = Outcome.returned s1 rest → rest = left) := by
  cases SW1 with
  | false => exact ModeLand_changeMode envs s
  | true =>
    obtain ⟨c, l, hcl, hv, hr⟩ := ModeTakeoff_changeMode envs s
    have hx : ∀ x : Sys, ExecuteHelicopterMode true envs x =
        match ModeTakeoff envs x with
        | Outcome.returned s1 rest => Outcome.returned { s1 with EnableLanding := 1 } rest
        | o => o := fun _ => rfl
    refine ⟨c, l, hcl, ?_, ?_⟩
    · intro v
      rw [hx, hx, hv v]
      cases ModeTakeoff envs s <;> rfl
    · intro s1 rest h
      rw [hx] at h
      cases hm : ModeTakeoff envs s with
      | returned s2 rest2 =>
        rw [hm] at h
        cases h
        exact hr s2 rest hm
      | reset s2 => rw [hm] at h; cases h
      | fault => rw [hm] at h; cases h
      | starved s2 => rw [hm] at h; cases h

theorem returned_changeMode (o : Outcome) (w : Int) (s1 : Sys) (rest : List Env)
    (h : o = Outcome.returned s1 rest) (hw : o = o.mapSys (setChangeMode w)) :
    s1.ChangeMode = w := by
  subst h
  have h2 : s1 = setChangeMode w s1 := by
    have := hw
    simp only [Outcome.mapSys, Outcome.returned.injEq, and_true] at this
    exact this
  rw [h2]
  rfl

theorem Run_Kernel.beforeMode_ChangeMode (e : Env) (s : Sys) :
    (Run_Kernel.beforeMode e s).ChangeMode = if e.ModeSWTickInt then 1 else s.ChangeMode := by
  unfold Run_Kernel.beforeMode
  dsimp only
  rw [(serviceTick_flags _).1]
  split_ifs with h1 h2 h3
  all_goals first
    | rw [(AdjustHeli_flags _ _ _ _ _).1]
      show (interrupts e s).ChangeMode = _
      rw [interrupts_ChangeMode]
      simp [*]
    | show (interrupts e s).ChangeMode = _
      rw [interrupts_ChangeMode]
      simp [*]

theorem interrupts_withoutSwitch (e : Env) (s : Sys) :
    interrupts e s =
      interrupts (withoutSwitch e)
        (setChangeMode (if e.ModeSWTickInt then 1 else s.ChangeMode) s) := by
  unfold interrupts withoutSwitch setChangeMode
  cases e.SysTickInt <;> cases e.ADCInt <;> cases e.YawInt <;> cases e.YawRefInt <;>
    cases e.ModeSWTickInt <;> rfl

theorem Pass_mapSys_mapSys (a b : Int) (p : Pass) :
    (p.mapSys (setChangeMode b)).mapSys (setChangeMode a) = p.mapSys (setChangeMode a) := by
  cases p <;> rfl

theorem Outcome_mapSys_mapSys (a b : Int) (o : Outcome) :
    (o.mapSys (setChangeMode b)).mapSys (setChangeMode a) = o.mapSys (setChangeMode a) := by
  cases o <;> rfl

theorem altitudePass_withoutSwitch (e : Env) (s : Sys) :
    altitudePass e s =
      (altitudePass (withoutSwitch e) s).mapSys
        (setChangeMode (if e.ModeSWTickInt then 1 else s.ChangeMode)) := by
  have h1 : altitudePass e s = altitudePass (withoutSwitch e)
      (setChangeMode (if e.ModeSWTickInt then 1 else s.ChangeMode) s) := by
    unfold altitudePass
    rw [interrupts_withoutSwitch e s]
    rfl
  rw [h1, altitudePass_setChangeMode]
  rfl

theorem LocatePivot.pass_withoutSwitch (e : Env) (s : Sys) :
    LocatePivot.pass e s =
      (LocatePivot.pass (withoutSwitch e) s).mapSys
        (setChangeMode (if e.ModeSWTickInt then 1 else s.ChangeMode)) := by
  have h1 : LocatePivot.pass e s = LocatePivot.pass (withoutSwitch e)
      (setChangeMode (if e.ModeSWTickInt then 1 else s.ChangeMode) s) := by
    unfold LocatePivot.pass
    rw [interrupts_withoutSwitch e s]
    rfl
  rw [h1, LocatePivot.pass_setChangeMode]
  rfl

theorem altitudePass_quiet (e : Env) (s : Sys) :
    altitudePass (withoutSwitch e) s =
      (altitudePass (withoutSwitch e) s).mapSys (setChangeMode s.ChangeMode) := by
  have h := altitudePass_setChangeMode (withoutSwitch e) s.ChangeMode s
  exact h

theorem LocatePivot.pass_quiet (e : Env) (s : Sys) :
    LocatePivot.pass (withoutSwitch e) s =
      (LocatePivot.pass (withoutSwitch e) s).mapSys (setChangeMode s.ChangeMode) := by
  have h := LocatePivot.pass_setChangeMode (withoutSwitch e) s.ChangeMode s
  exact h

theorem ModeTakeoff_loop_withoutSwitch (envs : List Env) :
    ∀ s : Sys, ModeTakeoff.loop (envs.map withoutSwitch) s =
      ((ModeTakeoff.loop envs s).mapSys (setChangeMode s.ChangeMode)).mapRest
        (List.map withoutSwitch) := by
  induction envs with
  | nil =>
    intro s
    rw [List.map_nil]
    unfold ModeTakeoff.loop
    split_ifs <;> rfl
  | cons e later ih =>
    intro s
    rw [List.map_cons]
    by_cases hc : s.heli.controller.curr_altitude_reading < s.heli.controller.altitudesetpoint
    · have hstep : ∀ (e1 : Env) (l1 : List Env), ModeTakeoff.loop (e1 :: l1) s =
          match altitudePass e1 s with
          | Pass.next s1 => ModeTakeoff.loop l1 s1
          | Pass.reset s1 => Outcome.reset s1
          | Pass.fault => Outcome.fault := by
        intro e1 l1
        rw [ModeTakeoff.loop, if_pos hc]
      rw [hstep, hstep, altitudePass_withoutSwitch e s]
      have hq := altitudePass_quiet e s
      cases hp : altitudePass (withoutSwitch e) s with
      | next s1 =>
        rw [hp] at hq
        have hq1 : s1 = setChangeMode s.ChangeMode s1 := Pass.next.inj hq
        have hcm : s1.ChangeMode = s.ChangeMode := by rw [hq1]; rfl
        obtain ⟨c, l, _, hv, _⟩ := ModeTakeoff_loop_changeMode later s1
        dsimp only [Pass.mapSys]
        rw [hv, Outcome_mapSys_mapSys, ih s1, hcm]
      | reset s1 =>
        rw [hp] at hq
        have hq1 : s1 = setChangeMode s.ChangeMode s1 := Pass.reset.inj hq
        exact congrArg Outcome.reset hq1
      | fault => rfl
    · have hstep : ∀ (e1 : Env) (l1 : List Env), ModeTakeoff.loop (e1 :: l1) s =
          Outcome.returned s (e1 :: l1) := by
        intro e1 l1
        rw [ModeTakeoff.loop, if_neg hc]
      rw [hstep, hstep]
      rfl

theorem ModeLand_loop_withoutSwitch (envs : List Env) :
    ∀ s : Sys, ModeLand.loop (envs.map withoutSwitch) s =
      ((ModeLand.loop envs s).mapSys (setChangeMode s.ChangeMode)).mapRest
        (List.map withoutSwitch) := by
  induction envs with
  | nil =>
    intro s
    rw [List.map_nil]
    unfold ModeLand.loop
    split_ifs <;> rfl
  | cons e later ih =>
    intro s
    rw [List.map_cons]
    by_cases hc : s.heli.controller.curr_altitude_reading > s.heli.controller.altitudesetpoint
    · have hstep : ∀ (e1 : Env) (l1 : List Env), ModeLand.loop (e1 :: l1) s =
          match altitudePass e1 s with
          | Pass.next s1 => ModeLand.loop l1 s1
          | Pass.reset s1 => Outcome.reset s1
          | Pass.fault => Outcome.fault := by
        intro e1 l1
        rw [ModeLand.loop, if_pos hc]
      rw [hstep, hstep, altitudePass_withoutSwitch e s]
      have hq := altitudePass_quiet e s
      cases hp : altitudePass (withoutSwitch e) s with
      | next s1 =>
        rw [hp] at hq
        have hq1 : s1 = setChangeMode s.ChangeMode s1 := Pass.next.inj hq
        have hcm : s1.ChangeMode = s.ChangeMode := by rw [hq1]; rfl
        obtain ⟨c, l, _, hv, _⟩ := ModeLand_loop_changeMode later s1
        dsimp only [Pass.mapSys]
        rw [hv, Outcome_mapSys_mapSys, ih s1, hcm]
      | reset s1 =>
        rw [hp] at hq
        have hq1 : s1 = setChangeMode s.ChangeMode s1 := Pass.reset.inj hq
        exact congrArg Outcome.reset hq1
      | fault => rfl
    · have hstep : ∀ (e1 : Env) (l1 : List Env), ModeLand.loop (e1 :: l1) s =
          Outcome.returned s (e1 :: l1) := by
        intro e1 l1
        rw [ModeLand.loop, if_neg hc]
      rw [hstep, hstep]
      rfl

theorem LocatePivot_loop_withoutSwitch (envs : List Env) :
    ∀ s : Sys, LocatePivot.loop (envs.map withoutSwitch) s =
      ((LocatePivot.loop envs s).mapSys (setChangeMode s.ChangeMode)).mapRest
        (List.map withoutSwitch) := by
  induction envs with
  | nil =>
    intro s
    rw [List.map_nil]
    unfold LocatePivot.loop
    split_ifs <;> rfl
  | cons e later ih =>
    intro s
    rw [List.map_cons]
    by_cases hc : s.YawRefFlag = 0
    · have hstep : ∀ (e1 : Env) (l1 : List Env), LocatePivot.loop (e1 :: l1) s =
          match LocatePivot.pass e1 s with
          | Pass.next s1 => LocatePivot.loop l1 s1
          | Pass.reset s1 => Outcome.reset s1
          | Pass.fault => Outcome.fault := by
        intro e1 l1
        rw [LocatePivot.loop, if_pos hc]
      rw [hstep, hstep, LocatePivot.pass_withoutSwitch e s]
      have hq := LocatePivot.pass_quiet e s
      cases hp : LocatePivot.pass (withoutSwitch e) s with
      | next s1 =>
        rw [hp] at hq
        have hq1 : s1 = setChangeMode s.ChangeMode s1 := Pass.next.inj hq
        have hcm : s1.ChangeMode = s.ChangeMode := by rw [hq1]; rfl
        obtain ⟨c, l, _, hv, _⟩ := LocatePivot_loop_changeMode later s1
        dsimp only [Pass.mapSys]
        rw [hv, Outcome_mapSys_mapSys, ih s1, hcm]
      | reset s1 =>
        rw [hp] at hq
        have hq1 : s1 = setChangeMode s.ChangeMode s1 := Pass.reset.inj hq
        exact congrArg Outcome.reset hq1
      | fault => rfl
    · have hstep : ∀ (e1 : Env) (l1 : List Env), LocatePivot.loop (e1 :: l1) s =
          Outcome.returned s (e1 :: l1) := by
        intro e1 l1
        rw [LocatePivot.loop, if_neg hc]
      rw [hstep, hstep]
      rfl

theorem LocatePivot_withoutSwitch (envs : List Env) (s : Sys) :
    LocatePivot (envs.map withoutSwitch) s =
      ((LocatePivot envs s).mapSys (setChangeMode s.ChangeMode)).mapRest
        (List.map withoutSwitch) := by
  unfold LocatePivot
  rw [LocatePivot_loop_withoutSwitch]
  cases LocatePivot.loop envs { s with YawRefFlag := 0 } <;> rfl

theorem LocatePivot_withoutSwitch_of (envs : List Env) (v : Int) (s : Sys) :
    LocatePivot (envs.map withoutSwitch) (setChangeMode v s) =
      ((LocatePivot envs s).mapSys (setChangeMode v)).mapRest (List.map withoutSwitch) := by
  obtain ⟨c, l, _, hv, _⟩ := LocatePivot_changeMode envs s
  rw [LocatePivot_withoutSwitch, hv, Outcome_mapSys_mapSys]
  rfl

theorem ModeTakeoff_withoutSwitch (envs : List Env) (s : Sys) :
    ModeTakeoff (envs.map withoutSwitch) s =
      ((ModeTakeoff envs s).mapSys (setChangeMode s.ChangeMode)).mapRest
        (List.map withoutSwitch) := by
  unfold ModeTakeoff
  rw [ModeTakeoff_loop_withoutSwitch]
  cases hl : ModeTakeoff.loop envs (ModeTakeoff.start s) with
  | returned s1 rest1 =>
    dsimp only [Outcome.mapSys, Outcome.mapRest]
    rw [LocatePivot_withoutSwitch_of]
    cases LocatePivot rest1 s1 <;> rfl
  | reset s1 => rfl
  | fault => rfl
  | starved s1 => rfl

theorem ModeLand_withoutSwitch (envs : List Env) (s : Sys) :
    ModeLand (envs.map withoutSwitch) s =
      ((ModeLand envs s).mapSys (setChangeMode s.ChangeMode)).mapRest
        (List.map withoutSwitch) := by
  by_cases hE : s.EnableLanding ≠ 0
  · rw [ModeLand_eq_of_permission _ s hE, ModeLand_eq_of_permission _ s hE,
      ModeLand_loop_withoutSwitch]
    cases hl : ModeLand.loop envs (ModeLand.start s) with
    | returned s1 rest1 =>
      dsimp only [Outcome.mapSys, Outcome.mapRest]
      rw [LocatePivot_withoutSwitch_of]
      cases LocatePivot rest1 s1 <;> rfl
    | reset s1 => rfl
    | fault => rfl
    | starved s1 => rfl
  · rw [ModeLand_eq_of_no_permission _ s hE, ModeLand_eq_of_no_permission _ s hE]
    rfl

theorem IgnoresChangeMode.of_parts (F : List Env → Sys → Outcome)
    (h1 : ∀ (envs : List Env) (s : Sys), ∃ consumed left : List Env, envs = consumed ++ left ∧
      (∀ v, F envs (setChangeMode v s) =
        (F envs s).mapSys (setChangeMode (changeModeAfter v consumed))) ∧
      (∀ s1 rest, F envs s = Outcome.returned s1 rest → rest = left))
    (h2 : ∀ (envs : List Env) (s : Sys), F (envs.map withoutSwitch) s =
      ((F envs s).mapSys (setChangeMode s.ChangeMode)).mapRest (List.map withoutSwitch)) :
    IgnoresChangeMode F := by
  intro envs s
  refine ⟨?_, h2 envs s⟩
  obtain ⟨c, l, hcl, hv, hr⟩ := h1 envs s
  refine ⟨c, l, hcl, hv, ?_⟩
  intro s1 rest h
  exact ⟨hr s1 rest h, returned_changeMode _ _ s1 rest h (hv s.ChangeMode)⟩

theorem Run_Kernel.pass_dispatch (e : Env) (rest : List Env) (s : Sys)
    (h : (Run_Kernel.beforeMode e s).ChangeMode ≠ 0) :
    Run_Kernel.pass e rest s =
      Run_Kernel.afterMode e (ExecuteHelicopterMode e.SW1 rest
        { Run_Kernel.beforeMode e s with
          ChangeMode := 0,
          out := Output.SysCtlDelay 300 :: (Run_Kernel.beforeMode e s).out }) := by
  rw [Run_Kernel_pass_eq, if_pos h]

theorem Run_Kernel.pass_no_dispatch (e : Env) (rest : List Env) (s : Sys)
    (h : (Run_Kernel.beforeMode e s).ChangeMode = 0) :
    Run_Kernel.pass e rest s =
      Run_Kernel.afterMode e (Outcome.returned (Run_Kernel.beforeMode e s) rest) := by
  rw [Run_Kernel_pass_eq, if_neg (not_not.mpr h)]

theorem Run_Kernel.afterMode_returned (e : Env) (o : Outcome) (s1 : Sys) (rest1 : List Env)
    (h : Run_Kernel.afterMode e o = Outcome.returned s1 rest1) :
    ∃ s4, o = Outcome.returned s4 rest1 ∧ s1.ChangeMode = s4.ChangeMode := by
  cases o with
  | returned s4 rest4 =>
    unfold Run_Kernel.afterMode at h
    dsimp only at h
    cases hy : serviceYaw e s4 with
    | none => rw [hy] at h; cases h
    | some s5 =>
      rw [hy] at h
      dsimp only at h
      split_ifs at h
      cases h
      exact ⟨s4, rfl, serviceYaw_ChangeMode e s4 s1 hy⟩
  | reset s4 => cases h
  | fault => cases h
  | starved s4 => cases h

theorem Run_Kernel.pass_dispatch_clears (e : Env) (rest : List Env) (s : Sys)
    (h : (Run_Kernel.beforeMode e s).ChangeMode ≠ 0) (s1 : Sys) (rest1 : List Env)
    (hr : Run_Kernel.pass e rest s = Outcome.returned s1 rest1) :
    ∃ consumed, rest = consumed ++ rest1 ∧ s1.ChangeMode = changeModeAfter 0 consumed := by
  rw [Run_Kernel.pass_dispatch e rest s h] at hr
  obtain ⟨s4, h4, hcm⟩ := Run_Kernel.afterMode_returned e _ s1 rest1 hr
  obtain ⟨c, l, hcl, hv, hl⟩ := ExecuteHelicopterMode_changeMode e.SW1 rest
    { Run_Kernel.beforeMode e s with
      ChangeMode := 0,
      out := Output.SysCtlDelay 300 :: (Run_Kernel.beforeMode e s).out }
  have hrest := hl s4 rest1 h4
  subst hrest
  refine ⟨c, hcl, ?_⟩
  rw [hcm]
  exact returned_changeMode _ _ s4 rest1 h4 (hv 0)

theorem changeModeAfter_ne_zero (v : Int) (consumed : List Env)
    (h : v ≠ 0 ∨ ∃ e ∈ consumed, e.ModeSWTickInt = true) :
    changeModeAfter v consumed ≠ 0 := by
  rw [changeModeAfter_eq]
  split_ifs with ha
  · decide
  · rcases h with h | ⟨e, he, hs⟩
    · exact h
    · exact absurd (List.any_eq_true.mpr ⟨e, he, hs⟩) ha

/-- C15: `ModeTakeoff`, `ModeLand` and `LocatePivot` never read or clear
`ChangeMode`.  Each of them ends the same way whatever the flag holds on entry
and whether or not the mode switch raises its interrupt during the call, the
machine state differing in the flag alone; on return the flag holds what the
interrupt handlers left in it, so it is set if it was set on entry or an edge
came during the call.  The next pass of `Run_Kernel` still finds a set flag
at its mode-change test, clears it and calls `ExecuteHelicopterMode` once with
the flag clear; the flag is clear after that pass unless a new edge came
during the call, and a pass that finds the flag clear makes no call. -/
theorem C15_mode_switch_deferred :
    IgnoresChangeMode ModeTakeoff ∧ IgnoresChangeMode ModeLand ∧
    IgnoresChangeMode LocatePivot ∧
    (∀ (v : Int) (consumed : List Env),
      (v ≠ 0 ∨ ∃ e ∈ consumed, e.ModeSWTickInt = true) → changeModeAfter v consumed ≠ 0) ∧
    (∀ (consumed : List Env),
      (∀ e ∈ consumed, e.ModeSWTickInt = false) → changeModeAfter 0 consumed = 0) ∧
    (∀ (e : Env) (rest : List Env) (s : Sys),
      (Run_Kernel.beforeMode e s).ChangeMode = (if e.ModeSWTickInt then 1 else s.ChangeMode) ∧
      ((Run_Kernel.beforeMode e s).ChangeMode ≠ 0 →
        Run_Kernel.pass e rest s =
          Run_Kernel.afterMode e (ExecuteHelicopterMode e.SW1 rest
            { Run_Kernel.beforeMode e s with
              ChangeMode := 0,
              out := Output.SysCtlDelay 300 :: (Run_Kernel.beforeMode e s).out }) ∧
        ∀ (s1 : Sys) (rest1 : List Env),
          Run_Kernel.pass e rest s = Outcome.returned s1 rest1 →
          ∃ consumed, rest = consumed ++ rest1 ∧
            s1.ChangeMode = changeModeAfter 0 consumed) ∧
      ((Run_Kernel.beforeMode e s).ChangeMode = 0 →
        Run_Kernel.pass e rest s =
          Run_Kernel.afterMode e (Outcome.returned (Run_Kernel.beforeMode e s) rest))) := by
  refine ⟨IgnoresChangeMode.of_parts _ ModeTakeoff_changeMode ModeTakeoff_withoutSwitch,
    IgnoresChangeMode.of_parts _ ModeLand_changeMode ModeLand_withoutSwitch,
    IgnoresChangeMode.of_parts _ LocatePivot_changeMode LocatePivot_withoutSwitch,
    changeModeAfter_ne_zero, ?_, ?_⟩
  · intro consumed h
    rw [changeModeAfter_eq, if_neg]
    intro ha
    obtain ⟨e, he, hs⟩ := List.any_eq_true.mp ha
    rw [h e he] at hs
    cases hs
  · intro e rest s
    exact ⟨Run_Kernel.beforeMode_ChangeMode e s,
      fun h => ⟨Run_Kernel.pass_dispatch e rest s h, Run_Kernel.pass_dispatch_clears e rest s h⟩,
      Run_Kernel.pass_no_dispatch e rest s⟩

/-- C15 on a takeoff from the start-up machine (reference 100 over an all-zero
ring) during whose first pass the mode switch raises its interrupt: the call
returns after the reference mark with the flag set, and without the interrupt
it returns the same state with the flag clear. -/
theorem C15_mode_switch_deferred_witness :
    ModeTakeoff
        (List.map withoutSwitch
          [{ quietEnv with SysTickInt := true, ModeSWTickInt := true },
            { quietEnv with YawRefInt := true }, quietEnv])
        (exampleSys (List.replicate 25 0) 0 100) =
      ((ModeTakeoff
          [{ quietEnv with SysTickInt := true, ModeSWTickInt := true },
            { quietEnv with YawRefInt := true }, quietEnv]
          (exampleSys (List.replicate 25 0) 0 100)).mapSys
        (setChangeMode (exampleSys (List.replicate 25 0) 0 100).ChangeMode)).mapRest
        (List.map withoutSwitch) ∧
    (ModeTakeoff
        [{ quietEnv with SysTickInt := true, ModeSWTickInt := true },
          { quietEnv with YawRefInt := true }, quietEnv]
        (exampleSys (List.replicate 25 0) 0 100)).isReturned = true ∧
    (ModeTakeoff
        [{ quietEnv with SysTickInt := true, ModeSWTickInt := true },
          { quietEnv with YawRefInt := true }, quietEnv]
        (exampleSys (List.replicate 25 0) 0 100)).sys.map (fun s => s.ChangeMode) = some 1 ∧
    (exampleSys (List.replicate 25 0) 0 100).ChangeMode = 0 :=
  ⟨(C15_mode_switch_deferred.1 _ _).2, by decide, by decide, by decide⟩

/-! ## Yaw buttons, telemetry rate and display rate (rotors.c, system.c, kernel.c) -/

theorem AdjustHeli_yaw_of_left (UP DOWN : Bool) (s : Sys)
    (hup : ¬ (UP = true ∧ s.heli.controller.altitudesetpoint ≤ 90))
    (hdown : ¬ (DOWN = true ∧ s.heli.controller.altitudesetpoint ≥ 10)) :
    (AdjustHeli UP DOWN false true s).heli.controller.yawanglesetpoint =
      Int.tmod (s.heli.controller.yawanglesetpoint + 18) 448 ∧
    (AdjustHeli UP DOWN false true s).heli.controller.yaw_increment =
      Int.tmod (s.heli.controller.yaw_increment + 15 + 540) 360 - 180 := by
  unfold AdjustHeli
  dsimp only
  rw [if_neg hup, if_neg hdown]
  exact ⟨rfl, rfl⟩

theorem AdjustHeli_yaw_of_right (UP DOWN LEFT : Bool) (s : Sys)
    (hup : ¬ (UP = true ∧ s.heli.controller.altitudesetpoint ≤ 90))
    (hdown : ¬ (DOWN = true ∧ s.heli.controller.altitudesetpoint ≥ 10)) :
    (AdjustHeli UP DOWN true LEFT s).heli.controller.yawanglesetpoint =
      Int.tmod (s.heli.controller.yawanglesetpoint - 18) 448 ∧
    (AdjustHeli UP DOWN true LEFT s).heli.controller.yaw_increment =
      Int.tmod (s.heli.controller.yaw_increment - 15 + 540) 360 - 180 := by
  unfold AdjustHeli
  dsimp only
  rw [if_neg hup, if_neg hdown]
  exact ⟨rfl, rfl⟩

/-- C21, the code at a failing input: a LEFT press that `AdjustHeli` handles
moves the yaw setpoint by `56/3 = 18` raw units, not 19, and a RIGHT press by
-18, each reduced by C's `% 448`, while the displayed `yaw_increment` moves by
+15 or -15 wrapped into [-180, 180).  On a machine in flight with yaw setpoint
0 one LEFT press gives setpoint 18 and displayed increment 15; after 24 LEFT
presses the displayed increment is back at 0 (a full turn of 360 degrees) but
the setpoint is 432, sixteen raw units short of the full circle of 448. -/
theorem C21_yaw_step_is_18_states :
    (∀ (UP DOWN : Bool) (s : Sys),
      ¬ (UP = true ∧ s.heli.controller.altitudesetpoint ≤ 90) →
      ¬ (DOWN = true ∧ s.heli.controller.altitudesetpoint ≥ 10) →
      (AdjustHeli UP DOWN false true s).heli.controller.yawanglesetpoint =
        Int.tmod (s.heli.controller.yawanglesetpoint + 18) 448 ∧
      (AdjustHeli UP DOWN false true s).heli.controller.yaw_increment =
        Int.tmod (s.heli.controller.yaw_increment + 15 + 540) 360 - 180 ∧
      (∀ LEFT : Bool,
        (AdjustHeli UP DOWN true LEFT s).heli.controller.yawanglesetpoint =
          Int.tmod (s.heli.controller.yawanglesetpoint - 18) 448 ∧
        (AdjustHeli UP DOWN true LEFT s).heli.controller.yaw_increment =
          Int.tmod (s.heli.controller.yaw_increment - 15 + 540) 360 - 180)) ∧
    exampleFlying.heli.controller.yawanglesetpoint = 0 ∧
    (AdjustHeli false false false true exampleFlying).heli.controller.yawanglesetpoint = 18 ∧
    (AdjustHeli false false false true exampleFlying).heli.controller.yaw_increment = 15 ∧
    (AdjustHeli false false true false exampleFlying).heli.controller.yawanglesetpoint = -18 ∧
    (AdjustHeli false false true false exampleFlying).heli.controller.yaw_increment = -15 ∧
    (Nat.iterate (AdjustHeli false false false true) 24
      exampleFlying).heli.controller.yawanglesetpoint = 432 ∧
    (Nat.iterate (AdjustHeli false false false true) 24
      exampleFlying).heli.controller.yaw_increment = 0 := by
  refine ⟨?_, by decide, by decide, by decide, by decide, by decide, by decide, by decide⟩
  intro UP DOWN s hup hdown
  exact ⟨(AdjustHeli_yaw_of_left UP DOWN s hup hdown).1,
    (AdjustHeli_yaw_of_left UP DOWN s hup hdown).2,
    fun LEFT => AdjustHeli_yaw_of_right UP DOWN LEFT s hup hdown⟩

theorem ticksPerSlow_eq : ticksPerSlow = 12 := by decide

theorem SysTick_tickCount_of_lt (s : Sys) (h0 : 0 ≤ s.tickCount) (h1 : s.tickCount < 11) :
    (SysTick s).tickCount = s.tickCount + 1 ∧ uartLines (SysTick s).out = uartLines s.out ∧
    displayCalls (SysTick s).out = displayCalls s.out ∧ (SysTick s).slowTick = s.slowTick := by
  have hu : toUint8 (s.tickCount + 1) = s.tickCount + 1 := by
    unfold toUint8
    omega
  unfold SysTick
  dsimp only
  rw [hu, ticksPerSlow_eq, if_neg (by omega)]
  exact ⟨rfl, rfl, rfl, rfl⟩

theorem SysTick_tickCount_of_eleven (s : Sys) (h : s.tickCount = 11) :
    (SysTick s).tickCount = 0 ∧ uartLines (SysTick s).out = uartLines s.out + 1 ∧
    displayCalls (SysTick s).out = displayCalls s.out ∧ (SysTick s).slowTick = 1 := by
  unfold SysTick
  dsimp only
  rw [h, ticksPerSlow_eq, if_pos (by decide)]
  exact ⟨rfl, rfl, rfl, rfl⟩

theorem SysTick_uartLines_le (s : Sys) : uartLines (SysTick s).out ≤ uartLines s.out + 1 := by
  unfold SysTick
  dsimp only
  split_ifs
  · exact le_of_eq rfl
  · exact Nat.le_succ_of_le (le_of_eq rfl)

theorem SysTick_iterate (n : Nat) (s : Sys) (h0 : s.tickCount = 0) :
    (Nat.iterate SysTick n s).tickCount = ((n % 12 : Nat) : Int) ∧
    uartLines (Nat.iterate SysTick n s).out = uartLines s.out + n / 12 := by
  induction n with
  | zero => exact ⟨h0, rfl⟩
  | succ k ih =>
    rw [Function.iterate_succ_apply']
    obtain ⟨ht, hu⟩ := ih
    by_cases h11 : k % 12 = 11
    · have hk : (Nat.iterate SysTick k s).tickCount = 11 := by rw [ht, h11]; rfl
      obtain ⟨a, b, _, _⟩ := SysTick_tickCount_of_eleven _ hk
      rw [a, b, hu]
      constructor
      · have : (k + 1) % 12 = 0 := by omega
        rw [this]
        rfl
      · omega
    · have hlt : k % 12 < 11 := by omega
      obtain ⟨a, b, _, _⟩ := SysTick_tickCount_of_lt (Nat.iterate SysTick k s)
        (by rw [ht]; exact Int.natCast_nonneg _) (by rw [ht]; exact_mod_cast hlt)
      rw [a, b, hu, ht]
      constructor
      · have : (k + 1) % 12 = k % 12 + 1 := by omega
        rw [this]
        push_cast
        rfl
      · omega

/-- C22: `ticksPerSlow` is 100/8 = 12, and in a run of `n` consecutive
`SysTick` calls that starts with the tick counter at 0, `UARTPrint` is called
n/12 times (rounded down): call number `n + 1` sends a line exactly when
`n + 1` is a multiple of 12, and then leaves the counter at 0; the counter
after `n` calls is `n mod 12`, and no call sends more than one line. -/
theorem C22_telemetry_every_12th_tick (n : Nat) (s : Sys) (h0 : s.tickCount = 0) :
    ticksPerSlow = 12 ∧
    uartLines (Nat.iterate SysTick n s).out = uartLines s.out + n / 12 ∧
    (Nat.iterate SysTick n s).tickCount = ((n % 12 : Nat) : Int) ∧
    uartLines (Nat.iterate SysTick (n + 1) s).out =
      uartLines (Nat.iterate SysTick n s).out + (if (n + 1) % 12 = 0 then 1 else 0) ∧
    ((n + 1) % 12 = 0 → (Nat.iterate SysTick (n + 1) s).tickCount = 0) ∧
    (∀ s1 : Sys, uartLines (SysTick s1).out ≤ uartLines s1.out + 1) := by
  obtain ⟨ht, hu⟩ := SysTick_iterate n s h0
  obtain ⟨ht1, hu1⟩ := SysTick_iterate (n + 1) s h0
  refine ⟨ticksPerSlow_eq, hu, ht, ?_, ?_, SysTick_uartLines_le⟩
  · rw [hu1, hu]
    split_ifs with h
    · omega
    · omega
  · intro h
    rw [ht1, h]
    rfl

/-- C22 on the start-up machine: 25 calls send two lines (on calls 12 and 24)
and leave the counter at 1. -/
theorem C22_telemetry_every_12th_tick_witness :
    uartLines (Nat.iterate SysTick 25 bootSys).out = 2 ∧
    (Nat.iterate SysTick 25 bootSys).tickCount = 1 := by
  obtain ⟨_, hu, ht, _⟩ := C22_telemetry_every_12th_tick 25 bootSys rfl
  exact ⟨hu, ht⟩

theorem serviceTick_display_of_slowTick (s : Sys) (hs : s.slowTick ≠ 0) (ht : s.DeltaTFlag ≠ 0) :
    (serviceTick s) =
      DisplayProject (SysTick (ControllerImplementation { s with DeltaTFlag := 0 })) ∧
    displayCalls (serviceTick s).out = displayCalls s.out + 1 ∧
    (serviceTick s).slowTick ≠ 0 := by
  have hslow : (SysTick (ControllerImplementation { s with DeltaTFlag := 0 })).slowTick ≠ 0 := by
    unfold SysTick
    dsimp only
    split_ifs
    · exact one_ne_zero
    · exact hs
  have heq : serviceTick s =
      DisplayProject (SysTick (ControllerImplementation { s with DeltaTFlag := 0 })) := by
    unfold serviceTick
    rw [if_pos ht]
    dsimp only
    rw [if_pos hslow]
  refine ⟨heq, ?_, ?_⟩
  · rw [heq]
    unfold SysTick
    dsimp only
    split_ifs <;> rfl
  · rw [heq]
    exact hslow

/-- C23, the code at a failing input: nothing clears `slowTick`.  Once it is
set, every pending control tick is followed by a call of `DisplayProject` and
leaves the flag set.  On the start-up machine, fourteen passes of
`Run_Kernel` with a timer interrupt in each run fourteen control ticks; the
flag is raised on the twelfth and the display is refreshed on the twelfth,
thirteenth and fourteenth, three control ticks in a row. -/
theorem C23_display_on_every_tick_after_first_slow_tick :
    (∀ s : Sys, s.slowTick ≠ 0 → s.DeltaTFlag ≠ 0 →
      serviceTick s =
        DisplayProject (SysTick (ControllerImplementation { s with DeltaTFlag := 0 })) ∧
      displayCalls (serviceTick s).out = displayCalls s.out + 1 ∧
      (serviceTick s).slowTick ≠ 0) ∧
    (Run_Kernel (List.replicate 11 { quietEnv with SysTickInt := true }) bootSys).sys.map
      (fun s => (displayCalls s.out, s.slowTick)) = some (0, 0) ∧
    (Run_Kernel (List.replicate 12 { quietEnv with SysTickInt := true }) bootSys).sys.map
      (fun s => (displayCalls s.out, s.slowTick)) = some (1, 1) ∧
    (Run_Kernel (List.replicate 13 { quietEnv with SysTickInt := true }) bootSys).sys.map
      (fun s => (displayCalls s.out, s.slowTick)) = some (2, 1) ∧
    (Run_Kernel (List.replicate 14 { quietEnv with SysTickInt := true }) bootSys).sys.map
      (fun s => (displayCalls s.out, s.slowTick)) = some (3, 1) := by
  refine ⟨serviceTick_display_of_slowTick, by decide, by decide, by decide, by decide⟩

/-! ## The yaw setpoint in pivot search and under the buttons (mode.c, rotors.c) -/

theorem SysTick_heli (s : Sys) : (SysTick s).heli = s.heli := by
  unfold SysTick
  dsimp only
  split_ifs <;> rfl

theorem LocatePivot_tick_eq (e : Env) (s : Sys) :
    LocatePivot.tick e s =
      SetPWM false (SetPWM true (ControllerImplementation
        { (if (SysTick { s with ResetFlag := toUint8 (GPIOPinRead e.SW2 SW2_PIN),
                                DeltaTFlag := 0 }).slowTick ≠ 0
            then DisplayProject (SysTick { s with
              ResetFlag := toUint8 (GPIOPinRead e.SW2 SW2_PIN), DeltaTFlag := 0 })
            else SysTick { s with
              ResetFlag := toUint8 (GPIOPinRead e.SW2 SW2_PIN), DeltaTFlag := 0 }) with
          heli := { s.heli with controller := { s.heli.controller with
            yawanglesetpoint := s.heli.controller.curr_yawangle_reading + 10 } } })) := by
  unfold LocatePivot.tick
  dsimp only
  have h := SysTick_heli { s with ResetFlag := toUint8 (GPIOPinRead e.SW2 SW2_PIN), DeltaTFlag := 0 }
  dsimp only at h
  split_ifs
  · show SetPWM false (SetPWM true (ControllerImplementation _)) = _
    simp only [DisplayProject, h]
  · simp only [h]

theorem LocatePivot_tick_yawanglesetpoint (e : Env) (s : Sys) :
    (LocatePivot.tick e s).heli.controller.yawanglesetpoint =
      s.heli.controller.curr_yawangle_reading + 10 := by
  rw [LocatePivot_tick_eq]
  rfl

theorem AdjustHeli_yawanglesetpoint_bound (UP DOWN RIGHT LEFT : Bool) (s : Sys) :
    |(AdjustHeli UP DOWN RIGHT LEFT s).heli.controller.yawanglesetpoint| < 448 := by
  unfold AdjustHeli
  dsimp only
  split_ifs <;> exact (tmod_448_bounds _).1

/-- C24 as stated fails.  At yaw reading 440 (magnitude below 448) a
pivot-search tick stores 440 + 10 = 450 as the yaw setpoint, which is not
below 448 in magnitude; the pass of `LocatePivot` that serves a timer tick
ends with that setpoint. -/
theorem C24_counterexample_pivot_setpoint_past_full_circle :
    |({ bootSys with heli := exampleYaw 440 0 } : Sys).heli.controller.curr_yawangle_reading|
      < 448 ∧
    (LocatePivot.tick quietEnv
      { bootSys with heli := exampleYaw 440 0 }).heli.controller.yawanglesetpoint = 450 ∧
    (LocatePivot.pass { quietEnv with SysTickInt := true }
      { bootSys with heli := exampleYaw 440 0 }).sys.map
        (fun s => s.heli.controller.yawanglesetpoint) = some 450 ∧
    ¬ (∀ (e : Env) (s : Sys), |s.heli.controller.curr_yawangle_reading| < 448 →
        |(LocatePivot.tick e s).heli.controller.yawanglesetpoint| < 448) := by
  refine ⟨by decide, by decide, by decide, ?_⟩
  intro H
  exact absurd (H quietEnv { bootSys with heli := exampleYaw 440 0 } (by decide)) (by decide)

/-- C24, amended: `AdjustHeli` stores the yaw setpoint reduced by C's `% 448`,
so its magnitude is below 448 after every call; a pivot-search tick stores the
yaw reading plus 10 without reducing it, so from a reading of magnitude below
448 the setpoint lies in (-438, 458) and its magnitude is below 448 exactly
when the reading is below 438; `LocatePivot` returns with the setpoint 0. -/
theorem C24_yaw_setpoint_range (UP DOWN RIGHT LEFT : Bool) (e : Env) (s : Sys)
    (hr : |s.heli.controller.curr_yawangle_reading| < 448) :
    |(AdjustHeli UP DOWN RIGHT LEFT s).heli.controller.yawanglesetpoint| < 448 ∧
    (LocatePivot.tick e s).heli.controller.yawanglesetpoint =
      s.heli.controller.curr_yawangle_reading + 10 ∧
    -438 < (LocatePivot.tick e s).heli.controller.yawanglesetpoint ∧
    (LocatePivot.tick e s).heli.controller.yawanglesetpoint < 458 ∧
    (|(LocatePivot.tick e s).heli.controller.yawanglesetpoint| < 448 ↔
      s.heli.controller.curr_yawangle_reading < 438) ∧
    (∀ (envs rest : List Env) (s1 : Sys), LocatePivot envs s = Outcome.returned s1 rest →
      s1.heli.controller.yawanglesetpoint = 0) := by
  rw [LocatePivot_tick_yawanglesetpoint]
  rw [abs_lt] at hr
  refine ⟨AdjustHeli_yawanglesetpoint_bound UP DOWN RIGHT LEFT s, rfl, by omega, by omega, ?_, ?_⟩
  · rw [abs_lt]
    omega
  · intro envs rest s1 h
    obtain ⟨s0, _, hs1⟩ := LocatePivot_returned envs rest s s1 h
    rw [hs1]
    rfl

/-- C24 amended, at yaw reading 437: the pivot-search tick stores 447, the
largest setpoint still below 448. -/
theorem C24_yaw_setpoint_range_witness :
    (LocatePivot.tick quietEnv
      { bootSys with heli := exampleYaw 437 0 }).heli.controller.yawanglesetpoint = 447 ∧
    |(AdjustHeli false false false true
      { bootSys with heli := exampleYaw 437 0 }).heli.controller.yawanglesetpoint| < 448 :=
  ⟨(C24_yaw_setpoint_range false false false true quietEnv
      { bootSys with heli := exampleYaw 437 0 } (by decide)).2.1,
    (C24_yaw_setpoint_range false false false true quietEnv
      { bootSys with heli := exampleYaw 437 0 } (by decide)).1⟩

theorem LocatePivot_tick_setpoint_irrelevant (e : Env) (s : Sys) (x : Int) :
    LocatePivot.tick e { s with heli := { s.heli with controller := { s.heli.controller with
      yawanglesetpoint := x } } } = LocatePivot.tick e s := by
  rw [LocatePivot_tick_eq, LocatePivot_tick_eq]
  unfold SysTick
  dsimp only
  split_ifs with h1 h2 h3 h4 h5
  all_goals first
    | rfl
    | exact absurd (one_ne_zero : (1 : Int) ≠ 0) h2
    | exact absurd h3 h2
    | exact absurd h2 h3

/-- C25 as stated fails.  Two states with the same yaw setpoint 0 and yaw
readings 0 and 100 leave a pivot-search tick with setpoints 10 and 110, so no
constant is added to the previous setpoint on every tick. -/
theorem C25_counterexample_setpoint_follows_reading :
    ({ bootSys with heli := exampleYaw 100 0 } : Sys).heli.controller.yawanglesetpoint = 0 ∧
    (LocatePivot.tick quietEnv
      { bootSys with heli := exampleYaw 100 0 }).heli.controller.yawanglesetpoint = 110 ∧
    bootSys.heli.controller.yawanglesetpoint = 0 ∧
    (LocatePivot.tick quietEnv bootSys).heli.controller.yawanglesetpoint = 10 ∧
    ¬ (∃ c : Int, ∀ (e : Env) (s : Sys),
        (LocatePivot.tick e s).heli.controller.yawanglesetpoint =
          s.heli.controller.yawanglesetpoint + c) := by
  refine ⟨by decide, by decide, by decide, by decide, ?_⟩
  rintro ⟨c, H⟩
  have h1 := H quietEnv bootSys
  have h2 := H quietEnv { bootSys with heli := exampleYaw 100 0 }
  rw [LocatePivot_tick_yawanglesetpoint] at h1 h2
  have e1 : bootSys.heli.controller.curr_yawangle_reading = 0 := by decide
  have e2 : bootSys.heli.controller.yawanglesetpoint = 0 := by decide
  have e3 : ({ bootSys with heli := exampleYaw 100 0 } : Sys).heli.controller.curr_yawangle_reading
      = 100 := by decide
  have e4 : ({ bootSys with heli := exampleYaw 100 0 } : Sys).heli.controller.yawanglesetpoint
      = 0 := by decide
  rw [e1, e2] at h1
  rw [e3, e4] at h2
  omega

/-- C25, amended: on every time tick of the pivot search the yaw setpoint is
set to the current yaw reading plus 10, whatever the setpoint was before (the
tick ends the same for every previous setpoint); the control tick that
follows is run on that setpoint, so its tail controller sees the error 10,
and the two PWM outputs are written after it. -/
theorem C25_pivot_tick_setpoint_from_reading (e : Env) (s : Sys) (x : Int) :
    (LocatePivot.tick e s).heli.controller.yawanglesetpoint =
      s.heli.controller.curr_yawangle_reading + 10 ∧
    LocatePivot.tick e { s with heli := { s.heli with controller := { s.heli.controller with
      yawanglesetpoint := x } } } = LocatePivot.tick e s ∧
    (∃ f : Sys, LocatePivot.tick e s = SetPWM false (SetPWM true (ControllerImplementation f)) ∧
      f.heli.controller.yawanglesetpoint - f.heli.controller.curr_yawangle_reading = 10 ∧
      f.heli = { s.heli with controller := { s.heli.controller with
        yawanglesetpoint := s.heli.controller.curr_yawangle_reading + 10 } }) := by
  refine ⟨LocatePivot_tick_yawanglesetpoint e s, LocatePivot_tick_setpoint_irrelevant e s x,
    _, LocatePivot_tick_eq e s, ?_, rfl⟩
  show s.heli.controller.curr_yawangle_reading + 10 - s.heli.controller.curr_yawangle_reading = 10
  omega

/-! ## The mode indicators in the dispatch loop (mode.c, kernel.c) -/

theorem SameModes_of_frame {s s1 : Sys} (h : FlightFrame s s1) : SameModes s s1 :=
  ⟨h.2.1, h.1, h.2.2.2.1⟩

theorem ModesAgree_of_same {s s1 : Sys} (h : SameModes s s1) (ha : ModesAgree s) :
    ModesAgree s1 := by
  unfold ModesAgree
  rw [h.1, h.2.1, h.2.2]
  exact ha

theorem SameModes_comp {a b c : Sys} (h1 : SameModes a b) (h2 : SameModes b c) :
    SameModes a c :=
  ⟨h2.1.trans h1.1, h2.2.1.trans h1.2.1, h2.2.2.trans h1.2.2⟩

theorem AdjustHeli_modes (UP DOWN RIGHT LEFT : Bool) (s : Sys) :
    SameModes s (AdjustHeli UP DOWN RIGHT LEFT s) := ⟨rfl, rfl, rfl⟩

theorem Run_Kernel_beforeMode_modes (e : Env) (s : Sys) :
    SameModes s (Run_Kernel.beforeMode e s) := by
  unfold Run_Kernel.beforeMode
  dsimp only
  have f0 := SameModes_of_frame (interrupts_frame e s)
  have f1 : SameModes (interrupts e s)
      { interrupts e s with ResetFlag := toUint8 (GPIOPinRead e.SW2 SW2_PIN) } :=
    ⟨rfl, rfl, rfl⟩
  split_ifs
  · exact SameModes_comp (SameModes_comp (SameModes_comp f0 f1) (AdjustHeli_modes _ _ _ _ _))
      (SameModes_of_frame (serviceTick_frame _))
  · exact SameModes_comp (SameModes_comp f0 f1) (SameModes_of_frame (serviceTick_frame _))

theorem ModeTakeoff_returned_modes (envs rest : List Env) (s s1 : Sys)
    (h : ModeTakeoff envs s = Outcome.returned s1 rest) :
    s1.heli.mode = Mode.USER_ENABLED ∧ s1.heli.submode = SubMode.FLY := by
  unfold ModeTakeoff at h
  cases hl : ModeTakeoff.loop envs (ModeTakeoff.start s) with
  | returned s2 rest2 =>
    rw [hl] at h
    dsimp only at h
    cases hp : LocatePivot rest2 s2 with
    | returned s3 rest3 =>
      rw [hp] at h
      cases h
      exact ⟨rfl, rfl⟩
    | reset s3 => rw [hp] at h; cases h
    | fault => rw [hp] at h; cases h
    | starved s3 => rw [hp] at h; cases h
  | reset s2 => rw [hl] at h; cases h
  | fault => rw [hl] at h; cases h
  | starved s2 => rw [hl] at h; cases h

theorem ModeLand_returned_modes (envs rest : List Env) (s s1 : Sys)
    (h : ModeLand envs s = Outcome.returned s1 rest) :
    s1.heli.submode = SubMode.LANDED ∧ s1.EnableLanding = 0 ∧
    (s.EnableLanding ≠ 0 → s1.heli.mode = Mode.USER_DISABLED) ∧
    (s.EnableLanding = 0 → s1.heli.mode = s.heli.mode) ∧
    s1.heli.mainrotor.ui32Duty = 0 ∧ s1.heli.tailrotor.ui32Duty = 0 := by
  by_cases hE : s.EnableLanding ≠ 0
  · rw [ModeLand_eq_of_permission envs s hE] at h
    cases hl : ModeLand.loop envs (ModeLand.start s) with
    | returned s3 rest3 =>
      rw [hl] at h
      dsimp only at h
      cases hp : LocatePivot rest3 s3 with
      | returned s4 rest4 =>
        rw [hp] at h
        cases h
        have f1 := ModeLand_loop_frame_sys envs (ModeLand.start s) s3 (by rw [hl]; rfl)
        have f2 := LocatePivot_frame_sys rest3 s3 s4 (by rw [hp]; rfl)
        have f := FlightFrame.trans f1 f2
        refine ⟨f.1, rfl, fun _ => f.2.1, fun h0 => absurd h0 hE, rfl, rfl⟩
      | reset s4 => rw [hp] at h; cases h
      | fault => rw [hp] at h; cases h
      | starved s4 => rw [hp] at h; cases h
    | reset s3 => rw [hl] at h; cases h
    | fault => rw [hl] at h; cases h
    | starved s3 => rw [hl] at h; cases h
  · rw [ModeLand_eq_of_no_permission envs s hE] at h
    cases h
    exact ⟨rfl, not_not.mp hE, fun h1 => absurd h1 hE, fun _ => rfl, rfl, rfl⟩

theorem ExecuteHelicopterMode_agree (SW1 : Bool) (envs rest : List Env) (s s1 : Sys)
    (ha : ModesAgree s) (h : ExecuteHelicopterMode SW1 envs s = Outcome.returned s1 rest) :
    ModesAgree s1 := by
  cases SW1 with
  | true =>
    have hx : ExecuteHelicopterMode true envs s =
        match ModeTakeoff envs s with
        | Outcome.returned s1 rest => Outcome.returned { s1 with EnableLanding := 1 } rest
        | o => o := rfl
    rw [hx] at h
    cases hm : ModeTakeoff envs s with
    | returned s2 rest2 =>
      rw [hm] at h
      cases h
      obtain ⟨h1, h2⟩ := ModeTakeoff_returned_modes envs rest s s2 hm
      exact ⟨⟨fun _ => h2, fun _ => h1⟩, ⟨fun _ => one_ne_zero, fun _ => h2⟩⟩
    | reset s2 => rw [hm] at h; cases h
    | fault => rw [hm] at h; cases h
    | starved s2 => rw [hm] at h; cases h
  | false =>
    have hx : ExecuteHelicopterMode false envs s = ModeLand envs s := rfl
    rw [hx] at h
    obtain ⟨hsub, hel, hperm, hnone, _, _⟩ := ModeLand_returned_modes envs rest s s1 h
    have hmode : s1.heli.mode = Mode.USER_DISABLED := by
      by_cases hE : s.EnableLanding ≠ 0
      · exact hperm hE
      · rw [hnone (not_not.mp hE)]
        cases hm : s.heli.mode with
        | USER_DISABLED => rfl
        | USER_ENABLED => exact absurd (ha.2.mp (ha.1.mp hm)) hE
    unfold ModesAgree
    rw [hsub, hel, hmode]
    decide

theorem Run_Kernel_pass_agree (e : Env) (rest rest1 : List Env) (s s1 : Sys)
    (ha : ModesAgree s) (h : Run_Kernel.pass e rest s = Outcome.returned s1 rest1) :
    ModesAgree s1 := by
  rw [Run_Kernel_pass_eq] at h
  have hb := ModesAgree_of_same (Run_Kernel_beforeMode_modes e s) ha
  have hafter : ∀ o : Outcome, Run_Kernel.afterMode e o = Outcome.returned s1 rest1 →
      ∃ s4, o = Outcome.returned s4 rest1 ∧ SameModes s4 s1 := by
    intro o ho
    cases o with
    | returned s4 rest4 =>
      unfold Run_Kernel.afterMode at ho
      dsimp only at ho
      cases hy : serviceYaw e s4 with
      | none => rw [hy] at ho; cases ho
      | some s5 =>
        rw [hy] at ho
        dsimp only at ho
        split_ifs at ho
        cases ho
        exact ⟨s4, rfl, SameModes_of_frame (serviceYaw_frame e s4 s1 hy)⟩
    | reset s4 => cases ho
    | fault => cases ho
    | starved s4 => cases ho
  obtain ⟨s4, h4, hsame⟩ := hafter _ h
  refine ModesAgree_of_same hsame ?_
  split_ifs at h4 with hc
  · refine ExecuteHelicopterMode_agree e.SW1 rest rest1 _ s4 ?_ h4
    exact ModesAgree_of_same (s := Run_Kernel.beforeMode e s) ⟨rfl, rfl, rfl⟩ hb
  · cases h4
    exact hb

theorem initAlt_loop_modes (envs : List Env) :
    ∀ (k : Int) (s s1 : Sys) (rest : List Env),
      initAlt.loop envs k s = Outcome.returned s1 rest → SameModes s s1 := by
  induction envs with
  | nil =>
    intro k s s1 rest h
    cases h
  | cons e later ih =>
    intro k s s1 rest h
    unfold initAlt.loop at h
    dsimp only at h
    have f0 := SameModes_of_frame (interrupts_frame e s)
    have f1 := SameModes_of_frame (SysTick_frame (interrupts e s))
    have f2 : SameModes (SysTick (interrupts e s))
        (match e.ADCIntAfterTrigger with
          | some ulValue => ADCIntHandler ulValue (SysTick (interrupts e s))
          | none => SysTick (interrupts e s)) := by
      cases e.ADCIntAfterTrigger <;> exact ⟨rfl, rfl, rfl⟩
    split_ifs at h with ht hc
    · cases h
      exact SameModes_comp (SameModes_comp (SameModes_comp f0 f1) f2) ⟨rfl, rfl, rfl⟩
    · exact SameModes_comp (SameModes_comp (SameModes_comp f0 f1) f2) (ih _ _ _ _ h)
    · exact SameModes_comp f0 (ih _ _ _ _ h)

/-- C26: the start-up machine has mode USER_DISABLED, submode LANDED and
`EnableLanding` clear, and `initAlt` returns with the three indicators as they
were; `AdjustHeli`, `ControllerImplementation`, `SysTick` and `ExecuteYawInt`
leave all three as they were; and whenever the indicators agree (mode
USER_ENABLED exactly when submode FLY exactly when `EnableLanding` is set)
before `ExecuteHelicopterMode` is called, or at the start of a pass of
`Run_Kernel`, they agree again when the call returns, and at the end of the
pass. -/
theorem C26_mode_indicators_agree :
    ModesAgree bootSys ∧
    (∀ (envs rest : List Env) (s1 : Sys),
      initAlt envs bootSys = Outcome.returned s1 rest → ModesAgree s1) ∧
    (∀ (UP DOWN RIGHT LEFT : Bool) (s : Sys), SameModes s (AdjustHeli UP DOWN RIGHT LEFT s)) ∧
    (∀ s : Sys, SameModes s (ControllerImplementation s)) ∧
    (∀ s : Sys, SameModes s (SysTick s)) ∧
    (∀ (currentRead : Int) (s : Sys) (heli1 : Helicopter),
      ExecuteYawInt currentRead s.heli = some heli1 → SameModes s { s with heli := heli1 }) ∧
    (∀ (SW1 : Bool) (envs rest : List Env) (s s1 : Sys), ModesAgree s →
      ExecuteHelicopterMode SW1 envs s = Outcome.returned s1 rest → ModesAgree s1) ∧
    (∀ (e : Env) (rest rest1 : List Env) (s s1 : Sys), ModesAgree s →
      Run_Kernel.pass e rest s = Outcome.returned s1 rest1 → ModesAgree s1) := by
  have hboot : ModesAgree bootSys := by
    unfold ModesAgree
    decide
  refine ⟨hboot, ?_, AdjustHeli_modes, fun s => ⟨rfl, rfl, rfl⟩,
    fun s => SameModes_of_frame (SysTick_frame s), ?_, ?_, ?_⟩
  · intro envs rest s1 h
    exact ModesAgree_of_same (initAlt_loop_modes envs 0 bootSys s1 rest h) hboot
  · intro c s heli1 h
    obtain ⟨h1, h2, _⟩ := ExecuteYawInt_frame c s.heli heli1 h
    exact ⟨h2, h1, rfl⟩
  · intro SW1 envs rest s s1 ha h
    exact ExecuteHelicopterMode_agree SW1 envs rest s s1 ha h
  · intro e rest rest1 s s1 ha h
    exact Run_Kernel_pass_agree e rest rest1 s s1 ha h

/-- C26 on a takeoff from the start-up machine (reference 100 over an all-zero
ring): the call returns and the three indicators agree in the state it
returns, all three being set. -/
theorem C26_mode_indicators_agree_witness :
    ∃ s1 : Sys,
      ExecuteHelicopterMode true
          [{ quietEnv with SysTickInt := true }, { quietEnv with YawRefInt := true }, quietEnv]
          (exampleSys (List.replicate 25 0) 0 100) = Outcome.returned s1 [quietEnv] ∧
      ModesAgree s1 ∧ s1.heli.mode = Mode.USER_ENABLED := by
  have hret : (ExecuteHelicopterMode true
      [{ quietEnv with SysTickInt := true }, { quietEnv with YawRefInt := true }, quietEnv]
      (exampleSys (List.replicate 25 0) 0 100)).isReturned = true := by decide
  have hmode : (ExecuteHelicopterMode true
      [{ quietEnv with SysTickInt := true }, { quietEnv with YawRefInt := true }, quietEnv]
      (exampleSys (List.replicate 25 0) 0 100)).sys.map (fun s => s.heli.mode) =
      some Mode.USER_ENABLED := by decide
  have hrest : ∀ s1 rest, ExecuteHelicopterMode true
      [{ quietEnv with SysTickInt := true }, { quietEnv with YawRefInt := true }, quietEnv]
      (exampleSys (List.replicate 25 0) 0 100) = Outcome.returned s1 rest → rest = [quietEnv] := by
    intro s1 rest h
    have h2 : (ExecuteHelicopterMode true
        [{ quietEnv with SysTickInt := true }, { quietEnv with YawRefInt := true }, quietEnv]
        (exampleSys (List.replicate 25 0) 0 100)).mapSys (fun _ => bootSys) =
        Outcome.returned bootSys [quietEnv] := by decide
    rw [h] at h2
    cases h2
    rfl
  cases hk : ExecuteHelicopterMode true
      [{ quietEnv with SysTickInt := true }, { quietEnv with YawRefInt := true }, quietEnv]
      (exampleSys (List.replicate 25 0) 0 100) with
  | returned s1 rest =>
    have hr := hrest s1 rest hk
    subst hr
    rw [hk] at hmode
    refine ⟨s1, rfl, ?_, by simpa [Outcome.sys] using hmode⟩
    exact C26_mode_indicators_agree.2.2.2.2.2.2.1 true _ _ _ s1 (by unfold ModesAgree; decide) hk
  | reset s1 => rw [hk] at hret; exact absurd hret (by simp [Outcome.isReturned])
  | fault => rw [hk] at hret; exact absurd hret (by decide)
  | starved s1 => rw [hk] at hret; exact absurd hret (by simp [Outcome.isReturned])

/-! ## The integral increment and the tick after a pivot capture (rotors.c, mode.c) -/

theorem tdiv_100_eq_zero_iff (k e : Int) :
    Int.tdiv (k * e) 100 = 0 ↔ |k * e| < 100 := by
  rw [abs_lt]
  rcases le_total 0 (k * e) with h | h
  · rw [tdiv_of_nonneg _ 100 h (by norm_num)]
    omega
  · rw [tdiv_of_nonpos _ 100 h (by norm_num)]
    omega

theorem main_controller_I (heli : Helicopter) :
    (main_controller heli).2.mainrotor.I =
      heli.mainrotor.I + Int.tdiv (heli.mainrotor.Ki *
        (heli.controller.altitudesetpoint - heli.controller.curr_altitude_reading)) 100 := rfl

theorem tail_controller_I (heli : Helicopter) :
    (tail_controller heli).2.tailrotor.I =
      heli.tailrotor.I + Int.tdiv (heli.tailrotor.Ki *
        (heli.controller.yawanglesetpoint - heli.controller.curr_yawangle_reading)) 100 := rfl

theorem main_controller_I_unchanged_iff (heli : Helicopter) (hm : heli.mainrotor.Ki = 10) :
    (main_controller heli).2.mainrotor.I = heli.mainrotor.I ↔
      |heli.controller.altitudesetpoint - heli.controller.curr_altitude_reading| < 10 := by
  rw [main_controller_I, hm]
  generalize heli.controller.altitudesetpoint - heli.controller.curr_altitude_reading = e
  have h := tdiv_100_eq_zero_iff 10 e
  rw [abs_lt] at h ⊢
  constructor
  · intro h1
    have := h.mp (by omega)
    omega
  · intro h1
    have := h.mpr (by omega)
    omega

theorem tail_controller_I_unchanged_iff (heli : Helicopter) (ht : heli.tailrotor.Ki = 2) :
    (tail_controller heli).2.tailrotor.I = heli.tailrotor.I ↔
      |heli.controller.yawanglesetpoint - heli.controller.curr_yawangle_reading| < 50 := by
  rw [tail_controller_I, ht]
  generalize heli.controller.yawanglesetpoint - heli.controller.curr_yawangle_reading = e
  have h := tdiv_100_eq_zero_iff 2 e
  rw [abs_lt] at h ⊢
  constructor
  · intro h1
    have := h.mp (by omega)
    omega
  · intro h1
    have := h.mpr (by omega)
    omega

theorem main_controller_fold_I (cs : List Controller) :
    ∀ heli : Helicopter, heli.mainrotor.Ki = 10 →
      (∀ c ∈ cs, |c.altitudesetpoint - c.curr_altitude_reading| < 10) →
      (cs.foldl (fun h c => (main_controller { h with controller := c }).2) heli).mainrotor.I =
        heli.mainrotor.I := by
  induction cs with
  | nil => intro heli _ _; rfl
  | cons c later ih =>
    intro heli hm hsmall
    rw [List.foldl_cons, ih (main_controller { heli with controller := c }).2 hm
      (fun d hd => hsmall d (List.mem_cons_of_mem _ hd))]
    exact (main_controller_I_unchanged_iff { heli with controller := c } hm).mpr
      (hsmall c (List.mem_cons_self _ _))

theorem tail_controller_fold_I (cs : List Controller) :
    ∀ heli : Helicopter, heli.tailrotor.Ki = 2 →
      (∀ c ∈ cs, |c.yawanglesetpoint - c.curr_yawangle_reading| < 50) →
      (cs.foldl (fun h c => (tail_controller { h with controller := c }).2) heli).tailrotor.I =
        heli.tailrotor.I := by
  induction cs with
  | nil => intro heli _ _; rfl
  | cons c later ih =>
    intro heli ht hsmall
    rw [List.foldl_cons, ih (tail_controller { heli with controller := c }).2 ht
      (fun d hd => hsmall d (List.mem_cons_of_mem _ hd))]
    exact (tail_controller_I_unchanged_iff { heli with controller := c } ht).mpr
      (hsmall c (List.mem_cons_self _ _))

/-- C27: `NewHeli` sets the integral gains to 10 (main) and 2 (tail).  With
those gains the increment `trunc(Ki * e / 100)` is 0 exactly when `|e| < 10`
on the main channel and exactly when `|e| < 50` on the tail channel, so a
call of `main_controller` or `tail_controller` leaves its integral accumulator
unchanged exactly for such an error, and so does any number of calls, whatever
the readings and setpoints of each call, as long as every error stays below
that magnitude. -/
theorem C27_small_error_leaves_integral (heli : Helicopter)
    (hm : heli.mainrotor.Ki = 10) (ht : heli.tailrotor.Ki = 2) :
    NewHeli.mainrotor.Ki = 10 ∧ NewHeli.tailrotor.Ki = 2 ∧
    (Int.tdiv (heli.mainrotor.Ki *
        (heli.controller.altitudesetpoint - heli.controller.curr_altitude_reading)) 100 = 0 ↔
      |heli.controller.altitudesetpoint - heli.controller.curr_altitude_reading| < 10) ∧
    (Int.tdiv (heli.tailrotor.Ki *
        (heli.controller.yawanglesetpoint - heli.controller.curr_yawangle_reading)) 100 = 0 ↔
      |heli.controller.yawanglesetpoint - heli.controller.curr_yawangle_reading| < 50) ∧
    ((main_controller heli).2.mainrotor.I = heli.mainrotor.I ↔
      |heli.controller.altitudesetpoint - heli.controller.curr_altitude_reading| < 10) ∧
    ((tail_controller heli).2.tailrotor.I = heli.tailrotor.I ↔
      |heli.controller.yawanglesetpoint - heli.controller.curr_yawangle_reading| < 50) ∧
    (∀ cs : List Controller,
      (∀ c ∈ cs, |c.altitudesetpoint - c.curr_altitude_reading| < 10) →
      (cs.foldl (fun h c => (main_controller { h with controller := c }).2) heli).mainrotor.I =
        heli.mainrotor.I) ∧
    (∀ cs : List Controller,
      (∀ c ∈ cs, |c.yawanglesetpoint - c.curr_yawangle_reading| < 50) →
      (cs.foldl (fun h c => (tail_controller { h with controller := c }).2) heli).tailrotor.I =
        heli.tailrotor.I) := by
  have hmI := main_controller_I_unchanged_iff heli hm
  have htI := tail_controller_I_unchanged_iff heli ht
  refine ⟨rfl, rfl, ?_, ?_, hmI, htI, fun cs h => main_controller_fold_I cs heli hm h,
    fun cs h => tail_controller_fold_I cs heli ht h⟩
  · rw [← hmI, main_controller_I]
    constructor <;> intro h <;> omega
  · rw [← htI, tail_controller_I]
    constructor <;> intro h <;> omega

/-- C27 on the start-up aircraft with altitude setpoint 9 and yaw setpoint -49
(readings 0): neither controller moves its accumulator, while at altitude
setpoint 10 the main accumulator moves by 1. -/
theorem C27_small_error_leaves_integral_witness :
    (main_controller { NewHeli with controller := { NewHeli.controller with
      altitudesetpoint := 9, yawanglesetpoint := -49 } }).2.mainrotor.I = 0 ∧
    (tail_controller { NewHeli with controller := { NewHeli.controller with
      altitudesetpoint := 9, yawanglesetpoint := -49 } }).2.tailrotor.I = 0 ∧
    (main_controller { NewHeli with controller := { NewHeli.controller with
      altitudesetpoint := 10 } }).2.mainrotor.I = 1 :=
  ⟨(C27_small_error_leaves_integral { NewHeli with controller := { NewHeli.controller with
      altitudesetpoint := 9, yawanglesetpoint := -49 } } rfl rfl).2.2.2.2.1.mpr (by decide),
    (C27_small_error_leaves_integral { NewHeli with controller := { NewHeli.controller with
      altitudesetpoint := 9, yawanglesetpoint := -49 } } rfl rfl).2.2.2.2.2.1.mpr (by decide),
    by decide⟩

theorem tail_controller_after_capture (h : Helicopter)
    (h1 : h.controller.yawanglesetpoint = 0) (h2 : h.controller.curr_yawangle_reading = 0) :
    (tail_controller h).1 =
      Int.tdiv (h.tailrotor.I + h.tailrotor.Kd * h.controller.prev_yawangle_reading * 100)
        1000 ∧
    (tail_controller h).2.tailrotor.I = h.tailrotor.I := by
  have hd : Int.tdiv 0 100 = 0 := rfl
  constructor
  · simp only [tail_controller, h1, h2, hd, sub_self, mul_zero, add_zero, zero_add, sub_zero,
      GAIN_DIVIDE_FACTOR]
  · simp only [tail_controller, h1, h2, hd, sub_self, mul_zero, add_zero]

theorem ControllerImplementation_prev_yawangle (s : Sys) :
    (ControllerImplementation s).heli.controller.prev_yawangle_reading =
      s.heli.controller.curr_yawangle_reading := rfl

theorem LocatePivot_tick_prev_yawangle (e : Env) (s : Sys) :
    (LocatePivot.tick e s).heli.controller.prev_yawangle_reading =
      s.heli.controller.curr_yawangle_reading := by
  rw [LocatePivot_tick_eq]
  rfl

theorem serviceYaw_prev_yawangle (e : Env) (s s1 : Sys) (h : serviceYaw e s = some s1) :
    s1.heli.controller.prev_yawangle_reading = s.heli.controller.prev_yawangle_reading ∧
    s1.heli.tailrotor = s.heli.tailrotor := by
  unfold serviceYaw at h
  dsimp only at h
  split_ifs at h
  · cases hx : ExecuteYawInt (ReadQuadrectureDecoder e.PB0 e.PB1) s.heli with
    | none => rw [hx] at h; cases h
    | some heli1 =>
      rw [hx] at h
      cases h
      unfold ExecuteYawInt at hx
      dsimp only at hx
      split_ifs at hx
      split at hx
      · cases hx
      · cases hx
        exact ⟨rfl, rfl⟩
  · cases h
    exact ⟨rfl, rfl⟩

/-- C28: when `LocatePivot` returns, the three assignments after its loop
have zeroed `curr_yawangle_reading` and `yawanglesetpoint` (and cleared
`YawRefFlag`) and left `prev_yawangle_reading` and the tail rotor record, its
integral accumulator included, as the loop left them.  The next
`tail_controller` call on that aircraft, also when it comes after
`CalculateAltitude` and `main_controller` inside a control tick, therefore has
error 0, leaves the accumulator `I` unchanged and returns
`trunc((I + Kd * r * 100) / 1000)`, which is `trunc((I + 20000 * r) / 1000)`
for `Kd = 200`, where `r` is the stored `prev_yawangle_reading`: the yaw
reading that the last control tick used, which a pivot-search tick sets to the
reading it runs on and which a quadrature edge does not change. -/
theorem C28_first_tail_tick_after_capture (envs rest : List Env) (s s1 : Sys)
    (h : LocatePivot envs s = Outcome.returned s1 rest) :
    ∃ s0 : Sys, LocatePivot.loop envs { s with YawRefFlag := 0 } = Outcome.returned s0 rest ∧
      s1 = LocatePivot.finish s0 ∧
      s1.heli.controller.curr_yawangle_reading = 0 ∧
      s1.heli.controller.yawanglesetpoint = 0 ∧
      s1.heli.controller.prev_yawangle_reading = s0.heli.controller.prev_yawangle_reading ∧
      s1.heli.tailrotor = s0.heli.tailrotor ∧
      s1.heli.controller.yawanglesetpoint - s1.heli.controller.curr_yawangle_reading = 0 ∧
      (tail_controller s1.heli).1 =
        Int.tdiv (s0.heli.tailrotor.I +
          s0.heli.tailrotor.Kd * s0.heli.controller.prev_yawangle_reading * 100) 1000 ∧
      (tail_controller (main_controller (CalculateAltitude s1).heli).2).1 =
        Int.tdiv (s0.heli.tailrotor.I +
          s0.heli.tailrotor.Kd * s0.heli.controller.prev_yawangle_reading * 100) 1000 ∧
      (tail_controller s1.heli).2.tailrotor.I = s0.heli.tailrotor.I ∧
      (s0.heli.tailrotor.Kd = 200 →
        (tail_controller s1.heli).1 =
          Int.tdiv (s0.heli.tailrotor.I + 20000 * s0.heli.controller.prev_yawangle_reading)
            1000) ∧
      (∀ (e : Env) (x : Sys),
        (LocatePivot.tick e x).heli.controller.prev_yawangle_reading =
          x.heli.controller.curr_yawangle_reading) ∧
      (∀ (e : Env) (x x1 : Sys), serviceYaw e x = some x1 →
        x1.heli.controller.prev_yawangle_reading = x.heli.controller.prev_yawangle_reading ∧
        x1.heli.tailrotor = x.heli.tailrotor) := by
  obtain ⟨s0, hloop, hs1⟩ := LocatePivot_returned envs rest s s1 h
  subst hs1
  have ht := tail_controller_after_capture (LocatePivot.finish s0).heli rfl rfl
  have ht2 := tail_controller_after_capture
    (main_controller (CalculateAltitude (LocatePivot.finish s0)).heli).2 rfl rfl
  refine ⟨s0, hloop, rfl, rfl, rfl, rfl, rfl, rfl, ht.1, ht2.1, ht.2, ?_,
    LocatePivot_tick_prev_yawangle, serviceYaw_prev_yawangle⟩
  intro hk
  rw [ht.1]
  show Int.tdiv (s0.heli.tailrotor.I +
    s0.heli.tailrotor.Kd * s0.heli.controller.prev_yawangle_reading * 100) 1000 = _
  rw [hk]
  congr 2
  ring

/-- C28 on a pivot search that starts at yaw reading 30: one timer tick runs
the control tick on reading 30, then the reference mark arrives.
`LocatePivot` returns, and the next tail controller call returns
`trunc((0 + 20000 * 30) / 1000) = 600` although its error is 0. -/
theorem C28_first_tail_tick_after_capture_witness :
    ∃ s1 : Sys,
      LocatePivot
          [{ quietEnv with SysTickInt := true }, { quietEnv with YawRefInt := true }, quietEnv]
          { bootSys with heli := exampleYaw 30 0 } = Outcome.returned s1 [quietEnv] ∧
      s1.heli.controller.yawanglesetpoint - s1.heli.controller.curr_yawangle_reading = 0 ∧
      (tail_controller s1.heli).1 = 600 := by
  have hret : (LocatePivot
      [{ quietEnv with SysTickInt := true }, { quietEnv with YawRefInt := true }, quietEnv]
      { bootSys with heli := exampleYaw 30 0 }).isReturned = true := by decide
  have hval : (LocatePivot
      [{ quietEnv with SysTickInt := true }, { quietEnv with YawRefInt := true }, quietEnv]
      { bootSys with heli := exampleYaw 30 0 }).sys.map
        (fun x => (x.heli.controller.prev_yawangle_reading, x.heli.tailrotor.I,
          x.heli.tailrotor.Kd)) = some (30, 0, 200) := by decide
  have hrest : (LocatePivot
      [{ quietEnv with SysTickInt := true }, { quietEnv with YawRefInt := true }, quietEnv]
      { bootSys with heli := exampleYaw 30 0 }).mapSys (fun _ => bootSys) =
      Outcome.returned bootSys [quietEnv] := by decide
  cases hk : LocatePivot
      [{ quietEnv with SysTickInt := true }, { quietEnv with YawRefInt := true }, quietEnv]
      { bootSys with heli := exampleYaw 30 0 } with
  | returned s1 rest =>
    rw [hk] at hval hrest
    cases hrest
    obtain ⟨s0, _, _, _, _, hprev, htail, herr, ht, _⟩ :=
      C28_first_tail_tick_after_capture _ _ _ s1 hk
    refine ⟨s1, rfl, herr, ?_⟩
    simp only [Outcome.sys, Option.map_some', Option.some.injEq, Prod.mk.injEq] at hval
    rw [ht, ← htail, ← hprev, hval.1, hval.2.1, hval.2.2]
    decide
  | reset s1 => rw [hk] at hret; exact absurd hret (by simp [Outcome.isReturned])
  | fault => rw [hk] at hret; exact absurd hret (by decide)
  | starved s1 => rw [hk] at hret; exact absurd hret (by simp [Outcome.isReturned])

/-! ## The quadrature table (yaw.c) -/

theorem adjust_table_antisymm (a b : Int) (ha : 0 ≤ a ∧ a ≤ 3) (hb : 0 ≤ b ∧ b ≤ 3) :
    ∃ x : Int, 0 ≤ Int.lor (a <<< (2 : Int)) b ∧ 0 ≤ Int.lor (b <<< (2 : Int)) a ∧
      adjust_table[(Int.lor (a <<< (2 : Int)) b).toNat]? = some x ∧
      adjust_table[(Int.lor (b <<< (2 : Int)) a).toNat]? = some (-x) := by
  obtain ⟨ha0, ha3⟩ := ha
  obtain ⟨hb0, hb3⟩ := hb
  interval_cases a <;> interval_cases b <;>
    exact ⟨_, by decide, by decide, rfl, by decide⟩

theorem ExecuteYawInt_edge_and_back (heli : Helicopter) (a b x : Int)
    (hprev : heli.controller.prev_yaw_reading = a)
    (h0 : 0 ≤ Int.lor (b <<< (2 : Int)) a)
    (h1 : adjust_table[(Int.lor (b <<< (2 : Int)) a).toNat]? = some x)
    (h0b : 0 ≤ Int.lor (a <<< (2 : Int)) b)
    (h2 : adjust_table[(Int.lor (a <<< (2 : Int)) b).toNat]? = some (-x)) :
    ∃ heli2 : Helicopter, ExecuteYawInt.run [b, a] heli = some heli2 ∧
      (heli2.controller.curr_yawangle_reading - heli.controller.curr_yawangle_reading) % 448 = 0 ∧
      heli2.controller.prev_yaw_reading = a := by
  simp only [ExecuteYawInt.run]
  rw [ExecuteYawInt_eq b a x heli hprev h0 h1]
  dsimp only
  rw [ExecuteYawInt_eq a b (-x) _ rfl h0b h2]
  refine ⟨_, rfl, ?_, rfl⟩
  dsimp only
  have e1 := (tmod_448_bounds (heli.controller.curr_yawangle_reading + x)).2
  have e2 := (tmod_448_bounds
    (Int.tmod (heli.controller.curr_yawangle_reading + x) 448 + -x)).2
  omega

theorem ExecuteYawInt_four_edges (heli : Helicopter) (c1 c2 c3 c4 d : Int)
    (hprev : heli.controller.prev_yaw_reading = c4)
    (h1 : 0 ≤ Int.lor (c1 <<< (2 : Int)) c4 ∧
      adjust_table[(Int.lor (c1 <<< (2 : Int)) c4).toNat]? = some d)
    (h2 : 0 ≤ Int.lor (c2 <<< (2 : Int)) c1 ∧
      adjust_table[(Int.lor (c2 <<< (2 : Int)) c1).toNat]? = some d)
    (h3 : 0 ≤ Int.lor (c3 <<< (2 : Int)) c2 ∧
      adjust_table[(Int.lor (c3 <<< (2 : Int)) c2).toNat]? = some d)
    (h4 : 0 ≤ Int.lor (c4 <<< (2 : Int)) c3 ∧
      adjust_table[(Int.lor (c4 <<< (2 : Int)) c3).toNat]? = some d) :
    ∃ heli4 : Helicopter, ExecuteYawInt.run [c1, c2, c3, c4] heli = some heli4 ∧
      (heli4.controller.curr_yawangle_reading -
        (heli.controller.curr_yawangle_reading + 4 * d)) % 448 = 0 ∧
      heli4.controller.prev_yaw_reading = c4 := by
  simp only [ExecuteYawInt.run]
  rw [ExecuteYawInt_eq c1 c4 d heli hprev h1.1 h1.2]
  dsimp only
  rw [ExecuteYawInt_eq c2 c1 d _ rfl h2.1 h2.2]
  dsimp only
  rw [ExecuteYawInt_eq c3 c2 d _ rfl h3.1 h3.2]
  dsimp only
  rw [ExecuteYawInt_eq c4 c3 d _ rfl h4.1 h4.2]
  refine ⟨_, rfl, ?_, rfl⟩
  dsimp only
  generalize heli.controller.curr_yawangle_reading = p
  have e1 := (tmod_448_bounds (p + d)).2
  have e2 := (tmod_448_bounds (Int.tmod (p + d) 448 + d)).2
  have e3 := (tmod_448_bounds (Int.tmod (Int.tmod (p + d) 448 + d) 448 + d)).2
  have e4 := (tmod_448_bounds
    (Int.tmod (Int.tmod (Int.tmod (p + d) 448 + d) 448 + d) 448 + d)).2
  omega

/-- C29: for codes `a`, `b` in {0,1,2,3} the table entry for the edge from `a`
to `b` is the negative of the entry for the edge from `b` to `a`; the four
edges of the Gray cycle 0, 1, 3, 2, 0 all have entry -1 and the four edges of
the reverse cycle all have entry +1.  So, from stored code `a`, an edge to `b`
followed by the edge back to `a` leaves the position congruent modulo 448 to
what it was, a full Gray cycle from `a` leaves it congruent to the position
minus 4, and a full reverse cycle congruent to the position plus 4; the
stored code is `a` again in each case. -/
theorem C29_quadrature_table (heli : Helicopter) (a b : Int)
    (ha : 0 ≤ a ∧ a ≤ 3) (hb : 0 ≤ b ∧ b ≤ 3)
    (hprev : heli.controller.prev_yaw_reading = a) :
    (∃ x : Int, adjust_table[(Int.lor (b <<< (2 : Int)) a).toNat]? = some x ∧
      adjust_table[(Int.lor (a <<< (2 : Int)) b).toNat]? = some (-x)) ∧
    (adjust_table[(Int.lor ((1 : Int) <<< (2 : Int)) 0).toNat]? = some (-1) ∧
      adjust_table[(Int.lor ((3 : Int) <<< (2 : Int)) 1).toNat]? = some (-1) ∧
      adjust_table[(Int.lor ((2 : Int) <<< (2 : Int)) 3).toNat]? = some (-1) ∧
      adjust_table[(Int.lor ((0 : Int) <<< (2 : Int)) 2).toNat]? = some (-1)) ∧
    (adjust_table[(Int.lor ((2 : Int) <<< (2 : Int)) 0).toNat]? = some 1 ∧
      adjust_table[(Int.lor ((3 : Int) <<< (2 : Int)) 2).toNat]? = some 1 ∧
      adjust_table[(Int.lor ((1 : Int) <<< (2 : Int)) 3).toNat]? = some 1 ∧
      adjust_table[(Int.lor ((0 : Int) <<< (2 : Int)) 1).toNat]? = some 1) ∧
    (∃ heli2 : Helicopter, ExecuteYawInt.run [b, a] heli = some heli2 ∧
      (heli2.controller.curr_yawangle_reading -
        heli.controller.curr_yawangle_reading) % 448 = 0 ∧
      heli2.controller.prev_yaw_reading = a) ∧
    (∀ cycle : List Int,
      (a, cycle) ∈ [((0 : Int), [(1 : Int), 3, 2, 0]), (1, [3, 2, 0, 1]), (3, [2, 0, 1, 3]),
        (2, [0, 1, 3, 2])] →
      ∃ heli4 : Helicopter, ExecuteYawInt.run cycle heli = some heli4 ∧
        (heli4.controller.curr_yawangle_reading -
          (heli.controller.curr_yawangle_reading - 4)) % 448 = 0 ∧
        heli4.controller.prev_yaw_reading = a) ∧
    (∀ cycle : List Int,
      (a, cycle) ∈ [((0 : Int), [(2 : Int), 3, 1, 0]), (2, [3, 1, 0, 2]), (3, [1, 0, 2, 3]),
        (1, [0, 2, 3, 1])] →
      ∃ heli4 : Helicopter, ExecuteYawInt.run cycle heli = some heli4 ∧
        (heli4.controller.curr_yawangle_reading -
          (heli.controller.curr_yawangle_reading + 4)) % 448 = 0 ∧
        heli4.controller.prev_yaw_reading = a) := by
  obtain ⟨x, h0, h0b, h1, h2⟩ := adjust_table_antisymm b a hb ha
  refine ⟨⟨x, h1, h2⟩, by decide, by decide,
    ExecuteYawInt_edge_and_back heli a b x hprev h0 h1 h0b h2, ?_, ?_⟩
  · intro cycle hmem
    simp only [List.mem_cons, Prod.mk.injEq, List.mem_singleton, List.not_mem_nil,
      or_false] at hmem
    rcases hmem with ⟨h, rfl⟩ | ⟨h, rfl⟩ | ⟨h, rfl⟩ | ⟨h, rfl⟩
    · subst h
      obtain ⟨heli4, hr, hc, hp⟩ := ExecuteYawInt_four_edges heli 1 3 2 0 (-1) hprev
        ⟨by decide, by decide⟩ ⟨by decide, by decide⟩ ⟨by decide, by decide⟩
        ⟨by decide, by decide⟩
      exact ⟨heli4, hr, by omega, hp⟩
    · subst h
      obtain ⟨heli4, hr, hc, hp⟩ := ExecuteYawInt_four_edges heli 3 2 0 1 (-1) hprev
        ⟨by decide, by decide⟩ ⟨by decide, by decide⟩ ⟨by decide, by decide⟩
        ⟨by decide, by decide⟩
      exact ⟨heli4, hr, by omega, hp⟩
    · subst h
      obtain ⟨heli4, hr, hc, hp⟩ := ExecuteYawInt_four_edges heli 2 0 1 3 (-1) hprev
        ⟨by decide, by decide⟩ ⟨by decide, by decide⟩ ⟨by decide, by decide⟩
        ⟨by decide, by decide⟩
      exact ⟨heli4, hr, by omega, hp⟩
    · subst h
      obtain ⟨heli4, hr, hc, hp⟩ := ExecuteYawInt_four_edges heli 0 1 3 2 (-1) hprev
        ⟨by decide, by decide⟩ ⟨by decide, by decide⟩ ⟨by decide, by decide⟩
        ⟨by decide, by decide⟩
      exact ⟨heli4, hr, by omega, hp⟩
  · intro cycle hmem
    simp only [List.mem_cons, Prod.mk.injEq, List.mem_singleton, List.not_mem_nil,
      or_false] at hmem
    rcases hmem with ⟨h, rfl⟩ | ⟨h, rfl⟩ | ⟨h, rfl⟩ | ⟨h, rfl⟩
    · subst h
      obtain ⟨heli4, hr, hc, hp⟩ := ExecuteYawInt_four_edges heli 2 3 1 0 (1) hprev
        ⟨by decide, by decide⟩ ⟨by decide, by decide⟩ ⟨by decide, by decide⟩
        ⟨by decide, by decide⟩
      exact ⟨heli4, hr, by omega, hp⟩
    · subst h
      obtain ⟨heli4, hr, hc, hp⟩ := ExecuteYawInt_four_edges heli 3 1 0 2 (1) hprev
        ⟨by decide, by decide⟩ ⟨by decide, by decide⟩ ⟨by decide, by decide⟩
        ⟨by decide, by decide⟩
      exact ⟨heli4, hr, by omega, hp⟩
    · subst h
      obtain ⟨heli4, hr, hc, hp⟩ := ExecuteYawInt_four_edges heli 1 0 2 3 (1) hprev
        ⟨by decide, by decide⟩ ⟨by decide, by decide⟩ ⟨by decide, by decide⟩
        ⟨by decide, by decide⟩
      exact ⟨heli4, hr, by omega, hp⟩
    · subst h
      obtain ⟨heli4, hr, hc, hp⟩ := ExecuteYawInt_four_edges heli 0 2 3 1 (1) hprev
        ⟨by decide, by decide⟩ ⟨by decide, by decide⟩ ⟨by decide, by decide⟩
        ⟨by decide, by decide⟩
      exact ⟨heli4, hr, by omega, hp⟩

/-- C29 at position 447 with stored code 0: the edge to code 2 and the edge
back give position -1, congruent to 447 modulo 448, and the Gray cycle
1, 3, 2, 0 gives position 443. -/
theorem C29_quadrature_table_witness :
    ExecuteYawInt.run [2, 0] (exampleYaw 447 0) = some (exampleYaw (-1) 0) ∧
    ExecuteYawInt.run [1, 3, 2, 0] (exampleYaw 447 0) = some (exampleYaw 443 0) ∧
    (∃ heli2 : Helicopter, ExecuteYawInt.run [2, 0] (exampleYaw 447 0) = some heli2 ∧
      (heli2.controller.curr_yawangle_reading -
        (exampleYaw 447 0).controller.curr_yawangle_reading) % 448 = 0 ∧
      heli2.controller.prev_yaw_reading = 0) :=
  ⟨by decide, by decide,
    (C29_quadrature_table (exampleYaw 447 0) 0 2 (by decide) (by decide) rfl).2.2.2.1⟩

/-! ## The duty fields after a landing (kernel.c, mode.c) -/

/-- The loop of `initAlt` counts `SysTick` calls, not samples.  When every
conversion completes only after the pass that triggered it (each sample, value
1000, is stored at the start of the next pass), the 25th call still ends the
loop: 24 samples are in the ring, the last slot holds its initial 0, and the
reference is 960. -/
theorem initAlt_with_conversion_outstanding :
    (initAlt
        ({ quietEnv with SysTickInt := true } ::
          List.replicate 24 { quietEnv with ADCInt := some 1000 } ++ [quietEnv])
        bootSys).isReturned = true ∧
    (initAlt
        ({ quietEnv with SysTickInt := true } ::
          List.replicate 24 { quietEnv with ADCInt := some 1000 } ++ [quietEnv])
        bootSys).sys.map
      (fun s => (s.g_inBuffer.windex, s.g_inBuffer.data, s.heli.buffer.meanVal,
        s.heli.buffer.refAltADC, s.DeltaTFlag)) =
      some (24, List.replicate 24 1000 ++ [0], 960, 960, 1) := by
  decide

end Heli
